import Mathlib

/-!
# CalcProtocol client: arithmetic engine, wire codec and handshake routines

A shallow embedding of `calcLib.c`, `protocol.h` and the handshake routines of
`clientmain.cpp`, followed by theorems about them.

Conventions of the embedding:
* a byte is a `Nat` below 256; text is a list of bytes (character codes);
* `int32_t` values are `Int`s in `[-2^31, 2^31)`, `uint16_t`/`uint32_t` values are `Nat`s;
* `+`, `-`, `*` on `int32_t` wrap modulo `2^32` (two's complement);
* `/` on `int32_t` has no value when the divisor is zero or the quotient is not
  representable (`INT32_MIN / -1`): the program has undefined behaviour there
  (a divide-error trap on x86), which is rendered as `none`.
-/

namespace CalcClient

/-! ## protocol.h -/

def MAJOR_VERSION : Nat := 1
def MINOR_VERSION : Nat := 1
def MSG_TYPE_CALC_MESSAGE : Nat := 22
def MSG_TYPE_CALC_PROTOCOL : Nat := 1
def MSG_TYPE_NOT_OK : Nat := 2
def PROTOCOL_UDP : Nat := 17
def ARITH_ADD : Nat := 1
def ARITH_SUB : Nat := 2
def ARITH_MUL : Nat := 3
def ARITH_DIV : Nat := 4

/-! ## Machine integers -/

def INT32_MIN : Int := -2147483648
def INT32_MAX : Int := 2147483647

/-- Membership in the range of `int32_t`. -/
def isInt32 (x : Int) : Prop := INT32_MIN ≤ x ∧ x ≤ INT32_MAX

instance (x : Int) : Decidable (isInt32 x) := by
  unfold isInt32; exact inferInstance

/-- Reduction of an exact integer to the `int32_t` with the same low 32 bits. -/
def wrap32 (x : Int) : Int := (x + 2147483648) % 4294967296 - 2147483648

/-- The operator `+` on two `int32_t` operands. -/
def int32_add (a b : Int) : Int := wrap32 (a + b)

/-- The operator `-` on two `int32_t` operands. -/
def int32_sub (a b : Int) : Int := wrap32 (a - b)

/-- The operator `*` on two `int32_t` operands. -/
def int32_mul (a b : Int) : Int := wrap32 (a * b)

/-- The operator `/` on two `int32_t` operands: the quotient truncated toward zero;
no value when the divisor is zero or the quotient is not representable. -/
def int32_div (a b : Int) : Option Int :=
  if b = 0 then none
  else if isInt32 (Int.tdiv a b) then some (Int.tdiv a b)
  else none

/-! ## calcLib.c -/

/-- The function `int32_t calculate(uint32_t operation, int32_t value1, int32_t value2)`.
`none` stands for an evaluation without a defined result. -/
def calculate (operation : Nat) (value1 value2 : Int) : Option Int :=
  if operation = ARITH_ADD then some (int32_add value1 value2)
  else if operation = ARITH_SUB then some (int32_sub value1 value2)
  else if operation = ARITH_MUL then some (int32_mul value1 value2)
  else if operation = ARITH_DIV then
    if value2 = 0 then some 0
    else int32_div value1 value2
  else some 0

/-- The bytes of a string literal. -/
def bytes (s : String) : List Nat := s.toList.map Char.toNat

/-- The function `tolower` in the "C" locale (the program never calls `setlocale`). -/
def tolower (c : Nat) : Nat := if 65 ≤ c ∧ c ≤ 90 then c + 32 else c

/-- The character read at the start of a character array holding a C string: past the
end of the stored contents stands the terminating NUL. -/
def headChar : List Nat → Nat
  | [] => 0
  | c :: _ => c

/-- The C string held in a character array: the characters before the first NUL. -/
def c_str (s : List Nat) : List Nat := s.takeWhile (fun c => c != 0)

/-- The function `strcasecmp(s1, s2)`: the difference of the first pair of characters that
differ after `tolower`, or 0 when both strings end together. -/
def strcasecmp : List Nat → List Nat → Int
  | [], s2 => (tolower 0 : Int) - (tolower (headChar s2) : Int)
  | c1 :: r1, s2 =>
    if tolower c1 ≠ tolower (headChar s2) then (tolower c1 : Int) - (tolower (headChar s2) : Int)
    else if c1 = 0 then 0
    else strcasecmp r1 s2.tail

/-- The function `uint32_t string_to_operation(const char* op_str)`. -/
def string_to_operation (op_str : List Nat) : Nat :=
  if strcasecmp op_str (bytes "add") = 0 then ARITH_ADD
  else if strcasecmp op_str (bytes "sub") = 0 then ARITH_SUB
  else if strcasecmp op_str (bytes "mul") = 0 then ARITH_MUL
  else if strcasecmp op_str (bytes "div") = 0 then ARITH_DIV
  else 0

/-- The function `const char* operation_to_string(uint32_t operation)`. -/
def operation_to_string (operation : Nat) : List Nat :=
  if operation = ARITH_ADD then bytes "add"
  else if operation = ARITH_SUB then bytes "sub"
  else if operation = ARITH_MUL then bytes "mul"
  else if operation = ARITH_DIV then bytes "div"
  else bytes "unknown"

/-! ## Byte order and the layout of the two records -/

/-- Byte order of the machine the client runs on. -/
inductive ByteOrder where
  | little
  | big
  deriving DecidableEq, Repr

/-- Exchange of the two bytes of a 16-bit value. -/
def bswap16 (v : Nat) : Nat := v % 256 * 256 + v / 256 % 256

/-- Reversal of the four bytes of a 32-bit value. -/
def bswap32 (v : Nat) : Nat :=
  v % 256 * 16777216 + v / 256 % 256 * 65536 + v / 65536 % 256 * 256 + v / 16777216 % 256

/-- The function `htons`: host to network (big-endian) order, 16 bits. -/
def htons (order : ByteOrder) (v : Nat) : Nat :=
  match order with
  | .little => bswap16 v
  | .big => v % 65536

/-- The function `htonl`: host to network order, 32 bits. -/
def htonl (order : ByteOrder) (v : Nat) : Nat :=
  match order with
  | .little => bswap32 v
  | .big => v % 4294967296

/-- The function `ntohs`: network to host order, 16 bits. -/
def ntohs (order : ByteOrder) (v : Nat) : Nat :=
  match order with
  | .little => bswap16 v
  | .big => v % 65536

/-- The function `ntohl`: network to host order, 32 bits. -/
def ntohl (order : ByteOrder) (v : Nat) : Nat :=
  match order with
  | .little => bswap32 v
  | .big => v % 4294967296

/-- The function `uint16_t hton16(uint16_t value)`. -/
def hton16 (order : ByteOrder) (value : Nat) : Nat := htons order value

/-- The function `uint32_t hton32(uint32_t value)`. -/
def hton32 (order : ByteOrder) (value : Nat) : Nat := htonl order value

/-- The function `uint16_t ntoh16(uint16_t value)`. -/
def ntoh16 (order : ByteOrder) (value : Nat) : Nat := ntohs order value

/-- The function `uint32_t ntoh32(uint32_t value)`. -/
def ntoh32 (order : ByteOrder) (value : Nat) : Nat := ntohl order value

/-- Conversion of an `int32_t` to `uint32_t` (argument passing to `hton32`/`ntoh32`). -/
def toUInt32 (x : Int) : Nat := (x % 4294967296).toNat

/-- Conversion of a `uint32_t` to `int32_t` (assignment to an `int32_t` field). -/
def toInt32 (v : Nat) : Int := wrap32 (v : Int)

/-- The two bytes a `uint16_t` object occupies in memory. -/
def store16 (order : ByteOrder) (v : Nat) : List Nat :=
  match order with
  | .little => [v % 256, v / 256 % 256]
  | .big => [v / 256 % 256, v % 256]

/-- The four bytes a `uint32_t` object occupies in memory. -/
def store32 (order : ByteOrder) (v : Nat) : List Nat :=
  match order with
  | .little => [v % 256, v / 256 % 256, v / 65536 % 256, v / 16777216 % 256]
  | .big => [v / 16777216 % 256, v / 65536 % 256, v / 256 % 256, v % 256]

/-- The `uint16_t` object stored in two bytes of memory. -/
def load16 (order : ByteOrder) (b0 b1 : Nat) : Nat :=
  match order with
  | .little => b0 + 256 * b1
  | .big => 256 * b0 + b1

/-- The `uint32_t` object stored in four bytes of memory. -/
def load32 (order : ByteOrder) (b0 b1 b2 b3 : Nat) : Nat :=
  match order with
  | .little => b0 + 256 * b1 + 65536 * b2 + 16777216 * b3
  | .big => 16777216 * b0 + 65536 * b1 + 256 * b2 + b3

/-- The packed `struct calcMessage`: the field values as the host reads them. -/
structure calcMessage where
  type : Nat
  message : Nat
  protocol : Nat
  major_version : Nat
  minor_version : Nat
  deriving DecidableEq, Repr

/-- The packed `struct calcProtocol`: the field values as the host reads them. -/
structure calcProtocol where
  type : Nat
  major_version : Nat
  minor_version : Nat
  id : Nat
  arith : Nat
  inValue1 : Int
  inValue2 : Int
  inResult : Int
  deriving DecidableEq, Repr

/-- Names and widths in bytes of the members of `calcMessage`, in declaration order. -/
def calcMessage_members : List (String × Nat) :=
  [("type", 2), ("message", 2), ("protocol", 2), ("major_version", 2), ("minor_version", 2)]

/-- Names and widths in bytes of the members of `calcProtocol`, in declaration order. -/
def calcProtocol_members : List (String × Nat) :=
  [("type", 2), ("major_version", 2), ("minor_version", 2), ("id", 4), ("arith", 4),
   ("inValue1", 4), ("inValue2", 4), ("inResult", 4)]

/-- The value of `sizeof(calcMessage)`: the struct is packed, so the widths add up. -/
def sizeof_calcMessage : Nat := (calcMessage_members.map Prod.snd).sum

/-- The value of `sizeof(calcProtocol)`: the struct is packed, so the widths add up. -/
def sizeof_calcProtocol : Nat := (calcProtocol_members.map Prod.snd).sum

/-- The size `test_client.cpp` asserts for `calcProtocol`
(`assert(sizeof(calcProtocol) == 22)`). -/
def asserted_sizeof_calcProtocol : Nat := 22

/-- The bytes of a `calcMessage` object (what `sendto(sockfd, &init_msg, sizeof(init_msg), ..)`
transmits). -/
def calcMessage.toBytes (order : ByteOrder) (m : calcMessage) : List Nat :=
  store16 order m.type ++ store16 order m.message ++ store16 order m.protocol ++
  store16 order m.major_version ++ store16 order m.minor_version

/-- The `calcMessage` object read through a pointer to a buffer (`(calcMessage*)buffer`), or
filled by `recv(sockfd, &response, sizeof(response), 0)`. -/
def calcMessage.ofBytes (order : ByteOrder) (b : List Nat) : calcMessage :=
  { type := load16 order (b.getD 0 0) (b.getD 1 0)
    message := load16 order (b.getD 2 0) (b.getD 3 0)
    protocol := load16 order (b.getD 4 0) (b.getD 5 0)
    major_version := load16 order (b.getD 6 0) (b.getD 7 0)
    minor_version := load16 order (b.getD 8 0) (b.getD 9 0) }

/-- The bytes of a `calcProtocol` object (what `send(sockfd, &calc_msg, sizeof(calc_msg), 0)`
transmits). -/
def calcProtocol.toBytes (order : ByteOrder) (m : calcProtocol) : List Nat :=
  store16 order m.type ++ store16 order m.major_version ++ store16 order m.minor_version ++
  store32 order m.id ++ store32 order m.arith ++
  store32 order (toUInt32 m.inValue1) ++ store32 order (toUInt32 m.inValue2) ++
  store32 order (toUInt32 m.inResult)

/-- The `calcProtocol` object filled by `recv(sockfd, &calc_msg, sizeof(calc_msg), 0)`, or read
through `(calcProtocol*)buffer`. -/
def calcProtocol.ofBytes (order : ByteOrder) (b : List Nat) : calcProtocol :=
  { type := load16 order (b.getD 0 0) (b.getD 1 0)
    major_version := load16 order (b.getD 2 0) (b.getD 3 0)
    minor_version := load16 order (b.getD 4 0) (b.getD 5 0)
    id := load32 order (b.getD 6 0) (b.getD 7 0) (b.getD 8 0) (b.getD 9 0)
    arith := load32 order (b.getD 10 0) (b.getD 11 0) (b.getD 12 0) (b.getD 13 0)
    inValue1 := toInt32 (load32 order (b.getD 14 0) (b.getD 15 0) (b.getD 16 0) (b.getD 17 0))
    inValue2 := toInt32 (load32 order (b.getD 18 0) (b.getD 19 0) (b.getD 20 0) (b.getD 21 0))
    inResult := toInt32 (load32 order (b.getD 22 0) (b.getD 23 0) (b.getD 24 0) (b.getD 25 0)) }

/-- The block "Convert from network byte order" on a received `calcProtocol`
(`handleTCPBinary`, `handleUDPBinary`): seven fields are converted, `inResult` is not. -/
def calcProtocol.ntoh (order : ByteOrder) (calc_msg : calcProtocol) : calcProtocol :=
  { calc_msg with
    type := ntoh16 order calc_msg.type
    major_version := ntoh16 order calc_msg.major_version
    minor_version := ntoh16 order calc_msg.minor_version
    id := ntoh32 order calc_msg.id
    arith := ntoh32 order calc_msg.arith
    inValue1 := toInt32 (ntoh32 order (toUInt32 calc_msg.inValue1))
    inValue2 := toInt32 (ntoh32 order (toUInt32 calc_msg.inValue2)) }

/-- The block "Fill in result and convert to network byte order" (`handleTCPBinary`,
`handleUDPBinary`): all eight fields are converted. -/
def calcProtocol.hton (order : ByteOrder) (calc_msg : calcProtocol) (result : Int) :
    calcProtocol :=
  { inResult := toInt32 (hton32 order (toUInt32 result))
    type := hton16 order calc_msg.type
    major_version := hton16 order calc_msg.major_version
    minor_version := hton16 order calc_msg.minor_version
    id := hton32 order calc_msg.id
    arith := hton32 order calc_msg.arith
    inValue1 := toInt32 (hton32 order (toUInt32 calc_msg.inValue1))
    inValue2 := toInt32 (hton32 order (toUInt32 calc_msg.inValue2)) }

/-- The block "Convert from network byte order" on the verdict in `handleTCPBinary`: all five
fields. -/
def calcMessage.ntoh (order : ByteOrder) (response : calcMessage) : calcMessage :=
  { type := ntoh16 order response.type
    message := ntoh16 order response.message
    protocol := ntoh16 order response.protocol
    major_version := ntoh16 order response.major_version
    minor_version := ntoh16 order response.minor_version }

/-- The conversion `handleUDPBinary` applies to a received `calcMessage`: `type` and `message`
only. -/
def calcMessage.ntoh_head (order : ByteOrder) (msg : calcMessage) : calcMessage :=
  { msg with
    type := ntoh16 order msg.type
    message := ntoh16 order msg.message }

/-- The conversion `handleUDPBinary` applies when it builds `init_msg`, for arbitrary field
values: every field goes through `hton16`. -/
def calcMessage.hton (order : ByteOrder) (m : calcMessage) : calcMessage :=
  { type := hton16 order m.type
    message := hton16 order m.message
    protocol := hton16 order m.protocol
    major_version := hton16 order m.major_version
    minor_version := hton16 order m.minor_version }

/-- The bytes on the wire of a `calcMessage` with the given field values: conversion of every
field to network order, then the object's bytes. -/
def encode_calcMessage (order : ByteOrder) (m : calcMessage) : List Nat :=
  (m.hton order).toBytes order

/-- The field values `handleTCPBinary` obtains from received bytes. -/
def decode_calcMessage (order : ByteOrder) (b : List Nat) : calcMessage :=
  (calcMessage.ofBytes order b).ntoh order

/-- The bytes on the wire of a `calcProtocol` with the given field values. -/
def encode_calcProtocol (order : ByteOrder) (m : calcProtocol) : List Nat :=
  (m.hton order m.inResult).toBytes order

/-- The field values the binary handlers obtain from received bytes. -/
def decode_calcProtocol (order : ByteOrder) (b : List Nat) : calcProtocol :=
  (calcProtocol.ofBytes order b).ntoh order

/-! ## Text helpers of the C++ library used by the handlers -/

/-- The function `isspace` in the "C" locale: space, `\t`, `\n`, `\v`, `\f`, `\r`. -/
def isspace (c : Nat) : Bool := c == 32 || (9 ≤ c && c ≤ 13)

/-- The function `isdigit`. -/
def isdigit (c : Nat) : Bool := 48 ≤ c && c ≤ 57

/-- The function `std::string::find(needle)`: the first position at which `needle` occurs,
`none` for `npos`. -/
def find : List Nat → List Nat → Option Nat
  | [], needle => if needle = [] then some 0 else none
  | c :: cs, needle =>
    if needle.isPrefixOf (c :: cs) then some 0 else (find cs needle).map (fun i => i + 1)

/-- The decimal digits of `n`, most significant first, in front of `acc`. -/
def natDigits : Nat → Nat → List Nat → List Nat
  | 0, _, acc => acc
  | fuel + 1, n, acc =>
    if n < 10 then (48 + n) :: acc else natDigits fuel (n / 10) ((48 + n % 10) :: acc)

/-- The function `std::to_string(int)`: the decimal text, with a leading `-` for negative values. -/
def to_string (v : Int) : List Nat :=
  if v < 0 then 45 :: natDigits (v.natAbs + 1) v.natAbs []
  else natDigits (v.natAbs + 1) v.natAbs []

/-- The extraction `iss >> operation` for a `std::string`: skips leading whitespace and
extracts the maximal run of non-whitespace characters; fails when that run is empty. Returns the token and the
unread rest of the stream. -/
def extractString (s : List Nat) : Option (List Nat × List Nat) :=
  let s1 := s.dropWhile isspace
  let token := s1.takeWhile (fun c => !isspace c)
  if token = [] then none else some (token, s1.dropWhile (fun c => !isspace c))

/-- The value of a run of decimal digits. -/
def digitsValue (ds : List Nat) : Nat := ds.foldl (fun acc d => acc * 10 + (d - 48)) 0

/-- The extraction `iss >> value` for an `int`: skips leading whitespace, reads an optional
sign and the maximal run of decimal digits; fails when there is no digit or the value is not representable
as an `int`. Returns the value and the unread rest of the stream. -/
def extractInt (s : List Nat) : Option (Int × List Nat) :=
  let s1 := s.dropWhile isspace
  let negative := s1.head? = some 45
  let s2 := if s1.head? = some 45 ∨ s1.head? = some 43 then s1.tail else s1
  let ds := s2.takeWhile isdigit
  if ds = [] then none
  else
    let v : Int := if negative then -(digitsValue ds : Int) else (digitsValue ds : Int)
    if isInt32 v then some (v, s2.dropWhile isdigit) else none

/-- The extraction `iss >> operation >> value1 >> value2`: `none` when the stream is in a
failed state afterwards. What follows the second integer is left unread. -/
def extractAssignment (assignment : List Nat) : Option (List Nat × Int × Int) :=
  match extractString assignment with
  | none => none
  | some (operation, rest1) =>
    match extractInt rest1 with
    | none => none
    | some (value1, rest2) =>
      match extractInt rest2 with
      | none => none
      | some (value2, _) => some (operation, value1, value2)

/-- The step "Remove trailing newline": `if (!s.empty() && s.back() == '\n') s.pop_back();`. -/
def pop_newline (s : List Nat) : List Nat :=
  if s.getLast? = some 10 then s.dropLast else s

/-! ## Sockets -/

/-- One thing the peer makes a receive call see: a transport error (for a datagram socket
this includes the expiry of the receive timeout), or data (a stream segment or one
datagram). -/
inductive RecvEvent where
  | error
  | data (d : List Nat)
  deriving DecidableEq, Repr

/-- The number of bytes an event holds. -/
def RecvEvent.size : RecvEvent → Nat
  | .error => 0
  | .data d => d.length

/-- A socket together with the behaviour of its peer. -/
structure Socket where
  /-- what the peer delivers, in order -/
  incoming : List RecvEvent
  /-- for the successive send calls, whether the call returns a negative value
  (calls beyond the list succeed) -/
  sendFails : List Bool
  /-- whether `setsockopt(SO_RCVTIMEO)` returns a negative value -/
  setsockoptFails : Bool
  /-- the messages handed to the transport so far, oldest first -/
  sent : List (List Nat)
  deriving DecidableEq, Repr

/-- The value a receive call returns: `none` is -1, `some d` is the count of bytes stored. -/
def bytes_read : Option (List Nat) → Int
  | none => -1
  | some d => (d.length : Int)

/-- The bytes a receive call stored in the buffer. -/
def received : Option (List Nat) → List Nat
  | none => []
  | some d => d

/-- The call `recv(sockfd, buffer, len, 0)` on a stream socket: at most `len` bytes of the head
segment, the rest of which stays queued; 0 bytes when the peer has closed (an empty segment,
or nothing left to deliver). -/
def recv (sockfd : Socket) (len : Nat) : Option (List Nat) × Socket :=
  match sockfd.incoming with
  | [] => (some [], sockfd)
  | .error :: rest => (none, { sockfd with incoming := rest })
  | .data d :: rest =>
    if d.length ≤ len then (some d, { sockfd with incoming := rest })
    else (some (d.take len), { sockfd with incoming := .data (d.drop len) :: rest })

/-- The call `recvfrom(sockfd, buffer, len, 0, nullptr, nullptr)` on a datagram socket with a
receive timeout: the head datagram cut to `len` bytes (the excess is discarded); -1 when nothing
arrives in time. -/
def recvfrom (sockfd : Socket) (len : Nat) : Option (List Nat) × Socket :=
  match sockfd.incoming with
  | [] => (none, sockfd)
  | .error :: rest => (none, { sockfd with incoming := rest })
  | .data d :: rest => (some (d.take len), { sockfd with incoming := rest })

/-- The calls `send` and `sendto`: `true` when the call does not return a negative value, in
which case the message has been handed to the transport. -/
def send (sockfd : Socket) (msg : List Nat) : Bool × Socket :=
  match sockfd.sendFails with
  | true :: rest => (false, { sockfd with sendFails := rest })
  | false :: rest => (true, { sockfd with sendFails := rest, sent := sockfd.sent ++ [msg] })
  | [] => (true, { sockfd with sent := sockfd.sent ++ [msg] })

/-- An upper bound on the number of receive calls that can return data. -/
def pending (sockfd : Socket) : Nat :=
  sockfd.incoming.length + (sockfd.incoming.map RecvEvent.size).sum

/-- How a handshake routine ends. -/
inductive Exit where
  /-- the routine returned this `bool` -/
  | returned (success : Bool)
  /-- the routine evaluated a division without a defined result -/
  | undefined
  /-- the greeting loop was cut off by its iteration bound -/
  | unfinished
  deriving DecidableEq, Repr

/-! ## clientmain.cpp: the handshake routines

The `host` and `port` parameters of the routines are not used by their bodies and are left
out; console output is left out. Each routine returns how it ended and the final state of the
socket, whose `sent` field lists what it transmitted. -/

/-- The loop "Read protocol negotiation from server" of `handleTCPText` and
`handleTCPBinary`: receives until the accumulated text holds a blank line or a receive call
returns a value `<= 0`. Returns the last `bytes_read`, the accumulated `protocol_response` and
the socket; `none` when the iteration bound `fuel` is used up. -/
def recvGreeting : Nat → Socket → List Nat → Option (Int × List Nat × Socket)
  | 0, _, _ => none
  | fuel + 1, sockfd, protocol_response =>
    let r := recv sockfd 1023
    if bytes_read r.1 > 0 then
      let protocol_response := protocol_response ++ c_str (received r.1)
      if find protocol_response (bytes "\n\n") ≠ none then
        some (bytes_read r.1, protocol_response, r.2)
      else recvGreeting fuel r.2 protocol_response
    else some (bytes_read r.1, protocol_response, r.2)

/-- The routine `bool handleTCPText(int sockfd, const std::string& host, int port)`. -/
def handleTCPText (sockfd : Socket) : Exit × Socket :=
  match recvGreeting (pending sockfd + 1) sockfd [] with
  | none => (.unfinished, sockfd)
  | some (n, protocol_response, s1) =>
    if n ≤ 0 then (.returned false, s1)
    else if find protocol_response (bytes "TEXT TCP 1.1\n") = none then (.returned false, s1)
    else
      let s2 := send s1 (bytes "TEXT TCP 1.1 OK\n")
      if !s2.1 then (.returned false, s2.2)
      else
        let r := recv s2.2 1023
        if bytes_read r.1 ≤ 0 then (.returned false, r.2)
        else
          let assignment := pop_newline (c_str (received r.1))
          match extractAssignment assignment with
          | none => (.returned false, r.2)
          | some (operation, value1, value2) =>
            let op_code := string_to_operation operation
            match calculate op_code value1 value2 with
            | none => (.undefined, r.2)
            | some result =>
              let result_str := to_string result ++ bytes "\n"
              let s3 := send r.2 result_str
              if !s3.1 then (.returned false, s3.2)
              else
                let r2 := recv s3.2 1023
                if bytes_read r2.1 ≤ 0 then (.returned false, r2.2)
                else
                  let response := pop_newline (c_str (received r2.1))
                  if response = bytes "OK" then (.returned true, r2.2)
                  else (.returned false, r2.2)

/-- The final test of the binary routines on the converted verdict. -/
def verdict (response : calcMessage) : Bool :=
  if response.type = MSG_TYPE_CALC_MESSAGE then
    if response.message = 1 then true
    else if response.message = 2 then false
    else false
  else false

/-- The routine `bool handleTCPBinary(int sockfd, const std::string& host, int port)`. -/
def handleTCPBinary (order : ByteOrder) (sockfd : Socket) : Exit × Socket :=
  match recvGreeting (pending sockfd + 1) sockfd [] with
  | none => (.unfinished, sockfd)
  | some (n, protocol_response, s1) =>
    if n ≤ 0 then (.returned false, s1)
    else if find protocol_response (bytes "BINARY TCP 1.1\n") = none then
      (.returned false, s1)
    else
      let s2 := send s1 (bytes "BINARY TCP 1.1 OK\n")
      if !s2.1 then (.returned false, s2.2)
      else
        let r := recv s2.2 sizeof_calcProtocol
        if bytes_read r.1 ≠ (sizeof_calcProtocol : Int) then (.returned false, r.2)
        else
          let calc_msg := (calcProtocol.ofBytes order (received r.1)).ntoh order
          if calc_msg.type ≠ MSG_TYPE_CALC_PROTOCOL ∨
              calc_msg.major_version ≠ MAJOR_VERSION ∨
              calc_msg.minor_version ≠ MINOR_VERSION then
            (.returned false, r.2)
          else
            match calculate calc_msg.arith calc_msg.inValue1 calc_msg.inValue2 with
            | none => (.undefined, r.2)
            | some result =>
              let s3 := send r.2 ((calc_msg.hton order result).toBytes order)
              if !s3.1 then (.returned false, s3.2)
              else
                let r2 := recv s3.2 sizeof_calcMessage
                if bytes_read r2.1 ≠ (sizeof_calcMessage : Int) then (.returned false, r2.2)
                else
                  let response := (calcMessage.ofBytes order (received r2.1)).ntoh order
                  (.returned (verdict response), r2.2)

/-- The routine `bool handleUDPText(int sockfd, const struct sockaddr_in& server_addr, ...)`. -/
def handleUDPText (sockfd : Socket) : Exit × Socket :=
  let s1 := send sockfd (bytes "TEXT UDP 1.1\n")
  if !s1.1 then (.returned false, s1.2)
  else if s1.2.setsockoptFails then (.returned false, s1.2)
  else
    let r := recvfrom s1.2 1023
    if bytes_read r.1 < 0 then (.returned false, r.2)
    else
      let assignment := pop_newline (c_str (received r.1))
      match extractAssignment assignment with
      | none => (.returned false, r.2)
      | some (operation, value1, value2) =>
        let op_code := string_to_operation operation
        match calculate op_code value1 value2 with
        | none => (.undefined, r.2)
        | some result =>
          let result_str := to_string result ++ bytes "\n"
          let s3 := send r.2 result_str
          if !s3.1 then (.returned false, s3.2)
          else
            let r2 := recvfrom s3.2 1023
            if bytes_read r2.1 < 0 then (.returned false, r2.2)
            else
              let response := pop_newline (c_str (received r2.1))
              if response = bytes "OK" then (.returned true, r2.2)
              else (.returned false, r2.2)

/-- The `init_msg` of `handleUDPBinary`, fields already in network order. -/
def init_msg (order : ByteOrder) : calcMessage :=
  { type := hton16 order MSG_TYPE_CALC_MESSAGE
    message := hton16 order 0
    protocol := hton16 order PROTOCOL_UDP
    major_version := hton16 order MAJOR_VERSION
    minor_version := hton16 order MINOR_VERSION }

/-- The routine `bool handleUDPBinary(int sockfd, const struct sockaddr_in& server_addr, ...)`.
The test "Check if it's a calcMessage (NOT OK response)" also converts two fields inside the
buffer; the buffer is not read again on that path, since a buffer of the size of a
`calcMessage` fails the size test that follows. -/
def handleUDPBinary (order : ByteOrder) (sockfd : Socket) : Exit × Socket :=
  let s1 := send sockfd ((init_msg order).toBytes order)
  if !s1.1 then (.returned false, s1.2)
  else if s1.2.setsockoptFails then (.returned false, s1.2)
  else
    let r := recvfrom s1.2 1024
    if bytes_read r.1 < 0 then (.returned false, r.2)
    else
      let msg := (calcMessage.ofBytes order (received r.1)).ntoh_head order
      if bytes_read r.1 = (sizeof_calcMessage : Int) ∧
          msg.type = MSG_TYPE_CALC_MESSAGE ∧ msg.message = 2 then
        (.returned false, r.2)
      else if bytes_read r.1 ≠ (sizeof_calcProtocol : Int) then (.returned false, r.2)
      else
        let calc_msg := (calcProtocol.ofBytes order (received r.1)).ntoh order
        if calc_msg.type ≠ MSG_TYPE_CALC_PROTOCOL ∨
            calc_msg.major_version ≠ MAJOR_VERSION ∨
            calc_msg.minor_version ≠ MINOR_VERSION then
          (.returned false, r.2)
        else
          match calculate calc_msg.arith calc_msg.inValue1 calc_msg.inValue2 with
          | none => (.undefined, r.2)
          | some result =>
            let s3 := send r.2 ((calc_msg.hton order result).toBytes order)
            if !s3.1 then (.returned false, s3.2)
            else
              let r2 := recvfrom s3.2 1024
              if bytes_read r2.1 < 0 then (.returned false, r2.2)
              else if bytes_read r2.1 ≠ (sizeof_calcMessage : Int) then
                (.returned false, r2.2)
              else
                let response := (calcMessage.ofBytes order (received r2.1)).ntoh_head order
                (.returned (verdict response), r2.2)

/-! ## clientmain.cpp: `main` after the URL has been parsed -/

/-- The function `std::string toLowerCase(const std::string& str)`. -/
def toLowerCase (str : List Nat) : List Nat := str.map tolower

/-- The choice of the datagram routine by `api`, as `main` makes it in its `udp` and `any`
branches; when `api` is neither `text` nor `binary` no routine runs and `success` keeps its
value `false`. -/
def datagramSession (order : ByteOrder) (api : List Nat) (sockfd : Socket) : Exit :=
  if toLowerCase api = bytes "text" then (handleUDPText sockfd).1
  else if toLowerCase api = bytes "binary" then (handleUDPBinary order sockfd).1
  else .returned false

/-- The choice of the stream routine by `api`, as `main` makes it in its `tcp` and `any`
branches. -/
def streamSession (order : ByteOrder) (api : List Nat) (sockfd : Socket) : Exit :=
  if toLowerCase api = bytes "text" then (handleTCPText sockfd).1
  else if toLowerCase api = bytes "binary" then (handleTCPBinary order sockfd).1
  else .returned false

/-- One action of `main` on the network. -/
inductive Step where
  /-- the call `createUDPSocket`, and whether it returned a socket -/
  | createUDPSocket (ok : Bool)
  /-- a run of `handleUDPText` or `handleUDPBinary`, and how it ended -/
  | datagramSession (e : Exit)
  /-- the call `connectTCP`, and whether it returned a socket -/
  | connectTCP (ok : Bool)
  /-- a run of `handleTCPText` or `handleTCPBinary`, and how it ended -/
  | streamSession (e : Exit)
  deriving DecidableEq, Repr

/-- A run of `main`. -/
structure Run where
  /-- the actions on the network, in order -/
  steps : List Step
  /-- how the process ended: `returned true` is `EXIT_SUCCESS`, `returned false` is
  `EXIT_FAILURE`, anything else is the way the session ended that stopped the process -/
  status : Exit
  /-- the final value of the variable `successful_protocol` -/
  successful_protocol : List Nat
  /-- the transport named in the line "Successfully connected using ...", when printed -/
  report : Option (List Nat)
  deriving DecidableEq, Repr

/-- The branch `any` of `main`. The arguments `udp` and `tcp` are what `createUDPSocket` and
`connectTCP` return when called (`none` for a negative descriptor). -/
def main_any (order : ByteOrder) (api : List Nat) (udp tcp : Option Socket) : Run :=
  -- Try UDP first
  let first : List Step × Exit :=
    match udp with
    | some udp_sockfd =>
      ([.createUDPSocket true, .datagramSession (datagramSession order api udp_sockfd)],
        datagramSession order api udp_sockfd)
    | none => ([.createUDPSocket false], .returned false)
  match first.2 with
  | .returned true =>
    { steps := first.1, status := .returned true, successful_protocol := bytes "UDP",
      report := some (bytes "UDP") }
  | .returned false =>
    -- If UDP failed, try TCP
    match tcp with
    | some tcp_sockfd =>
      match streamSession order api tcp_sockfd with
      | .returned true =>
        { steps := first.1 ++ [.connectTCP true, .streamSession (.returned true)],
          status := .returned true, successful_protocol := bytes "TCP",
          report := some (bytes "TCP") }
      | e =>
        { steps := first.1 ++ [.connectTCP true, .streamSession e],
          status := e, successful_protocol := [], report := none }
    | none =>
      { steps := first.1 ++ [.connectTCP false], status := .returned false,
        successful_protocol := [], report := none }
  | e => { steps := first.1, status := e, successful_protocol := [], report := none }

/-- The branch `tcp` of `main`. -/
def main_tcp (order : ByteOrder) (api : List Nat) (tcp : Option Socket) : Run :=
  match tcp with
  | none =>
    { steps := [.connectTCP false], status := .returned false, successful_protocol := [],
      report := none }
  | some sockfd =>
    { steps := [.connectTCP true, .streamSession (streamSession order api sockfd)],
      status := streamSession order api sockfd, successful_protocol := bytes "TCP",
      report := none }

/-- The branch `udp` of `main`. -/
def main_udp (order : ByteOrder) (api : List Nat) (udp : Option Socket) : Run :=
  match udp with
  | none =>
    { steps := [.createUDPSocket false], status := .returned false,
      successful_protocol := [], report := none }
  | some sockfd =>
    { steps := [.createUDPSocket true, .datagramSession (datagramSession order api sockfd)],
      status := datagramSession order api sockfd, successful_protocol := bytes "UDP",
      report := none }

/-- The part of `main` after `parseURL`: the choice of the branch by `protocol`. -/
def main (order : ByteOrder) (protocol api : List Nat) (udp tcp : Option Socket) : Run :=
  if toLowerCase protocol = bytes "tcp" then main_tcp order api tcp
  else if toLowerCase protocol = bytes "udp" then main_udp order api udp
  else if toLowerCase protocol = bytes "any" then main_any order api udp tcp
  else { steps := [], status := .returned false, successful_protocol := [], report := none }

/-! ## Predicates used in the statements -/

/-- The newline-terminated lines of a text, `cur` holding the characters of the current line
in reverse; what follows the last newline is not a line. -/
def linesAux : List Nat → List Nat → List (List Nat)
  | _, [] => []
  | cur, c :: cs => if c = 10 then cur.reverse :: linesAux [] cs else linesAux (c :: cur) cs

/-- The newline-terminated lines of a text. -/
def linesOf (s : List Nat) : List (List Nat) := linesAux [] s

/-- The whitespace-separated tokens of a text, read one after the other as `iss >> token`
reads them; `fuel` bounds their number. -/
def tokensAux : Nat → List Nat → List (List Nat)
  | 0, _ => []
  | fuel + 1, s =>
    if s.dropWhile isspace = [] then []
    else (s.dropWhile isspace).takeWhile (fun c => !isspace c) ::
      tokensAux fuel ((s.dropWhile isspace).dropWhile (fun c => !isspace c))

/-- The whitespace-separated tokens of a text. -/
def tokens (s : List Nat) : List (List Nat) := tokensAux (s.length + 1) s


/-- Lowercase NUL-free text, such as the four operation names. -/
def isLowerText (l : List Nat) : Prop := ∀ c ∈ l, c ≠ 0 ∧ tolower c = c

instance (l : List Nat) : Decidable (isLowerText l) := by
  unfold isLowerText; exact inferInstance

/-- The two bytes of the big-endian encoding of a 16-bit value. -/
def be16 (v : Nat) : List Nat := [v / 256 % 256, v % 256]

/-- The four bytes of the big-endian encoding of a 32-bit value. -/
def be32 (v : Nat) : List Nat := [v / 16777216 % 256, v / 65536 % 256, v / 256 % 256, v % 256]

/-- Every field of a `calcMessage` is a `uint16_t` value. -/
def calcMessage.inRange (m : calcMessage) : Prop :=
  m.type < 65536 ∧ m.message < 65536 ∧ m.protocol < 65536 ∧
  m.major_version < 65536 ∧ m.minor_version < 65536

/-- Every field of a `calcProtocol` is a value of its type. -/
def calcProtocol.inRange (m : calcProtocol) : Prop :=
  m.type < 65536 ∧ m.major_version < 65536 ∧ m.minor_version < 65536 ∧
  m.id < 4294967296 ∧ m.arith < 4294967296 ∧
  isInt32 m.inValue1 ∧ isInt32 m.inValue2 ∧ isInt32 m.inResult

instance (m : calcMessage) : Decidable m.inRange := by
  unfold calcMessage.inRange; exact inferInstance

instance (m : calcProtocol) : Decidable m.inRange := by
  unfold calcProtocol.inRange; exact inferInstance

/-- No send call on the socket fails. -/
def sendsSucceed (sockfd : Socket) : Prop := ∀ b ∈ sockfd.sendFails, b = false

instance (sockfd : Socket) : Decidable (sendsSucceed sockfd) := by
  unfold sendsSucceed; exact inferInstance

/-- Every element is a byte. -/
def allBytes (l : List Nat) : Prop := ∀ b ∈ l, b < 256

instance (l : List Nat) : Decidable (allBytes l) := by
  unfold allBytes; exact inferInstance

/-! ## Theorems: the arithmetic engine -/

theorem wrap32_of_isInt32 {x : Int} (h : isInt32 x) : wrap32 x = x := by
  unfold isInt32 INT32_MIN INT32_MAX at h
  unfold wrap32
  omega

theorem wrap32_isInt32 (x : Int) : isInt32 (wrap32 x) := by
  unfold isInt32 INT32_MIN INT32_MAX wrap32
  omega

theorem tdiv_isInt32 (a b : Int) (ha : isInt32 a) (hb0 : b ≠ 0)
    (hex : ¬(a = INT32_MIN ∧ b = -1)) : isInt32 (Int.tdiv a b) := by
  unfold isInt32 INT32_MIN INT32_MAX at *
  have hq : (Int.tdiv a b).natAbs = a.natAbs / b.natAbs := Int.natAbs_tdiv a b
  by_cases h1 : b = 1
  · subst h1; simp; omega
  by_cases h2 : b = -1
  · subst h2
    have : Int.tdiv a (-1) = -a := by
      rw [Int.tdiv_neg]; simp
    rw [this]; omega
  · have hb2 : 2 ≤ b.natAbs := by omega
    have h3 : a.natAbs / b.natAbs ≤ a.natAbs / 2 := Nat.div_le_div_left hb2 (by decide)
    omega

theorem tmod_bounds_of_nonneg (a b : Int) (ha : 0 ≤ a) (hb0 : b ≠ 0) :
    0 ≤ Int.tmod a b ∧ Int.tmod a b < |b| := by
  refine ⟨Int.tmod_nonneg b ha, ?_⟩
  rcases Int.lt_or_gt_of_ne hb0 with hneg | hpos
  · have h1 : Int.tmod a (-b) < -b := Int.tmod_lt_of_pos a (by omega)
    rw [Int.tmod_neg] at h1
    rw [abs_of_neg hneg]; exact h1
  · rw [abs_of_pos hpos]; exact Int.tmod_lt_of_pos a hpos

theorem neg_tmod_eq (a b : Int) : Int.tmod (-a) b = -Int.tmod a b := by
  rw [Int.tmod_def, Int.tmod_def, Int.neg_tdiv]
  rw [Int.mul_neg]; omega

/-- The remainder left by the truncated quotient is smaller in magnitude than the divisor
and is zero or has the sign of the dividend. -/
theorem tdiv_remainder (a b : Int) (hb0 : b ≠ 0) :
    |a - Int.tdiv a b * b| < |b| ∧
    (a - Int.tdiv a b * b = 0 ∨ (0 < a - Int.tdiv a b * b ∧ 0 < a) ∨
      (a - Int.tdiv a b * b < 0 ∧ a < 0)) := by
  have hr : a - Int.tdiv a b * b = Int.tmod a b := by
    rw [Int.tmod_def, Int.mul_comm]
  rw [hr]
  rcases Int.lt_or_le a 0 with ha | ha
  · have h := tmod_bounds_of_nonneg (-a) b (by omega) hb0
    rw [neg_tmod_eq] at h
    refine ⟨?_, ?_⟩
    · rw [abs_lt]; omega
    · omega
  · have h := tmod_bounds_of_nonneg a b ha hb0
    refine ⟨?_, ?_⟩
    · rw [abs_lt]; omega
    · by_cases h0 : a = 0
      · left; rw [h0]; simp
      · omega

/-- C1: for `int32_t` operands whose exact sum, difference or product is representable,
`calculate` returns that exact sum, difference or product; the three sample evaluations of
the tests give -2, -7 and -12. -/
theorem calculate_exact (a b : Int) (ha : isInt32 a) (hb : isInt32 b) :
    (isInt32 (a + b) → calculate ARITH_ADD a b = some (a + b)) ∧
    (isInt32 (a - b) → calculate ARITH_SUB a b = some (a - b)) ∧
    (isInt32 (a * b) → calculate ARITH_MUL a b = some (a * b)) ∧
    calculate ARITH_ADD (-5) 3 = some (-2) ∧
    calculate ARITH_SUB 3 10 = some (-7) ∧
    calculate ARITH_MUL (-4) 3 = some (-12) := by
  have _ := ha
  have _ := hb
  refine ⟨?_, ?_, ?_, by decide, by decide, by decide⟩
  · intro h
    simp [calculate, ARITH_ADD, int32_add, wrap32_of_isInt32 h]
  · intro h
    simp [calculate, ARITH_ADD, ARITH_SUB, int32_sub, wrap32_of_isInt32 h]
  · intro h
    simp [calculate, ARITH_ADD, ARITH_SUB, ARITH_MUL, int32_mul, wrap32_of_isInt32 h]

theorem calculate_exact_witness :
    calculate ARITH_ADD 2147483000 647 = some 2147483647 ∧
    calculate ARITH_SUB 2147483000 647 = some 2147482353 ∧
    calculate ARITH_MUL (-65536) 32768 = some (-2147483648) :=
  ⟨(calculate_exact 2147483000 647 (by decide) (by decide)).1 (by decide),
   (calculate_exact 2147483000 647 (by decide) (by decide)).2.1 (by decide),
   (calculate_exact (-65536) 32768 (by decide) (by decide)).2.2.1 (by decide)⟩

/-- C2: for `int32_t` operands with a non-zero divisor, the pair `(INT32_MIN, -1)` excluded,
`calculate(ARITH_DIV, a, b)` returns the quotient truncated toward zero: a value `q` with
`a = q * b + r`, `|r| < |b|`, and `r` zero or of the sign of `a`; 13 / 3 gives 4 and
-13 / 3 gives -4. -/
theorem calculate_div_truncates (a b : Int) (ha : isInt32 a) (hb : isInt32 b) (hb0 : b ≠ 0)
    (hex : ¬(a = INT32_MIN ∧ b = -1)) :
    (∃ q r : Int, calculate ARITH_DIV a b = some q ∧ a = q * b + r ∧ |r| < |b| ∧
      (r = 0 ∨ (0 < r ∧ 0 < a) ∨ (r < 0 ∧ a < 0))) ∧
    calculate ARITH_DIV 13 3 = some 4 ∧
    calculate ARITH_DIV (-13) 3 = some (-4) := by
  have _ := hb
  refine ⟨⟨Int.tdiv a b, a - Int.tdiv a b * b, ?_, by omega, tdiv_remainder a b hb0⟩,
    by decide, by decide⟩
  simp [calculate, ARITH_ADD, ARITH_SUB, ARITH_MUL, ARITH_DIV, int32_div, hb0,
    tdiv_isInt32 a b ha hb0 hex]

theorem calculate_div_truncates_witness :
    ∃ q r : Int, calculate ARITH_DIV (-2147483648) 7 = some q ∧
      -2147483648 = q * 7 + r ∧ |r| < |(7 : Int)| ∧
      (r = 0 ∨ (0 < r ∧ (0 : Int) < -2147483648) ∨ (r < 0 ∧ (-2147483648 : Int) < 0)) :=
  (calculate_div_truncates (-2147483648) 7 (by decide) (by decide) (by decide)
    (by decide)).1

/-- C3: `calculate(ARITH_DIV, x, 0)` returns 0 for every `x`. -/
theorem calculate_div_by_zero (x : Int) : calculate ARITH_DIV x 0 = some 0 := by
  simp [calculate, ARITH_ADD, ARITH_SUB, ARITH_MUL, ARITH_DIV]

/-- C4 (failing input): `calculate(ARITH_DIV, INT32_MIN, -1)` has no result, although both
operands are `int32_t` values and the divisor is not zero. -/
theorem calculate_div_min_by_minus_one :
    isInt32 INT32_MIN ∧ isInt32 (-1) ∧ calculate ARITH_DIV INT32_MIN (-1) = none := by
  decide

/-- Apart from `INT32_MIN / -1`, `calculate` returns an `int32_t` for every operation code
and every pair of `int32_t` operands, overflowing sums, differences and products
included. -/
theorem calculate_returns_otherwise (operation : Nat) (a b : Int) (ha : isInt32 a)
    (hex : ¬(operation = ARITH_DIV ∧ a = INT32_MIN ∧ b = -1)) :
    ∃ r : Int, calculate operation a b = some r ∧ isInt32 r := by
  unfold calculate
  simp only [ARITH_ADD, ARITH_SUB, ARITH_MUL, ARITH_DIV] at hex ⊢
  by_cases h1 : operation = 1
  · exact ⟨int32_add a b, by simp [h1], wrap32_isInt32 _⟩
  by_cases h2 : operation = 2
  · exact ⟨int32_sub a b, by simp [h2], wrap32_isInt32 _⟩
  by_cases h3 : operation = 3
  · exact ⟨int32_mul a b, by simp [h3], wrap32_isInt32 _⟩
  by_cases h4 : operation = 4
  · by_cases hb0 : b = 0
    · exact ⟨0, by simp [h4, hb0], by decide⟩
    · have hq := tdiv_isInt32 a b ha hb0 (fun h => hex ⟨h4, h⟩)
      exact ⟨Int.tdiv a b, by simp [h4, hb0, int32_div, hq], hq⟩
  · exact ⟨0, by simp [h1, h2, h3, h4], by decide⟩

/-! ## Theorems: operation names -/

theorem tolower_zero : tolower 0 = 0 := by decide

theorem tolower_ne_zero {c : Nat} (h : c ≠ 0) : tolower c ≠ 0 := by
  unfold tolower; split <;> omega

theorem strcasecmp_eq_zero_iff (s : List Nat) :
    ∀ l : List Nat, isLowerText l →
      (strcasecmp s l = 0 ↔ (c_str s).map tolower = l) := by
  induction s with
  | nil =>
    intro l hl
    cases l with
    | nil => simp [strcasecmp, headChar, c_str]
    | cons c t =>
      have hc := hl c (List.mem_cons_self c t)
      simp only [strcasecmp, headChar, c_str, tolower_zero, hc.2]
      simp
      omega
  | cons c1 r1 ih =>
    intro l hl
    cases l with
    | nil =>
      by_cases h0 : c1 = 0
      · subst h0
        simp [strcasecmp, headChar, c_str, tolower_zero]
      · have := tolower_ne_zero h0
        simp [strcasecmp, headChar, c_str, tolower_zero, h0, this]
    | cons c t =>
      have hc := hl c (List.mem_cons_self c t)
      have ht : isLowerText t := fun x hx => hl x (List.mem_cons_of_mem c hx)
      by_cases h0 : c1 = 0
      · subst h0
        have : ¬ (0 = c) := fun h => hc.1 h.symm
        simp [strcasecmp, headChar, c_str, tolower_zero, hc.2, this]
        omega
      · by_cases heq : tolower c1 = c
        · simp [strcasecmp, headChar, c_str, hc.2, heq, h0, List.takeWhile_cons]
          exact ih t ht
        · simp [strcasecmp, headChar, c_str, hc.2, heq, h0, List.takeWhile_cons]
          omega


theorem isLowerText_add : isLowerText (bytes "add") := by decide
theorem isLowerText_sub : isLowerText (bytes "sub") := by decide
theorem isLowerText_mul : isLowerText (bytes "mul") := by decide
theorem isLowerText_div : isLowerText (bytes "div") := by decide

/-- The value of `string_to_operation` in terms of the lowercased C string. -/
theorem string_to_operation_iff (s : List Nat) :
    (string_to_operation s = ARITH_ADD ↔ (c_str s).map tolower = bytes "add") ∧
    (string_to_operation s = ARITH_SUB ↔ (c_str s).map tolower = bytes "sub") ∧
    (string_to_operation s = ARITH_MUL ↔ (c_str s).map tolower = bytes "mul") ∧
    (string_to_operation s = ARITH_DIV ↔ (c_str s).map tolower = bytes "div") ∧
    (string_to_operation s = 0 ↔
      (c_str s).map tolower ∉ [bytes "add", bytes "sub", bytes "mul", bytes "div"]) := by
  have hA := strcasecmp_eq_zero_iff s _ isLowerText_add
  have hS := strcasecmp_eq_zero_iff s _ isLowerText_sub
  have hM := strcasecmp_eq_zero_iff s _ isLowerText_mul
  have hD := strcasecmp_eq_zero_iff s _ isLowerText_div
  refine ⟨?_, ?_, ?_, ?_, ?_⟩ <;>
  · unfold string_to_operation
    simp only [hA, hS, hM, hD]
    generalize (c_str s).map tolower = L
    by_cases h1 : L = bytes "add"
    · subst h1; decide
    by_cases h2 : L = bytes "sub"
    · subst h2; decide
    by_cases h3 : L = bytes "mul"
    · subst h3; decide
    by_cases h4 : L = bytes "div"
    · subst h4; decide
    simp [h1, h2, h3, h4, ARITH_ADD, ARITH_SUB, ARITH_MUL, ARITH_DIV]

/-- A character array without a NUL holds itself as its C string. -/
theorem c_str_of_no_nul (s : List Nat) (h : ∀ c ∈ s, c ≠ 0) : c_str s = s := by
  unfold c_str
  rw [List.takeWhile_eq_self_iff]
  intro c hc
  simpa using h c hc

/-- C5: `string_to_operation` is total and ignores ASCII case: on every character array it
returns the code of `add`, `sub`, `mul` or `div` exactly when the C string it holds equals
that name after lowercasing, and 0 exactly when it equals none of them; `unknown`, the empty
string and `addx` give 0. -/
theorem string_to_operation_spec (s : List Nat) :
    (string_to_operation s = ARITH_ADD ↔ (c_str s).map tolower = bytes "add") ∧
    (string_to_operation s = ARITH_SUB ↔ (c_str s).map tolower = bytes "sub") ∧
    (string_to_operation s = ARITH_MUL ↔ (c_str s).map tolower = bytes "mul") ∧
    (string_to_operation s = ARITH_DIV ↔ (c_str s).map tolower = bytes "div") ∧
    (string_to_operation s = 0 ↔
      (c_str s).map tolower ∉ [bytes "add", bytes "sub", bytes "mul", bytes "div"]) ∧
    string_to_operation (bytes "unknown") = 0 ∧
    string_to_operation (bytes "") = 0 ∧
    string_to_operation (bytes "addx") = 0 ∧
    string_to_operation (bytes "ADD") = ARITH_ADD ∧
    string_to_operation (bytes "DiV") = ARITH_DIV := by
  have h := string_to_operation_iff s
  exact ⟨h.1, h.2.1, h.2.2.1, h.2.2.2.1, h.2.2.2.2, by decide, by decide, by decide,
    by decide, by decide⟩

/-- C6: when the C string equals one of the four operation names after lowercasing,
`operation_to_string(string_to_operation(s))` is that lowercased string; and for each of the
four codes `c`, `string_to_operation(operation_to_string(c))` is `c`. -/
theorem operation_string_roundtrip (s : List Nat) (c : Nat)
    (hs : (c_str s).map tolower ∈ [bytes "add", bytes "sub", bytes "mul", bytes "div"])
    (hc : c ∈ [ARITH_ADD, ARITH_SUB, ARITH_MUL, ARITH_DIV]) :
    operation_to_string (string_to_operation s) = (c_str s).map tolower ∧
    string_to_operation (operation_to_string c) = c := by
  have h := string_to_operation_iff s
  constructor
  · simp only [List.mem_cons, List.mem_singleton, List.not_mem_nil, or_false] at hs
    rcases hs with h1 | h1 | h1 | h1
    · rw [h.1.2 h1, h1]; decide
    · rw [h.2.1.2 h1, h1]; decide
    · rw [h.2.2.1.2 h1, h1]; decide
    · rw [h.2.2.2.1.2 h1, h1]; decide
  · simp only [List.mem_cons, List.mem_singleton, List.not_mem_nil, or_false] at hc
    rcases hc with h1 | h1 | h1 | h1 <;> subst h1 <;> decide

theorem operation_string_roundtrip_witness :
    operation_to_string (string_to_operation (bytes "mUL")) = bytes "mul" ∧
    string_to_operation (operation_to_string 2) = 2 :=
  operation_string_roundtrip (bytes "mUL") 2 (by decide) (by decide)

/-! ## Theorems: byte order -/

theorem toUInt32_lt (x : Int) : toUInt32 x < 4294967296 := by
  unfold toUInt32; omega

theorem toUInt32_toInt32 {v : Nat} (h : v < 4294967296) : toUInt32 (toInt32 v) = v := by
  unfold toUInt32 toInt32 wrap32; omega

theorem toInt32_toUInt32 {x : Int} (h : isInt32 x) : toInt32 (toUInt32 x) = x := by
  unfold isInt32 INT32_MIN INT32_MAX at h
  unfold toUInt32 toInt32 wrap32; omega

theorem be16_parts (a b : Nat) (ha : a < 256) (hb : b < 256) :
    (a * 256 + b) % 256 = b ∧ (a * 256 + b) / 256 % 256 = a := by
  omega

theorem be32_parts (a b c d : Nat) (ha : a < 256) (hb : b < 256) (hc : c < 256)
    (hd : d < 256) :
    (a * 16777216 + b * 65536 + c * 256 + d) % 256 = d ∧
    (a * 16777216 + b * 65536 + c * 256 + d) / 256 % 256 = c ∧
    (a * 16777216 + b * 65536 + c * 256 + d) / 65536 % 256 = b ∧
    (a * 16777216 + b * 65536 + c * 256 + d) / 16777216 % 256 = a := by
  omega

theorem bswap16_parts (v : Nat) :
    bswap16 v % 256 = v / 256 % 256 ∧ bswap16 v / 256 % 256 = v % 256 := by
  unfold bswap16
  exact be16_parts (v % 256) (v / 256 % 256) (Nat.mod_lt _ (by decide))
    (Nat.mod_lt _ (by decide))

theorem bswap32_parts (v : Nat) :
    bswap32 v % 256 = v / 16777216 % 256 ∧ bswap32 v / 256 % 256 = v / 65536 % 256 ∧
    bswap32 v / 65536 % 256 = v / 256 % 256 ∧ bswap32 v / 16777216 % 256 = v % 256 := by
  unfold bswap32
  exact be32_parts (v % 256) (v / 256 % 256) (v / 65536 % 256) (v / 16777216 % 256)
    (Nat.mod_lt _ (by decide)) (Nat.mod_lt _ (by decide)) (Nat.mod_lt _ (by decide))
    (Nat.mod_lt _ (by decide))

theorem bswap16_lt (v : Nat) : bswap16 v < 65536 := by
  unfold bswap16; omega

theorem bswap32_lt (v : Nat) : bswap32 v < 4294967296 := by
  unfold bswap32; omega

theorem bswap16_bswap16 {x : Nat} (h : x < 65536) : bswap16 (bswap16 x) = x := by
  obtain ⟨h1, h2⟩ := bswap16_parts x
  rw [bswap16, h1, h2]; omega

theorem bswap32_bswap32 {x : Nat} (h : x < 4294967296) : bswap32 (bswap32 x) = x := by
  obtain ⟨h1, h2, h3, h4⟩ := bswap32_parts x
  rw [bswap32, h1, h2, h3, h4]; omega

theorem hton16_lt (order : ByteOrder) (v : Nat) : hton16 order v < 65536 := by
  cases order <;> simp only [hton16, htons]
  · exact bswap16_lt v
  · omega

theorem hton32_lt (order : ByteOrder) (v : Nat) : hton32 order v < 4294967296 := by
  cases order <;> simp only [hton32, htonl]
  · exact bswap32_lt v
  · omega

/-- The bytes in memory of a converted 16-bit value are big-endian whatever the host. -/
theorem store16_hton16 (order : ByteOrder) (v : Nat) :
    store16 order (hton16 order v) = [v / 256 % 256, v % 256] := by
  cases order <;> simp only [store16, hton16, htons]
  · obtain ⟨h1, h2⟩ := bswap16_parts v
    rw [h1, h2]
  · simp only [List.cons.injEq, and_true]; omega

/-- The bytes in memory of a converted 32-bit value are big-endian whatever the host. -/
theorem store32_hton32 (order : ByteOrder) (v : Nat) :
    store32 order (hton32 order v) =
      [v / 16777216 % 256, v / 65536 % 256, v / 256 % 256, v % 256] := by
  cases order <;> simp only [store32, hton32, htonl]
  · obtain ⟨h1, h2, h3, h4⟩ := bswap32_parts v
    rw [h1, h2, h3, h4]
  · simp only [List.cons.injEq, and_true]; omega

/-- Reading two bytes of memory and converting gives their big-endian value whatever the
host. -/
theorem ntoh16_load16 (order : ByteOrder) {b0 b1 : Nat} (h0 : b0 < 256) (h1 : b1 < 256) :
    ntoh16 order (load16 order b0 b1) = 256 * b0 + b1 := by
  cases order <;> simp only [load16, ntoh16, ntohs, bswap16] <;> omega

/-- Reading four bytes of memory and converting gives their big-endian value whatever the
host. -/
theorem ntoh32_load32 (order : ByteOrder) {b0 b1 b2 b3 : Nat} (h0 : b0 < 256) (h1 : b1 < 256)
    (h2 : b2 < 256) (h3 : b3 < 256) :
    ntoh32 order (load32 order b0 b1 b2 b3) =
      16777216 * b0 + 65536 * b1 + 256 * b2 + b3 := by
  cases order <;> simp only [load32, ntoh32, ntohl, bswap32] <;> omega

theorem load32_lt (order : ByteOrder) {b0 b1 b2 b3 : Nat} (h0 : b0 < 256) (h1 : b1 < 256)
    (h2 : b2 < 256) (h3 : b3 < 256) : load32 order b0 b1 b2 b3 < 4294967296 := by
  cases order <;> simp only [load32] <;> omega

theorem ntoh16_hton16 (order : ByteOrder) {x : Nat} (h : x < 65536) :
    ntoh16 order (hton16 order x) = x := by
  cases order <;> simp only [hton16, ntoh16, htons, ntohs]
  · exact bswap16_bswap16 h
  · omega

theorem ntoh32_hton32 (order : ByteOrder) {x : Nat} (h : x < 4294967296) :
    ntoh32 order (hton32 order x) = x := by
  cases order <;> simp only [hton32, ntoh32, htonl, ntohl]
  · exact bswap32_bswap32 h
  · omega

/-! ## Theorems: the two records on the wire -/

/-- The bytes transmitted for a `calcMessage` are the big-endian encodings of its fields. -/
theorem encode_calcMessage_wire (order : ByteOrder) (m : calcMessage) :
    encode_calcMessage order m =
      be16 m.type ++ be16 m.message ++ be16 m.protocol ++ be16 m.major_version ++
        be16 m.minor_version := by
  simp only [encode_calcMessage, calcMessage.hton, calcMessage.toBytes, store16_hton16, be16]

/-- The bytes transmitted for the result record are the big-endian encodings of the fields
and of the result. -/
theorem hton_toBytes_wire (order : ByteOrder) (m : calcProtocol) (result : Int) :
    (m.hton order result).toBytes order =
      be16 m.type ++ be16 m.major_version ++ be16 m.minor_version ++ be32 m.id ++
        be32 m.arith ++ be32 (toUInt32 m.inValue1) ++ be32 (toUInt32 m.inValue2) ++
        be32 (toUInt32 result) := by
  simp only [calcProtocol.hton, calcProtocol.toBytes, store16_hton16, store32_hton32,
    toUInt32_toInt32 (hton32_lt _ _), be16, be32]

theorem decode_calcMessage_wire (order : ByteOrder) (a0 a1 a2 a3 a4 a5 a6 a7 a8 a9 : Nat)
    (h : allBytes [a0, a1, a2, a3, a4, a5, a6, a7, a8, a9]) :
    decode_calcMessage order [a0, a1, a2, a3, a4, a5, a6, a7, a8, a9] =
      { type := 256 * a0 + a1, message := 256 * a2 + a3, protocol := 256 * a4 + a5,
        major_version := 256 * a6 + a7, minor_version := 256 * a8 + a9 } := by
  simp only [allBytes, List.mem_cons, List.mem_singleton, List.not_mem_nil, or_false,
    forall_eq_or_imp, forall_eq] at h
  obtain ⟨h0, h1, h2, h3, h4, h5, h6, h7, h8, h9⟩ := h
  simp [decode_calcMessage, calcMessage.ofBytes, calcMessage.ntoh, ntoh16_load16, *]

theorem decode_calcMessage_encode (order : ByteOrder) (m : calcMessage) (h : m.inRange) :
    decode_calcMessage order (encode_calcMessage order m) = m := by
  obtain ⟨h1, h2, h3, h4, h5⟩ := h
  rw [encode_calcMessage_wire]
  simp only [be16, List.cons_append, List.nil_append]
  rw [decode_calcMessage_wire]
  · cases m; simp only [calcMessage.mk.injEq] at *; omega
  · intro b hb
    simp only [List.mem_cons, List.mem_singleton, List.not_mem_nil, or_false] at hb
    omega

theorem getD_lt_of_allBytes {b : List Nat} (h : allBytes b) (i : Nat) : b.getD i 0 < 256 := by
  rw [List.getD_eq_getElem?_getD]
  cases hi : b[i]? with
  | none => simp
  | some x =>
    have := List.getElem?_mem hi
    simpa using h x this

/-- The field values the binary handlers obtain from received bytes: the big-endian values of
the first seven fields whatever the host; the result field as the host reads it. -/
theorem decode_calcProtocol_wire (order : ByteOrder) (b : List Nat) (h : allBytes b) :
    decode_calcProtocol order b =
      { type := 256 * b.getD 0 0 + b.getD 1 0
        major_version := 256 * b.getD 2 0 + b.getD 3 0
        minor_version := 256 * b.getD 4 0 + b.getD 5 0
        id := 16777216 * b.getD 6 0 + 65536 * b.getD 7 0 + 256 * b.getD 8 0 + b.getD 9 0
        arith := 16777216 * b.getD 10 0 + 65536 * b.getD 11 0 + 256 * b.getD 12 0 +
          b.getD 13 0
        inValue1 := toInt32 (16777216 * b.getD 14 0 + 65536 * b.getD 15 0 +
          256 * b.getD 16 0 + b.getD 17 0)
        inValue2 := toInt32 (16777216 * b.getD 18 0 + 65536 * b.getD 19 0 +
          256 * b.getD 20 0 + b.getD 21 0)
        inResult := toInt32 (load32 order (b.getD 22 0) (b.getD 23 0) (b.getD 24 0)
          (b.getD 25 0)) } := by
  have g := getD_lt_of_allBytes h
  simp only [decode_calcProtocol, calcProtocol.ofBytes, calcProtocol.ntoh,
    ntoh16_load16 order (g _) (g _), ntoh32_load32 order (g _) (g _) (g _) (g _),
    toUInt32_toInt32 (load32_lt order (g _) (g _) (g _) (g _))]

theorem be32_value {u : Nat} (h : u < 4294967296) :
    16777216 * (u / 16777216 % 256) + 65536 * (u / 65536 % 256) + 256 * (u / 256 % 256) +
      u % 256 = u := by
  omega

theorem be16_value {u : Nat} (h : u < 65536) : 256 * (u / 256 % 256) + u % 256 = u := by
  omega

theorem allBytes_encode_calcProtocol (order : ByteOrder) (m : calcProtocol) :
    allBytes (encode_calcProtocol order m) := by
  rw [encode_calcProtocol, hton_toBytes_wire]
  intro b hb
  simp only [be16, be32, List.cons_append, List.nil_append, List.mem_cons, List.mem_singleton,
    List.not_mem_nil, or_false] at hb
  omega

/-- Decoding the encoding of a record returns the first seven fields. -/
theorem decode_encode_calcProtocol_fields (order : ByteOrder) (m : calcProtocol)
    (h : m.inRange) :
    decode_calcProtocol order (encode_calcProtocol order m) =
      { m with
        inResult := (decode_calcProtocol order (encode_calcProtocol order m)).inResult } := by
  obtain ⟨h1, h2, h3, h4, h5, h6, h7, -⟩ := h
  rw [decode_calcProtocol_wire order _ (allBytes_encode_calcProtocol order m)]
  rw [encode_calcProtocol, hton_toBytes_wire]
  simp only [be16, be32, List.cons_append, List.nil_append, List.getD_cons_zero,
    List.getD_cons_succ]
  simp only [be16_value h1, be16_value h2, be16_value h3, be32_value h4, be32_value h5,
    be32_value (toUInt32_lt _), toInt32_toUInt32 h6, toInt32_toUInt32 h7]

/-- C9 (what the code does): the packed `calcProtocol` has 26 bytes, not the 22 that
`test_client.cpp` asserts; 26 is the length of every transmitted record and the length the
binary routines require, so that a well-formed assignment of 22 bytes (here without the result
field) makes `handleUDPBinary` fail with nothing but the greeting sent. -/
theorem sizeof_calcProtocol_is_26 :
    sizeof_calcProtocol = 26 ∧
    sizeof_calcProtocol ≠ asserted_sizeof_calcProtocol ∧
    (∀ (order : ByteOrder) (m : calcProtocol),
      (encode_calcProtocol order m).length = sizeof_calcProtocol) ∧
    handleUDPBinary .little
        ⟨[.data (be16 1 ++ be16 1 ++ be16 1 ++ be32 7 ++ be32 1 ++ be32 5 ++ be32 3),
          .data (be16 22 ++ be16 1 ++ be16 17 ++ be16 1 ++ be16 1)], [], false, []⟩ =
      (.returned false,
        ⟨[.data (be16 22 ++ be16 1 ++ be16 17 ++ be16 1 ++ be16 1)], [], false,
          [be16 22 ++ be16 0 ++ be16 17 ++ be16 1 ++ be16 1]⟩) := by
  refine ⟨by decide, by decide, ?_, by decide⟩
  intro order m
  rw [encode_calcProtocol, hton_toBytes_wire]
  rfl

/-- The result field of an encoded record, read from the received object and converted with
`ntoh32` as the other 32-bit fields are, is the encoded result. -/
theorem ntoh32_encoded_result (order : ByteOrder) (m : calcProtocol) (h : isInt32 m.inResult) :
    toInt32 (ntoh32 order (toUInt32
      (decode_calcProtocol order (encode_calcProtocol order m)).inResult)) = m.inResult := by
  rw [decode_calcProtocol_wire order _ (allBytes_encode_calcProtocol order m)]
  rw [encode_calcProtocol, hton_toBytes_wire]
  simp only [be16, be32, List.cons_append, List.nil_append, List.getD_cons_zero,
    List.getD_cons_succ]
  have hb : ∀ k, toUInt32 m.inResult / k % 256 < 256 := fun k => Nat.mod_lt _ (by decide)
  have hb0 : toUInt32 m.inResult % 256 < 256 := Nat.mod_lt _ (by decide)
  rw [toUInt32_toInt32 (load32_lt order (hb _) (hb _) (hb _) hb0),
    ntoh32_load32 order (hb _) (hb _) (hb _) hb0, be32_value (toUInt32_lt _),
    toInt32_toUInt32 h]

/-- C10: encoding then decoding is the identity. `ntoh16 (hton16 x) = x` for every uint16
and `ntoh32 (hton32 x) = x` for every uint32; hence, on either byte order, decoding the
encoding of an in-range control message returns its five fields, and decoding the encoding
of an in-range assignment record field by field, each 32-bit field through `ntoh32`, returns
its eight fields, negative operands and result included. -/
theorem codec_roundtrip (order : ByteOrder) (x16 x32 : Nat) (cm : calcMessage)
    (cp : calcProtocol) (h16 : x16 < 65536) (h32 : x32 < 4294967296) (hcm : cm.inRange)
    (hcp : cp.inRange) :
    ntoh16 order (hton16 order x16) = x16 ∧
    ntoh32 order (hton32 order x32) = x32 ∧
    decode_calcMessage order (encode_calcMessage order cm) = cm ∧
    (decode_calcProtocol order (encode_calcProtocol order cp)).type = cp.type ∧
    (decode_calcProtocol order (encode_calcProtocol order cp)).major_version =
      cp.major_version ∧
    (decode_calcProtocol order (encode_calcProtocol order cp)).minor_version =
      cp.minor_version ∧
    (decode_calcProtocol order (encode_calcProtocol order cp)).id = cp.id ∧
    (decode_calcProtocol order (encode_calcProtocol order cp)).arith = cp.arith ∧
    (decode_calcProtocol order (encode_calcProtocol order cp)).inValue1 = cp.inValue1 ∧
    (decode_calcProtocol order (encode_calcProtocol order cp)).inValue2 = cp.inValue2 ∧
    toInt32 (ntoh32 order (toUInt32
      (decode_calcProtocol order (encode_calcProtocol order cp)).inResult)) = cp.inResult ∧
    { decode_calcProtocol order (encode_calcProtocol order cp) with
      inResult := toInt32 (ntoh32 order (toUInt32
        (decode_calcProtocol order (encode_calcProtocol order cp)).inResult)) } = cp ∧
    encode_calcProtocol order cp =
      be16 cp.type ++ be16 cp.major_version ++ be16 cp.minor_version ++ be32 cp.id ++
        be32 cp.arith ++ be32 (toUInt32 cp.inValue1) ++ be32 (toUInt32 cp.inValue2) ++
        be32 (toUInt32 cp.inResult) := by
  have h := decode_encode_calcProtocol_fields order cp hcp
  have hr := ntoh32_encoded_result order cp hcp.2.2.2.2.2.2.2
  refine ⟨ntoh16_hton16 order h16, ntoh32_hton32 order h32,
    decode_calcMessage_encode order cm hcm, ?_, ?_, ?_, ?_, ?_, ?_, ?_, hr, ?_,
    hton_toBytes_wire order cp cp.inResult⟩
  any_goals rw [h]
  rw [hr, h]

theorem codec_roundtrip_witness :
    ntoh16 .little (hton16 .little 4660) = 4660 ∧
    ntoh32 .little (hton32 .little 305419896) = 305419896 ∧
    decode_calcMessage .little (encode_calcMessage .little ⟨22, 2, 17, 1, 1⟩) =
      ⟨22, 2, 17, 1, 1⟩ ∧
    (decode_calcProtocol .little
      (encode_calcProtocol .little ⟨1, 1, 1, 7, 4, -2147483648, -1, -12⟩)).inValue1 =
      -2147483648 ∧
    toInt32 (ntoh32 .little (toUInt32 (decode_calcProtocol .little
      (encode_calcProtocol .little ⟨1, 1, 1, 7, 4, -2147483648, -1, -12⟩)).inResult)) =
      -12 :=
  have h := codec_roundtrip .little 4660 305419896 ⟨22, 2, 17, 1, 1⟩
    ⟨1, 1, 1, 7, 4, -2147483648, -1, -12⟩ (by decide) (by decide) (by decide) (by decide)
  ⟨h.1, h.2.1, h.2.2.1, h.2.2.2.2.2.2.2.2.1, h.2.2.2.2.2.2.2.2.2.2.1⟩

/-! ## Theorems: the handshake routines -/

theorem send_of_sendsSucceed (sockfd : Socket) (msg : List Nat) (h : sendsSucceed sockfd) :
    send sockfd msg =
      (true, { sockfd with sendFails := sockfd.sendFails.tail, sent := sockfd.sent ++ [msg] }) := by
  unfold send
  cases hs : sockfd.sendFails with
  | nil => simp [hs]
  | cons b rest =>
    have hb : b = false := h b (by rw [hs]; exact List.mem_cons_self b rest)
    subst hb
    simp

theorem ntoh_ofBytes_calcProtocol (order : ByteOrder) (b : List Nat) :
    (calcProtocol.ofBytes order b).ntoh order = decode_calcProtocol order b := rfl

/-- The run of `handleUDPBinary` on a record that passes the checks and an accepting
verdict. -/
theorem handleUDPBinary_run (order : ByteOrder) (sf : List Bool) (snt : List (List Nat))
    (record vm : List Nat) (rest : List RecvEvent) (m : calcProtocol) (result : Int)
    (hsend : ∀ b ∈ sf, b = false)
    (hlen : record.length = 26) (hdec : decode_calcProtocol order record = m)
    (htype : m.type = MSG_TYPE_CALC_PROTOCOL) (hmaj : m.major_version = MAJOR_VERSION)
    (hmin : m.minor_version = MINOR_VERSION)
    (hcalc : calculate m.arith m.inValue1 m.inValue2 = some result)
    (hvlen : vm.length = 10)
    (hv : verdict ((calcMessage.ofBytes order vm).ntoh_head order) = true) :
    handleUDPBinary order ⟨.data record :: .data vm :: rest, sf, false, snt⟩ =
      (.returned true,
        ⟨rest, sf.tail.tail, false,
          snt ++ [(init_msg order).toBytes order, (m.hton order result).toBytes order]⟩) := by
  have hs1 : sendsSucceed ⟨.data record :: .data vm :: rest, sf, false, snt⟩ := hsend
  have hs2 : sendsSucceed ⟨.data vm :: rest, sf.tail, false,
      snt ++ [(init_msg order).toBytes order]⟩ := fun b hb => hsend b (List.mem_of_mem_tail hb)
  have ht1 : List.take 1024 record = record := List.take_of_length_le (by omega)
  have ht2 : List.take 1024 vm = vm := List.take_of_length_le (by omega)
  simp only [handleUDPBinary]
  rw [send_of_sendsSucceed _ _ hs1]
  simp only [Bool.not_true, Bool.false_eq_true, if_false, recvfrom, bytes_read, received, ht1,
    hlen, ntoh_ofBytes_calcProtocol, hdec, htype, hmaj, hmin, hcalc]
  rw [send_of_sendsSucceed _ _ hs2]
  simp [recvfrom, bytes_read, received, ht2, hvlen, hv, sizeof_calcMessage,
    calcMessage_members, sizeof_calcProtocol, calcProtocol_members]

theorem init_msg_toBytes (order : ByteOrder) :
    (init_msg order).toBytes order =
      be16 MSG_TYPE_CALC_MESSAGE ++ be16 0 ++ be16 PROTOCOL_UDP ++ be16 MAJOR_VERSION ++
        be16 MINOR_VERSION :=
  encode_calcMessage_wire order ⟨MSG_TYPE_CALC_MESSAGE, 0, PROTOCOL_UDP, MAJOR_VERSION,
    MINOR_VERSION⟩

theorem verdict_ok (order : ByteOrder) (tail : List Nat) :
    verdict ((calcMessage.ofBytes order
      (be16 MSG_TYPE_CALC_MESSAGE ++ be16 1 ++ tail)).ntoh_head order) = true := by
  have h1 : ntoh16 order (load16 order 0 22) = 22 :=
    ntoh16_load16 order (by decide) (by decide)
  have h2 : ntoh16 order (load16 order 0 1) = 1 :=
    ntoh16_load16 order (by decide) (by decide)
  simp [verdict, calcMessage.ofBytes, calcMessage.ntoh_head, be16, MSG_TYPE_CALC_MESSAGE, h1,
    h2]

/-- A binary/datagram session whose first datagram is a 26-byte assignment record with type 1,
version 1.1, operation `op` and operands `v1`, `v2` on which `calculate` has the result
`result`, and whose second datagram is a 10-byte control message with type 22 and message
code 1: the routine sends the greeting and then the received record with the big-endian two's
complement of `result` in the result field, and returns success, on either byte order. -/
theorem handleUDPBinary_accepts (order : ByteOrder) (sockfd : Socket) (id op : Nat)
    (v1 v2 result : Int) (r0 r1 r2 r3 : Nat) (tail : List Nat) (rest : List RecvEvent)
    (hsend : sendsSucceed sockfd) (hopt : sockfd.setsockoptFails = false)
    (hid : id < 4294967296) (hop : op < 4294967296) (hv1 : isInt32 v1) (hv2 : isInt32 v2)
    (hr : allBytes [r0, r1, r2, r3]) (htail : tail.length = 6)
    (hin : sockfd.incoming =
      .data (be16 MSG_TYPE_CALC_PROTOCOL ++ be16 MAJOR_VERSION ++ be16 MINOR_VERSION ++
          be32 id ++ be32 op ++ be32 (toUInt32 v1) ++ be32 (toUInt32 v2) ++ [r0, r1, r2, r3]) ::
        .data (be16 MSG_TYPE_CALC_MESSAGE ++ be16 1 ++ tail) :: rest)
    (hcalc : calculate op v1 v2 = some result) :
    handleUDPBinary order sockfd =
      (.returned true,
        { incoming := rest
          sendFails := sockfd.sendFails.tail.tail
          setsockoptFails := false
          sent := sockfd.sent ++
            [be16 MSG_TYPE_CALC_MESSAGE ++ be16 0 ++ be16 PROTOCOL_UDP ++ be16 MAJOR_VERSION ++
               be16 MINOR_VERSION,
             be16 MSG_TYPE_CALC_PROTOCOL ++ be16 MAJOR_VERSION ++ be16 MINOR_VERSION ++
               be32 id ++ be32 op ++ be32 (toUInt32 v1) ++ be32 (toUInt32 v2) ++
               be32 (toUInt32 result)] }) := by
  obtain ⟨inc, sf, so, snt⟩ := sockfd
  simp only at hin hopt
  subst hin hopt
  have hu1 := toUInt32_lt v1
  have hu2 := toUInt32_lt v2
  have hbytes : allBytes (be16 MSG_TYPE_CALC_PROTOCOL ++ be16 MAJOR_VERSION ++
      be16 MINOR_VERSION ++ be32 id ++ be32 op ++ be32 (toUInt32 v1) ++ be32 (toUInt32 v2) ++
      [r0, r1, r2, r3]) := by
    intro b hb
    simp only [be16, be32, List.cons_append, List.nil_append, List.mem_cons,
      List.mem_singleton, List.not_mem_nil, or_false] at hb
    have := hr r0 (by simp)
    have := hr r1 (by simp)
    have := hr r2 (by simp)
    have := hr r3 (by simp)
    omega
  have hdec : decode_calcProtocol order (be16 MSG_TYPE_CALC_PROTOCOL ++ be16 MAJOR_VERSION ++
      be16 MINOR_VERSION ++ be32 id ++ be32 op ++ be32 (toUInt32 v1) ++ be32 (toUInt32 v2) ++
      [r0, r1, r2, r3]) =
      { type := MSG_TYPE_CALC_PROTOCOL, major_version := MAJOR_VERSION,
        minor_version := MINOR_VERSION, id := id, arith := op, inValue1 := v1, inValue2 := v2,
        inResult := toInt32 (load32 order r0 r1 r2 r3) } := by
    rw [decode_calcProtocol_wire order _ hbytes]
    simp only [be16, be32, List.cons_append, List.nil_append, List.getD_cons_zero,
      List.getD_cons_succ, be32_value hid, be32_value hop, be32_value hu1, be32_value hu2,
      toInt32_toUInt32 hv1, toInt32_toUInt32 hv2]
    rfl
  rw [handleUDPBinary_run order sf snt _ _ rest _ result hsend (by simp [be16, be32]) hdec
    rfl rfl rfl hcalc (by simp [be16, htail]) (verdict_ok order tail)]
  rw [init_msg_toBytes, hton_toBytes_wire]

/-- The sample session of the specification: `mul -4 3` is answered with a record whose
result field holds FF FF FF F4, through `handleUDPBinary_accepts`. -/
theorem handleUDPBinary_sample (order : ByteOrder) :
    handleUDPBinary order
        ⟨[.data [0, 1, 0, 1, 0, 1, 0, 0, 0, 7, 0, 0, 0, 3, 255, 255, 255, 252, 0, 0, 0, 3,
            0, 0, 0, 0],
          .data [0, 22, 0, 1, 0, 17, 0, 1, 0, 1]], [], false, []⟩ =
      (.returned true,
        ⟨[], [], false,
          [[0, 22, 0, 0, 0, 17, 0, 1, 0, 1],
           [0, 1, 0, 1, 0, 1, 0, 0, 0, 7, 0, 0, 0, 3, 255, 255, 255, 252, 0, 0, 0, 3,
            255, 255, 255, 244]]⟩) := by
  have h := handleUDPBinary_accepts order
    ⟨[.data (be16 MSG_TYPE_CALC_PROTOCOL ++ be16 MAJOR_VERSION ++ be16 MINOR_VERSION ++
        be32 7 ++ be32 ARITH_MUL ++ be32 (toUInt32 (-4)) ++ be32 (toUInt32 3) ++ [0, 0, 0, 0]),
      .data (be16 MSG_TYPE_CALC_MESSAGE ++ be16 1 ++ [0, 17, 0, 1, 0, 1])], [], false, []⟩
    7 ARITH_MUL (-4) 3 (-12) 0 0 0 0 [0, 17, 0, 1, 0, 1] [] (by decide) rfl (by decide)
    (by decide) (by decide) (by decide) (by decide) rfl rfl (by decide)
  exact h

/-! ### Text sessions -/

/-- The function `find` reports a position exactly when the needle occurs in the text. -/
theorem find_ne_none_iff (hay needle : List Nat) :
    find hay needle ≠ none ↔ needle <:+: hay := by
  induction hay with
  | nil =>
    by_cases h : needle = [] <;> simp [find, h]
  | cons c cs ih =>
    rw [List.infix_cons_iff, ← ih]
    by_cases hp : needle <+: c :: cs
    · simp [find, hp]
    · simp [find, hp]

theorem find_eq_none_iff (hay needle : List Nat) :
    find hay needle = none ↔ ¬ needle <:+: hay := by
  rw [← find_ne_none_iff]; simp

theorem find_append_eq_none (x y needle : List Nat) (h : find (x ++ y) needle = none) :
    find x needle = none := by
  rw [find_eq_none_iff] at *
  intro hx
  exact h (hx.trans (List.infix_append' [] x y))

/-- The greeting loop on a greeting that arrives in the segments `gs` and then `g`, the
blank line being complete only in `g`. -/
theorem recvGreeting_segments (gs : List (List Nat)) :
    ∀ (fuel : Nat) (acc g : List Nat) (rest : List RecvEvent) (sf : List Bool) (so : Bool)
      (snt : List (List Nat)),
      gs.length < fuel →
      (∀ x ∈ gs ++ [g], x ≠ [] ∧ x.length ≤ 1023 ∧ 0 ∉ x) →
      find (acc ++ gs.flatten) (bytes "\n\n") = none →
      find (acc ++ gs.flatten ++ g) (bytes "\n\n") ≠ none →
      recvGreeting fuel ⟨gs.map .data ++ .data g :: rest, sf, so, snt⟩ acc =
        some ((g.length : Int), acc ++ gs.flatten ++ g, ⟨rest, sf, so, snt⟩) := by
  induction gs with
  | nil =>
    intro fuel acc g rest sf so snt hfuel hseg hopen hblank
    obtain ⟨hne, hlen, hnul⟩ := hseg g (by simp)
    obtain ⟨n, rfl⟩ : ∃ n, fuel = n + 1 := ⟨fuel - 1, by simp at hfuel; omega⟩
    have hpos : (0 : Int) < (g.length : Int) := by
      have := List.length_pos.mpr hne; omega
    have hc : c_str g = g := c_str_of_no_nul g (fun c hc h0 => hnul (h0 ▸ hc))
    simp only [List.flatten_nil, List.append_nil] at hblank
    simp [recvGreeting, recv, hlen, bytes_read, received, hpos, hc, hblank]
  | cons x xs ih =>
    intro fuel acc g rest sf so snt hfuel hseg hopen hblank
    obtain ⟨hne, hlen, hnul⟩ := hseg x (by simp)
    obtain ⟨n, rfl⟩ : ∃ n, fuel = n + 1 := ⟨fuel - 1, by simp at hfuel; omega⟩
    have hpos : (0 : Int) < (x.length : Int) := by
      have := List.length_pos.mpr hne; omega
    have hc : c_str x = x := c_str_of_no_nul x (fun c hc h0 => hnul (h0 ▸ hc))
    simp only [List.flatten_cons, ← List.append_assoc] at hopen hblank
    have hx : find (acc ++ x) (bytes "\n\n") = none := find_append_eq_none _ _ _ hopen
    have := ih n (acc ++ x) g rest sf so snt (by simp at hfuel; omega)
      (fun y hy => hseg y (by simp at hy ⊢; tauto)) hopen hblank
    simp [recvGreeting, recv, hlen, bytes_read, received, hpos, hc, hx, this]

theorem digitsValue_append (ds : List Nat) (d : Nat) :
    digitsValue (ds ++ [d]) = digitsValue ds * 10 + (d - 48) := by
  simp [digitsValue, List.foldl_append]

/-- The digits produced for `n`: a non-empty run of at most `k` digits (when `n < 10 ^ k`,
`k ≥ 1`) whose value is `n`. -/
theorem natDigits_spec (fuel : Nat) :
    ∀ (n : Nat) (acc : List Nat), n < fuel →
      ∃ ds : List Nat, natDigits fuel n acc = ds ++ acc ∧ ds ≠ [] ∧
        (∀ d ∈ ds, isdigit d = true) ∧ digitsValue ds = n ∧
        (∀ k, 0 < k → n < 10 ^ k → ds.length ≤ k) := by
  induction fuel with
  | zero => intro n acc h; omega
  | succ fuel ih =>
    intro n acc hn
    by_cases h10 : n < 10
    · refine ⟨[48 + n], by simp [natDigits, h10], by simp, ?_, ?_, ?_⟩
      · intro d hd
        simp only [List.mem_singleton] at hd
        subst hd
        simp [isdigit]; omega
      · simp [digitsValue]
      · intro k hk _; simpa using hk
    · obtain ⟨ds, h1, h2, h3, h4, h5⟩ := ih (n / 10) ((48 + n % 10) :: acc) (by omega)
      refine ⟨ds ++ [48 + n % 10], by simp [natDigits, h10, h1], by simp, ?_, ?_, ?_⟩
      · intro d hd
        simp only [List.mem_append, List.mem_singleton] at hd
        rcases hd with hd | hd
        · exact h3 d hd
        · subst hd; simp [isdigit]; omega
      · rw [digitsValue_append, h4]; omega
      · intro k hk hlt
        obtain ⟨j, rfl⟩ : ∃ j, k = j + 1 := ⟨k - 1, by omega⟩
        have hj : 0 < j := by
          rcases Nat.eq_zero_or_pos j with h0 | h0
          · subst h0; simp at hlt; omega
          · exact h0
        have : n / 10 < 10 ^ j := by
          rw [Nat.pow_succ] at hlt
          exact Nat.div_lt_of_lt_mul (by omega)
        have := h5 j hj this
        simp; omega

theorem takeWhile_dropWhile_append (p : Nat → Bool) (l r : List Nat)
    (hl : ∀ x ∈ l, p x = true) (hr : ∀ c, r.head? = some c → p c = false) :
    (l ++ r).takeWhile p = l ∧ (l ++ r).dropWhile p = r := by
  induction l with
  | nil =>
    cases r with
    | nil => simp
    | cons c r' =>
      have := hr c rfl
      simp [List.takeWhile_cons, List.dropWhile_cons, this]
  | cons a l ih =>
    have ha := hl a (List.mem_cons_self a l)
    have := ih (fun x hx => hl x (List.mem_cons_of_mem a hx))
    simp [List.takeWhile_cons, List.dropWhile_cons, ha, this]

/-- The text `std::to_string` produces: an optional minus sign and a non-empty run of digits
whose value is the magnitude; at most ten digits for an `int32_t`. -/
theorem to_string_spec (v : Int) :
    ∃ ds : List Nat, to_string v = (if v < 0 then [45] else []) ++ ds ∧ ds ≠ [] ∧
      (∀ d ∈ ds, isdigit d = true) ∧ digitsValue ds = v.natAbs ∧
      (isInt32 v → ds.length ≤ 10) := by
  obtain ⟨ds, h1, h2, h3, h4, h5⟩ := natDigits_spec (v.natAbs + 1) v.natAbs [] (by omega)
  refine ⟨ds, ?_, h2, h3, h4, ?_⟩
  · unfold to_string
    by_cases hv : v < 0 <;> simp [hv, h1]
  · intro hv
    unfold isInt32 INT32_MIN INT32_MAX at hv
    exact h5 10 (by decide) (by omega)

theorem isspace_of_isdigit {c : Nat} (h : isdigit c = true) : isspace c = false := by
  simp [isdigit, isspace] at *
  omega

/-- Extraction of an `int` reads back what `std::to_string` wrote for an `int32_t`, after
any whitespace and up to the first character that is not a digit. -/
theorem extractInt_to_string (v : Int) (hv : isInt32 v) (ws r : List Nat)
    (hws : ∀ c ∈ ws, isspace c = true) (hr : ∀ c, r.head? = some c → isdigit c = false) :
    extractInt (ws ++ to_string v ++ r) = some (v, r) := by
  obtain ⟨ds, h1, h2, h3, h4, -⟩ := to_string_spec v
  obtain ⟨d, ds', rfl⟩ := List.exists_cons_of_ne_nil h2
  have hd := h3 d (List.mem_cons_self d ds')
  have htd := takeWhile_dropWhile_append isdigit (d :: ds') r h3 hr
  have hd45 : d ≠ 45 := by rintro rfl; simp [isdigit] at hd
  have hd43 : d ≠ 43 := by rintro rfl; simp [isdigit] at hd
  by_cases hneg : v < 0
  · simp only [hneg, if_true] at h1
    have hdrop : (ws ++ to_string v ++ r).dropWhile isspace = 45 :: (d :: ds' ++ r) := by
      rw [List.append_assoc, h1]
      exact (takeWhile_dropWhile_append isspace ws _ hws
        (by intro c hc; simp at hc; subst hc; rfl)).2
    have hval : -(digitsValue (d :: ds') : Int) = v := by rw [h4]; omega
    simp only [extractInt, hdrop, List.head?_cons, List.tail_cons, true_or, if_true, htd.1,
      htd.2, hval]
    simp [hv]
  · simp only [hneg, if_false, List.nil_append] at h1
    have hdrop : (ws ++ to_string v ++ r).dropWhile isspace = d :: ds' ++ r := by
      rw [List.append_assoc, h1]
      exact (takeWhile_dropWhile_append isspace ws _ hws
        (by intro c hc; simp at hc; subst hc; exact isspace_of_isdigit hd)).2
    have hval : (digitsValue (d :: ds') : Int) = v := by rw [h4]; omega
    simp only [List.cons_append] at htd hdrop
    simp only [extractInt, hdrop]
    simp [hd45, hd43, htd.1, htd.2, hval, hv]

/-- Extraction of a string reads a non-empty token without whitespace up to the whitespace
character that follows it. -/
theorem extractString_token (op r : List Nat) (hne : op ≠ [])
    (hop : ∀ c ∈ op, isspace c = false) (hr : ∀ c, r.head? = some c → isspace c = true) :
    extractString (op ++ r) = some (op, r) := by
  obtain ⟨a, op', rfl⟩ := List.exists_cons_of_ne_nil hne
  have ha := hop a (List.mem_cons_self a op')
  have h := takeWhile_dropWhile_append (fun c => !isspace c) (a :: op') r
    (by intro x hx; simp [hop x hx]) (by intro c hc; simp [hr c hc])
  have hdrop : (a :: op' ++ r).dropWhile isspace = a :: op' ++ r := by
    simp [List.dropWhile_cons, ha]
  simp only [extractString, hdrop, h.1, h.2]
  simp

/-- The text `<op> <v1> <v2>` is extracted as the operation name and the two operands. -/
theorem extractAssignment_text (op : List Nat) (v1 v2 : Int) (hne : op ≠ [])
    (hop : ∀ c ∈ op, isspace c = false) (hv1 : isInt32 v1) (hv2 : isInt32 v2) :
    extractAssignment (op ++ [32] ++ to_string v1 ++ [32] ++ to_string v2) =
      some (op, v1, v2) := by
  have h1 : extractString (op ++ ([32] ++ to_string v1 ++ ([32] ++ to_string v2 ++ []))) =
      some (op, [32] ++ to_string v1 ++ ([32] ++ to_string v2 ++ [])) :=
    extractString_token op _ hne hop (by intro c hc; simp at hc; subst hc; rfl)
  have h2 : extractInt ([32] ++ to_string v1 ++ ([32] ++ to_string v2 ++ [])) =
      some (v1, [32] ++ to_string v2 ++ []) :=
    extractInt_to_string v1 hv1 [32] _ (by intro c hc; simp at hc; subst hc; rfl)
      (by intro c hc; simp at hc; subst hc; rfl)
  have h3 : extractInt ([32] ++ to_string v2 ++ []) = some (v2, []) :=
    extractInt_to_string v2 hv2 [32] [] (by intro c hc; simp at hc; subst hc; rfl)
      (by intro c hc; simp at hc)
  have e : op ++ [32] ++ to_string v1 ++ [32] ++ to_string v2 =
      op ++ ([32] ++ to_string v1 ++ ([32] ++ to_string v2 ++ [])) := by simp
  rw [e]
  simp only [extractAssignment, h1, h2, h3]

theorem pending_gt (gs : List (List Nat)) (tl : List RecvEvent) (sf : List Bool) (so : Bool)
    (snt : List (List Nat)) :
    gs.length < pending ⟨gs.map .data ++ tl, sf, so, snt⟩ + 1 := by
  simp [pending]; omega

/-- The run of `handleTCPText` on a greeting that arrives in the segments `gs` and `g`, an
assignment segment that parses and on which `calculate` has a result, and a verdict segment
that reads `OK`. -/
theorem handleTCPText_run (gs : List (List Nat)) (g a vd : List Nat) (rest : List RecvEvent)
    (sf : List Bool) (so : Bool) (snt : List (List Nat)) (operation : List Nat)
    (value1 value2 result : Int)
    (hsend : ∀ b ∈ sf, b = false)
    (hseg : ∀ x ∈ gs ++ [g], x ≠ [] ∧ x.length ≤ 1023 ∧ 0 ∉ x)
    (hopen : find gs.flatten (bytes "\n\n") = none)
    (hblank : find (gs.flatten ++ g) (bytes "\n\n") ≠ none)
    (hcap : find (gs.flatten ++ g) (bytes "TEXT TCP 1.1\n") ≠ none)
    (ha : a ≠ [] ∧ a.length ≤ 1023) (hvd : vd ≠ [] ∧ vd.length ≤ 1023)
    (hparse : extractAssignment (pop_newline (c_str a)) = some (operation, value1, value2))
    (hcalc : calculate (string_to_operation operation) value1 value2 = some result)
    (hok : pop_newline (c_str vd) = bytes "OK") :
    handleTCPText ⟨gs.map .data ++ .data g :: .data a :: .data vd :: rest, sf, so, snt⟩ =
      (.returned true,
        ⟨rest, sf.tail.tail, so,
          snt ++ [bytes "TEXT TCP 1.1 OK\n", to_string result ++ bytes "\n"]⟩) := by
  have hg := recvGreeting_segments gs
    (pending ⟨gs.map .data ++ .data g :: .data a :: .data vd :: rest, sf, so, snt⟩ + 1) [] g
    (.data a :: .data vd :: rest) sf so snt
    (pending_gt gs (.data g :: .data a :: .data vd :: rest) sf so snt) hseg
    (by simpa using hopen) (by simpa using hblank)
  have hgpos : ¬ ((g.length : Int) ≤ 0) := by
    have := List.length_pos.mpr (hseg g (by simp)).1; omega
  have hapos : ¬ ((a.length : Int) ≤ 0) := by
    have := List.length_pos.mpr ha.1; omega
  have hvpos : ¬ ((vd.length : Int) ≤ 0) := by
    have := List.length_pos.mpr hvd.1; omega
  have hs1 : sendsSucceed ⟨.data a :: .data vd :: rest, sf, so, snt⟩ := hsend
  have hs2 : sendsSucceed ⟨.data vd :: rest, sf.tail, so,
      snt ++ [bytes "TEXT TCP 1.1 OK\n"]⟩ := fun b hb => hsend b (List.mem_of_mem_tail hb)
  simp only [handleTCPText, hg, List.nil_append, hgpos, if_false, hcap]
  rw [send_of_sendsSucceed _ _ hs1]
  simp only [Bool.not_true, Bool.false_eq_true, if_false, recv, ha.2, if_true, bytes_read,
    received, hapos, hparse, hcalc]
  rw [send_of_sendsSucceed _ _ hs2]
  simp [recv, hvd.2, bytes_read, received, hvpos, hok]

theorem to_string_chars (v : Int) (hv : isInt32 v) :
    (∀ c ∈ to_string v, c ≠ 0) ∧ (to_string v).length ≤ 11 := by
  obtain ⟨ds, h1, -, h3, -, h5⟩ := to_string_spec v
  have hlen := h5 hv
  rw [h1]
  constructor
  · intro c hc
    simp only [List.mem_append] at hc
    rcases hc with hc | hc
    · by_cases hneg : v < 0
      · simp [hneg] at hc; omega
      · simp [hneg] at hc
    · have := h3 c hc
      simp [isdigit] at this; omega
  · by_cases hneg : v < 0 <;> simp [hneg] <;> omega

theorem pop_newline_append (x : List Nat) : pop_newline (x ++ [10]) = x := by
  simp [pop_newline]

/-- A name that reads `add`, `sub`, `mul` or `div` after lowercasing has three letters. -/
theorem operation_name_chars (op : List Nat)
    (hop : op.map tolower ∈ [bytes "add", bytes "sub", bytes "mul", bytes "div"]) :
    op.length = 3 ∧ ∀ c ∈ op, isspace c = false ∧ c ≠ 0 := by
  have hletters : ∀ name ∈ [bytes "add", bytes "sub", bytes "mul", bytes "div"],
      name.length = 3 ∧ ∀ c ∈ name, 97 ≤ c := by decide
  obtain ⟨hl, hc⟩ := hletters _ hop
  rw [List.length_map] at hl
  refine ⟨hl, ?_⟩
  intro c hcm
  have h97 := hc (tolower c) (List.mem_map_of_mem tolower hcm)
  have h65 : 65 ≤ c := by
    unfold tolower at h97; split at h97 <;> omega
  constructor
  · simp [isspace]; omega
  · omega

/-- A text/stream session whose greeting arrives in segments holding the blank line and the
line `TEXT TCP 1.1`, whose assignment is `<op> <v1> <v2>\n` with `op` one of the four names
in any letter case and decimal `int32_t` operands on which `calculate` has the result
`result`, and whose verdict is `OK\n`: the routine sends `TEXT TCP 1.1 OK\n`, then the
decimal text of `result` and a newline, and returns success. -/
theorem handleTCPText_accepts (sockfd : Socket) (gs : List (List Nat)) (g op : List Nat)
    (v1 v2 result : Int) (rest : List RecvEvent)
    (hsend : sendsSucceed sockfd)
    (hseg : ∀ x ∈ gs ++ [g], x ≠ [] ∧ x.length ≤ 1023 ∧ 0 ∉ x)
    (hopen : find gs.flatten (bytes "\n\n") = none)
    (hblank : find (gs.flatten ++ g) (bytes "\n\n") ≠ none)
    (hcap : find (gs.flatten ++ g) (bytes "TEXT TCP 1.1\n") ≠ none)
    (hop : op.map tolower ∈ [bytes "add", bytes "sub", bytes "mul", bytes "div"])
    (hv1 : isInt32 v1) (hv2 : isInt32 v2)
    (hin : sockfd.incoming = gs.map .data ++
      .data g ::
      .data (op ++ bytes " " ++ to_string v1 ++ bytes " " ++ to_string v2 ++ bytes "\n") ::
      .data (bytes "OK\n") :: rest)
    (hcalc : calculate (string_to_operation op) v1 v2 = some result) :
    handleTCPText sockfd =
      (.returned true,
        { incoming := rest
          sendFails := sockfd.sendFails.tail.tail
          setsockoptFails := sockfd.setsockoptFails
          sent := sockfd.sent ++
            [bytes "TEXT TCP 1.1 OK\n", to_string result ++ bytes "\n"] }) := by
  obtain ⟨inc, sf, so, snt⟩ := sockfd
  simp only at hin
  subst hin
  obtain ⟨hl, hc⟩ := operation_name_chars op hop
  obtain ⟨hz1, hl1⟩ := to_string_chars v1 hv1
  obtain ⟨hz2, hl2⟩ := to_string_chars v2 hv2
  have hsp : bytes " " = [32] := rfl
  have hnl : bytes "\n" = [10] := rfl
  have hne : op ≠ [] := by
    intro h; rw [h] at hl; simp at hl
  have hcstr : c_str (op ++ [32] ++ to_string v1 ++ [32] ++ to_string v2 ++ [10]) =
      op ++ [32] ++ to_string v1 ++ [32] ++ to_string v2 ++ [10] := by
    apply c_str_of_no_nul
    intro c hcm
    simp only [List.mem_append, List.mem_singleton] at hcm
    rcases hcm with ((((h | h) | h) | h) | h) | h
    · exact (hc c h).2
    · omega
    · exact hz1 c h
    · omega
    · exact hz2 c h
    · omega
  rw [hsp, hnl]
  refine handleTCPText_run gs g _ (bytes "OK\n") rest sf so snt op v1 v2 result hsend hseg
    hopen hblank hcap ⟨by simp, by simp; omega⟩ ⟨by decide, by decide⟩ ?_ hcalc (by decide)
  rw [hcstr, pop_newline_append]
  exact extractAssignment_text op v1 v2 hne (fun c h => (hc c h).1) hv1 hv2

/-- A receive call on a stream socket that returns data leaves less to deliver. -/
theorem pending_recv_lt (sockfd : Socket) (len : Nat) (hlen : 0 < len)
    (h : bytes_read (recv sockfd len).1 > 0) : pending (recv sockfd len).2 < pending sockfd := by
  obtain ⟨inc, sf, so, snt⟩ := sockfd
  cases inc with
  | nil => simp [recv, bytes_read] at h
  | cons e rest =>
    cases e with
    | error => simp [recv, bytes_read] at h
    | data d =>
      by_cases hd : d.length ≤ len
      · simp [recv, hd, pending, RecvEvent.size]
        omega
      · simp [recv, hd, pending, RecvEvent.size]
        omega

/-- The iteration bound the stream routines give the greeting loop is never used up. -/
theorem recvGreeting_ne_none (fuel : Nat) :
    ∀ (sockfd : Socket) (acc : List Nat), pending sockfd < fuel →
      recvGreeting fuel sockfd acc ≠ none := by
  induction fuel with
  | zero => intro sockfd acc h; omega
  | succ fuel ih =>
    intro sockfd acc h
    unfold recvGreeting
    by_cases hpos : bytes_read (recv sockfd 1023).1 > 0
    · have hlt := pending_recv_lt sockfd 1023 (by decide) hpos
      by_cases hf : find (acc ++ c_str (received (recv sockfd 1023).1)) (bytes "\n\n") ≠ none
      · simp [hpos, hf]
      · simp only [hpos, if_true, hf, if_false]
        exact ih _ _ (by omega)
    · simp [hpos]

/-- The routine `handleTCPText` always returns or stops at a division without result: its
greeting loop ends on every behaviour of the peer. -/
theorem handleTCPText_finishes (sockfd : Socket) : (handleTCPText sockfd).1 ≠ .unfinished := by
  unfold handleTCPText
  have h := recvGreeting_ne_none (pending sockfd + 1) sockfd [] (by omega)
  cases hg : recvGreeting (pending sockfd + 1) sockfd [] with
  | none => exact absurd hg h
  | some x =>
    obtain ⟨n, resp, s1⟩ := x
    simp only
    repeat' split
    all_goals simp

/-- The routine `handleTCPBinary` always returns or stops at a division without result. -/
theorem handleTCPBinary_finishes (order : ByteOrder) (sockfd : Socket) :
    (handleTCPBinary order sockfd).1 ≠ .unfinished := by
  unfold handleTCPBinary
  have h := recvGreeting_ne_none (pending sockfd + 1) sockfd [] (by omega)
  cases hg : recvGreeting (pending sockfd + 1) sockfd [] with
  | none => exact absurd hg h
  | some x =>
    obtain ⟨n, resp, s1⟩ := x
    simp only
    repeat' split
    all_goals simp

/-- The two sample sessions of the specification: `add 5 3` is answered with `8`, and
`div 10 0` with `0`, through `handleTCPText_accepts`. -/
theorem handleTCPText_samples :
    handleTCPText
        ⟨[.data (bytes "TEXT TCP 1.1\n\n"), .data (bytes "add 5 3\n"), .data (bytes "OK\n")],
          [], false, []⟩ =
      (.returned true, ⟨[], [], false, [bytes "TEXT TCP 1.1 OK\n", bytes "8\n"]⟩) ∧
    handleTCPText
        ⟨[.data (bytes "BINARY TCP 1.1\n"), .data (bytes "TEXT TCP 1.1\n\n"),
          .data (bytes "DIV 10 0\n"), .data (bytes "OK\n")], [], false, []⟩ =
      (.returned true, ⟨[], [], false, [bytes "TEXT TCP 1.1 OK\n", bytes "0\n"]⟩) :=
  ⟨handleTCPText_accepts ⟨_, [], false, []⟩ [] (bytes "TEXT TCP 1.1\n\n") (bytes "add") 5 3 8
      []
      (by decide) (by decide) (by decide) (by decide) (by decide) (by decide) (by decide)
      (by decide) rfl (by decide),
   handleTCPText_accepts ⟨_, [], false, []⟩ [bytes "BINARY TCP 1.1\n"]
      (bytes "TEXT TCP 1.1\n\n") (bytes "DIV") 10 0 0 []
      (by decide) (by decide) (by decide) (by decide) (by decide) (by decide) (by decide)
      (by decide) rfl (by decide)⟩

/-- C7 (failing input): a text/stream session with a greeting holding `TEXT TCP 1.1\n` and the
blank line, the assignment `div -2147483648 -1\n` and the verdict `OK\n`: the operands are
decimal `int32_t` values and parse, the acceptance is sent, and the routine then evaluates a
division without a defined result: no result is sent and the routine does not return
success. -/
theorem handleTCPText_div_min_by_minus_one :
    extractAssignment (bytes "div -2147483648 -1") =
      some (bytes "div", -2147483648, -1) ∧
    handleTCPText
        ⟨[.data (bytes "TEXT TCP 1.1\n\n"), .data (bytes "div -2147483648 -1\n"),
          .data (bytes "OK\n")], [], false, []⟩ =
      (.undefined, ⟨[.data (bytes "OK\n")], [], false, [bytes "TEXT TCP 1.1 OK\n"]⟩) := by
  decide

/-- C8 (failing input): a binary/datagram session whose first datagram is a 26-byte
assignment record with type 1, version 1.1, operation `div` and operands `INT32_MIN`, -1, and
whose second datagram is a control message with type 22 and message code 1: on either byte
order the routine sends the greeting, then evaluates a division without a defined result: no
result record is sent and the routine does not return success. -/
theorem handleUDPBinary_div_min_by_minus_one :
    handleUDPBinary .little
        ⟨[.data (be16 1 ++ be16 1 ++ be16 1 ++ be32 7 ++ be32 ARITH_DIV ++
            be32 (toUInt32 INT32_MIN) ++ be32 (toUInt32 (-1)) ++ be32 0),
          .data (be16 22 ++ be16 1 ++ be16 17 ++ be16 1 ++ be16 1)], [], false, []⟩ =
      (.undefined,
        ⟨[.data (be16 22 ++ be16 1 ++ be16 17 ++ be16 1 ++ be16 1)], [], false,
          [be16 22 ++ be16 0 ++ be16 17 ++ be16 1 ++ be16 1]⟩) ∧
    handleUDPBinary .big
        ⟨[.data (be16 1 ++ be16 1 ++ be16 1 ++ be32 7 ++ be32 ARITH_DIV ++
            be32 (toUInt32 INT32_MIN) ++ be32 (toUInt32 (-1)) ++ be32 0),
          .data (be16 22 ++ be16 1 ++ be16 17 ++ be16 1 ++ be16 1)], [], false, []⟩ =
      (.undefined,
        ⟨[.data (be16 22 ++ be16 1 ++ be16 17 ++ be16 1 ++ be16 1)], [], false,
          [be16 22 ++ be16 0 ++ be16 17 ++ be16 1 ++ be16 1]⟩) := by
  decide

/-! ## Theorems: unknown operation codes -/

/-- C19: for every operation code other than 1, 2, 3 and 4, `calculate` returns 0 whatever the
operands; 0 and 99 are such codes. -/
theorem calculate_unknown_operation (operation : Nat) (a b : Int)
    (hop : operation ∉ [ARITH_ADD, ARITH_SUB, ARITH_MUL, ARITH_DIV]) :
    calculate operation a b = some 0 ∧
    calculate 0 a b = some 0 ∧ calculate 99 a b = some 0 := by
  simp only [List.mem_cons, List.mem_singleton, List.not_mem_nil, or_false, not_or] at hop
  obtain ⟨h1, h2, h3, h4⟩ := hop
  refine ⟨?_, ?_, ?_⟩
  · simp [calculate, h1, h2, h3, h4]
  · simp [calculate, ARITH_ADD, ARITH_SUB, ARITH_MUL, ARITH_DIV]
  · simp [calculate, ARITH_ADD, ARITH_SUB, ARITH_MUL, ARITH_DIV]

theorem calculate_unknown_operation_witness :
    calculate 4294967295 (-2147483648) (-1) = some 0 ∧
    calculate 0 (-2147483648) (-1) = some 0 ∧ calculate 99 (-2147483648) (-1) = some 0 :=
  calculate_unknown_operation 4294967295 (-2147483648) (-1) (by decide)

/-- C20: `operation_to_string` returns `unknown` for every code other than 1, 2, 3 and 4
(such as 99), and `add`, `sub`, `mul`, `div` for the codes 1, 2, 3, 4. -/
theorem operation_to_string_spec (operation : Nat)
    (hop : operation ∉ [ARITH_ADD, ARITH_SUB, ARITH_MUL, ARITH_DIV]) :
    operation_to_string operation = bytes "unknown" ∧
    operation_to_string 99 = bytes "unknown" ∧
    operation_to_string 1 = bytes "add" ∧
    operation_to_string 2 = bytes "sub" ∧
    operation_to_string 3 = bytes "mul" ∧
    operation_to_string 4 = bytes "div" := by
  simp only [List.mem_cons, List.mem_singleton, List.not_mem_nil, or_false, not_or] at hop
  obtain ⟨h1, h2, h3, h4⟩ := hop
  refine ⟨?_, by decide, by decide, by decide, by decide, by decide⟩
  simp [operation_to_string, h1, h2, h3, h4]

theorem operation_to_string_spec_witness :
    operation_to_string 0 = bytes "unknown" ∧
    operation_to_string 99 = bytes "unknown" ∧
    operation_to_string 1 = bytes "add" ∧
    operation_to_string 2 = bytes "sub" ∧
    operation_to_string 3 = bytes "mul" ∧
    operation_to_string 4 = bytes "div" :=
  operation_to_string_spec 0 (by decide)

/-! ## Theorems: what the socket operations leave unchanged -/

/-- A receive call on a stream socket changes nothing but the queue of incoming data. -/
theorem recv_frame (sockfd : Socket) (len : Nat) :
    (recv sockfd len).2.sent = sockfd.sent ∧
    (recv sockfd len).2.sendFails = sockfd.sendFails ∧
    (recv sockfd len).2.setsockoptFails = sockfd.setsockoptFails := by
  unfold recv
  split
  · simp
  · simp
  · split <;> simp

/-- A receive call on a datagram socket changes nothing but the queue of incoming data. -/
theorem recvfrom_frame (sockfd : Socket) (len : Nat) :
    (recvfrom sockfd len).2.sent = sockfd.sent ∧
    (recvfrom sockfd len).2.sendFails = sockfd.sendFails ∧
    (recvfrom sockfd len).2.setsockoptFails = sockfd.setsockoptFails := by
  unfold recvfrom
  split <;> simp

/-- A send call leaves the incoming data alone and transmits at most its message. -/
theorem send_frame (sockfd : Socket) (msg : List Nat) :
    (send sockfd msg).2.incoming = sockfd.incoming ∧
    (send sockfd msg).2.setsockoptFails = sockfd.setsockoptFails ∧
    ((send sockfd msg).1 = true → (send sockfd msg).2.sent = sockfd.sent ++ [msg]) ∧
    ((send sockfd msg).1 = false → (send sockfd msg).2.sent = sockfd.sent) := by
  unfold send
  split <;> simp

/-- What a stream receive call returns and leaves queued depends on the incoming data only. -/
theorem recv_congr (s t : Socket) (len : Nat) (h : s.incoming = t.incoming) :
    (recv s len).1 = (recv t len).1 ∧ (recv s len).2.incoming = (recv t len).2.incoming := by
  unfold recv
  rw [h]
  split
  · simp [h]
  · simp
  · split <;> simp

/-- What a datagram receive call returns and leaves queued depends on the incoming data
only. -/
theorem recvfrom_congr (s t : Socket) (len : Nat) (h : s.incoming = t.incoming) :
    (recvfrom s len).1 = (recvfrom t len).1 ∧
    (recvfrom s len).2.incoming = (recvfrom t len).2.incoming := by
  unfold recvfrom
  rw [h]
  split <;> simp [h]

/-- The greeting loop transmits nothing. -/
theorem recvGreeting_frame (fuel : Nat) :
    ∀ (sockfd : Socket) (acc : List Nat) (n : Int) (resp : List Nat) (s1 : Socket),
      recvGreeting fuel sockfd acc = some (n, resp, s1) →
      s1.sent = sockfd.sent ∧ s1.sendFails = sockfd.sendFails ∧
      s1.setsockoptFails = sockfd.setsockoptFails := by
  induction fuel with
  | zero => intro sockfd acc n resp s1 h; simp [recvGreeting] at h
  | succ fuel ih =>
    intro sockfd acc n resp s1 h
    have hf := recv_frame sockfd 1023
    unfold recvGreeting at h
    simp only at h
    split at h
    · split at h
      · simp only [Option.some.injEq, Prod.mk.injEq] at h
        obtain ⟨-, -, rfl⟩ := h
        exact hf
      · have := ih _ _ _ _ _ h
        exact ⟨this.1.trans hf.1, this.2.1.trans hf.2.1, this.2.2.trans hf.2.2⟩
    · simp only [Option.some.injEq, Prod.mk.injEq] at h
      obtain ⟨-, -, rfl⟩ := h
      exact hf

/-- The greeting loop of the stream routines always ends with a result. -/
theorem recvGreeting_total (sockfd : Socket) :
    ∃ n resp s1, recvGreeting (pending sockfd + 1) sockfd [] = some (n, resp, s1) := by
  have h := recvGreeting_ne_none (pending sockfd + 1) sockfd [] (by omega)
  cases hg : recvGreeting (pending sockfd + 1) sockfd [] with
  | none => exact absurd hg h
  | some x => exact ⟨x.1, x.2.1, x.2.2, rfl⟩

/-! ## Theorems: the greeting of the stream routines -/

theorem infix_across_newline (cap A cs : List Nat) (hcap : 10 ∉ cap) (hA : 10 ∉ A) :
    (cap ++ [10]) <:+: (A ++ 10 :: cs) ↔ cap <:+ A ∨ (cap ++ [10]) <:+: cs := by
  constructor
  · rintro ⟨X, Y, h⟩
    have h' : (X ++ cap) ++ (10 :: Y) = A ++ (10 :: cs) := by simpa using h
    rcases List.append_eq_append_iff.mp h' with ⟨a', h1, h2⟩ | ⟨c', h1, h2⟩
    · cases a' with
      | nil => left; exact ⟨X, by simpa using h1.symm⟩
      | cons x a'' =>
        simp only [List.cons_append, List.cons.injEq] at h2
        exfalso; apply hA; rw [h1, ← h2.1]; simp
    · cases c' with
      | nil => left; exact ⟨X, by simpa using h1⟩
      | cons x c'' =>
        simp only [List.cons_append, List.cons.injEq] at h2
        obtain ⟨hx, hcs⟩ := h2
        subst hx
        have h3 : X ++ cap = (A ++ [10]) ++ c'' := by simpa using h1
        rcases List.append_eq_append_iff.mp h3 with ⟨a', e1, e2⟩ | ⟨d', e1, e2⟩
        · -- A ++ [10] = X ++ a', cap = a' ++ c''
          rcases List.eq_nil_or_concat a' with rfl | ⟨b, z, rfl⟩
          · right
            simp only [List.nil_append] at e2
            exact ⟨[], Y, by simp [hcs, e2]⟩
          · exfalso
            have : z = 10 := by
              have := congrArg List.getLast? e1
              simpa using this.symm
            apply hcap; rw [e2, this]; simp
        · -- X = A ++ [10] ++ d', c'' = d' ++ cap
          right
          exact ⟨d', Y, by simp [hcs, e2]⟩
  · rintro (⟨X, h⟩ | ⟨X, Y, h⟩)
    · exact ⟨X, cs, by simp [← h]⟩
    · exact ⟨A ++ 10 :: X, Y, by simp [← h]⟩

theorem linesAux_suffix_iff (cap : List Nat) (hcap : 10 ∉ cap) (s : List Nat) :
    ∀ cur : List Nat, 10 ∉ cur →
      ((∃ l ∈ linesAux cur s, cap <:+ l) ↔ (cap ++ [10]) <:+: (cur.reverse ++ s)) := by
  induction s with
  | nil =>
    intro cur hcur
    simp only [linesAux, List.not_mem_nil, false_and, exists_false, List.append_nil, false_iff]
    intro h
    exact hcur (List.mem_reverse.mp (h.subset (by simp)))
  | cons c cs ih =>
    intro cur hcur
    by_cases hc : c = 10
    · subst hc
      have h0 := ih [] (by simp)
      simp only [List.reverse_nil, List.nil_append] at h0
      rw [infix_across_newline cap cur.reverse cs hcap (by simpa using hcur), ← h0]
      simp [linesAux]
    · have h1 := ih (c :: cur) (by simp [hcur]; exact fun h => hc h.symm)
      simp only [List.reverse_cons, List.append_assoc, List.singleton_append] at h1
      simp [linesAux, hc, h1]

/-- A text contains `cap` followed by a newline exactly when one of its newline-terminated
lines ends with `cap` (for `cap` without a newline). -/
theorem infix_newline_iff_line_suffix (cap s : List Nat) (hcap : 10 ∉ cap) :
    (cap ++ [10]) <:+: s ↔ ∃ l ∈ linesOf s, cap <:+ l := by
  have h := linesAux_suffix_iff cap hcap s [] (by simp)
  simpa [linesOf] using h.symm

/-- The routine `handleTCPText` returns failure at once, with the socket as the greeting loop
left it, when the greeting lacks `TEXT TCP 1.1\n`. -/
theorem handleTCPText_mismatch (s : Socket) (n : Int) (resp : List Nat) (s1 : Socket)
    (hG : recvGreeting (pending s + 1) s [] = some (n, resp, s1))
    (hcap : find resp (bytes "TEXT TCP 1.1\n") = none) :
    handleTCPText s = (.returned false, s1) := by
  unfold handleTCPText
  rw [hG]
  simp only [hcap, if_true]
  split <;> rfl

/-- The routine `handleTCPBinary` returns failure at once, with the socket as the greeting
loop left it, when the greeting lacks `BINARY TCP 1.1\n`. -/
theorem handleTCPBinary_mismatch (order : ByteOrder) (s : Socket) (n : Int) (resp : List Nat)
    (s1 : Socket) (hG : recvGreeting (pending s + 1) s [] = some (n, resp, s1))
    (hcap : find resp (bytes "BINARY TCP 1.1\n") = none) :
    handleTCPBinary order s = (.returned false, s1) := by
  unfold handleTCPBinary
  rw [hG]
  simp only [hcap, if_true]
  split <;> rfl

/-- C13 (counterexample): the greeting `XBINARY TCP 1.1\n\n` ends with a blank line and has
no line `BINARY TCP 1.1`, yet `handleTCPBinary` sends its acceptance and, served an assignment
and an accepting verdict, returns success. -/
theorem handleTCPBinary_accepts_longer_line :
    linesOf (bytes "XBINARY TCP 1.1\n\n") = [bytes "XBINARY TCP 1.1", bytes ""] ∧
    bytes "BINARY TCP 1.1" ∉ linesOf (bytes "XBINARY TCP 1.1\n\n") ∧
    handleTCPBinary .little
        ⟨[.data (bytes "XBINARY TCP 1.1\n\n"),
          .data (be16 1 ++ be16 1 ++ be16 1 ++ be32 7 ++ be32 ARITH_ADD ++ be32 5 ++ be32 3 ++
            be32 0),
          .data (be16 22 ++ be16 1 ++ be16 17 ++ be16 1 ++ be16 1)], [], false, []⟩ =
      (.returned true,
        ⟨[], [], false,
          [bytes "BINARY TCP 1.1 OK\n",
           be16 1 ++ be16 1 ++ be16 1 ++ be32 7 ++ be32 ARITH_ADD ++ be32 5 ++ be32 3 ++
            be32 8]⟩) := by
  decide

/-- C13 (amended): a stream session whose accumulated greeting does not contain the
capability string followed by a newline (`TEXT TCP 1.1\n`, resp. `BINARY TCP 1.1\n`) returns
failure and has sent nothing. -/
theorem greeting_mismatch_fails (order : ByteOrder) (s : Socket) (n : Int) (resp : List Nat)
    (s1 : Socket) (hG : recvGreeting (pending s + 1) s [] = some (n, resp, s1)) :
    (¬ bytes "TEXT TCP 1.1\n" <:+: resp →
      (handleTCPText s).1 = .returned false ∧ (handleTCPText s).2.sent = s.sent) ∧
    (¬ bytes "BINARY TCP 1.1\n" <:+: resp →
      (handleTCPBinary order s).1 = .returned false ∧
      (handleTCPBinary order s).2.sent = s.sent) := by
  have hf := recvGreeting_frame _ _ _ _ _ _ hG
  constructor
  · intro h
    rw [handleTCPText_mismatch s n resp s1 hG ((find_eq_none_iff _ _).mpr h)]
    exact ⟨rfl, hf.1⟩
  · intro h
    rw [handleTCPBinary_mismatch order s n resp s1 hG ((find_eq_none_iff _ _).mpr h)]
    exact ⟨rfl, hf.1⟩

theorem greeting_mismatch_fails_witness :
    ((handleTCPText ⟨[.data (bytes "TEXT UDP 1.1\n\n"), .data (bytes "add 1 2\n")], [],
        false, []⟩).1 = .returned false ∧
      (handleTCPText ⟨[.data (bytes "TEXT UDP 1.1\n\n"), .data (bytes "add 1 2\n")], [],
        false, []⟩).2.sent = []) ∧
    ((handleTCPBinary .big ⟨[.data (bytes "TEXT UDP 1.1\n\n"), .data (bytes "add 1 2\n")],
        [], false, []⟩).1 = .returned false ∧
      (handleTCPBinary .big ⟨[.data (bytes "TEXT UDP 1.1\n\n"), .data (bytes "add 1 2\n")],
        [], false, []⟩).2.sent = []) :=
  have h := greeting_mismatch_fails .big
    ⟨[.data (bytes "TEXT UDP 1.1\n\n"), .data (bytes "add 1 2\n")], [], false, []⟩
    14 (bytes "TEXT UDP 1.1\n\n") ⟨[.data (bytes "add 1 2\n")], [], false, []⟩ (by decide)
  ⟨h.1 (by decide), h.2 (by decide)⟩

/-- C14 (counterexample): the greeting `XTEXT TCP 1.1\n\n` has no line `TEXT TCP 1.1`, its
only occurrence of the capability string being inside a longer line, yet `handleTCPText`
sends its acceptance and completes the session. -/
theorem handleTCPText_accepts_longer_line :
    linesOf (bytes "XTEXT TCP 1.1\n\n") = [bytes "XTEXT TCP 1.1", bytes ""] ∧
    bytes "TEXT TCP 1.1" ∉ linesOf (bytes "XTEXT TCP 1.1\n\n") ∧
    handleTCPText
        ⟨[.data (bytes "XTEXT TCP 1.1\n\n"), .data (bytes "add 5 3\n"),
          .data (bytes "OK\n")], [], false, []⟩ =
      (.returned true, ⟨[], [], false, [bytes "TEXT TCP 1.1 OK\n", bytes "8\n"]⟩) := by
  decide

/-- C14 (amended): a stream session sends something only if some newline-terminated line of
the accumulated greeting ends with the capability string (`TEXT TCP 1.1` for
`handleTCPText`, `BINARY TCP 1.1` for `handleTCPBinary`). -/
theorem acceptance_only_if_capability (order : ByteOrder) (s : Socket) (n : Int)
    (resp : List Nat) (s1 : Socket)
    (hG : recvGreeting (pending s + 1) s [] = some (n, resp, s1)) :
    ((handleTCPText s).2.sent ≠ s.sent →
      ∃ l ∈ linesOf resp, bytes "TEXT TCP 1.1" <:+ l) ∧
    ((handleTCPBinary order s).2.sent ≠ s.sent →
      ∃ l ∈ linesOf resp, bytes "BINARY TCP 1.1" <:+ l) := by
  have hf := recvGreeting_frame _ _ _ _ _ _ hG
  constructor
  · intro h
    rw [← infix_newline_iff_line_suffix _ _ (by decide)]
    by_contra hc
    apply h
    have hc' : find resp (bytes "TEXT TCP 1.1\n") = none := (find_eq_none_iff _ _).mpr hc
    rw [handleTCPText_mismatch s n resp s1 hG hc']
    exact hf.1
  · intro h
    rw [← infix_newline_iff_line_suffix _ _ (by decide)]
    by_contra hc
    apply h
    have hc' : find resp (bytes "BINARY TCP 1.1\n") = none := (find_eq_none_iff _ _).mpr hc
    rw [handleTCPBinary_mismatch order s n resp s1 hG hc']
    exact hf.1

theorem acceptance_only_if_capability_witness :
    (∃ l ∈ linesOf (bytes "UDP\nXTEXT TCP 1.1\n\n"), bytes "TEXT TCP 1.1" <:+ l) ∧
    (∃ l ∈ linesOf (bytes "BINARY TCP 1.1\n\n"), bytes "BINARY TCP 1.1" <:+ l) :=
  ⟨(acceptance_only_if_capability .little
      ⟨[.data (bytes "UDP\nXTEXT TCP 1.1\n\n")], [], false, []⟩ 19
      (bytes "UDP\nXTEXT TCP 1.1\n\n") ⟨[], [], false, []⟩ (by decide)).1 (by decide),
   (acceptance_only_if_capability .little
      ⟨[.data (bytes "BINARY TCP 1.1\n\n")], [], false, []⟩ 16
      (bytes "BINARY TCP 1.1\n\n") ⟨[], [], false, []⟩ (by decide)).2 (by decide)⟩

/-! ## Theorems: sizes and field checks of the binary routines -/

theorem sizeof_calcProtocol_eq : sizeof_calcProtocol = 26 := by decide
theorem sizeof_calcMessage_eq : sizeof_calcMessage = 10 := by decide

/-- In `handleTCPBinary`, a receive call at the assignment state that does not return exactly
the size of the record makes the routine return failure, with at most the acceptance sent. -/
theorem handleTCPBinary_wrong_record_size (order : ByteOrder) (s : Socket) (n : Int)
    (resp : List Nat) (s1 : Socket)
    (hG : recvGreeting (pending s + 1) s [] = some (n, resp, s1))
    (hsize : bytes_read (recv s1 sizeof_calcProtocol).1 ≠ (sizeof_calcProtocol : Int)) :
    (handleTCPBinary order s).1 = .returned false ∧
    ((handleTCPBinary order s).2.sent = s.sent ∨
      (handleTCPBinary order s).2.sent = s.sent ++ [bytes "BINARY TCP 1.1 OK\n"]) := by
  have hf := recvGreeting_frame _ _ _ _ _ _ hG
  have hsf := send_frame s1 (bytes "BINARY TCP 1.1 OK\n")
  have hrc := recv_congr (send s1 (bytes "BINARY TCP 1.1 OK\n")).2 s1 sizeof_calcProtocol hsf.1
  have hrf := recv_frame (send s1 (bytes "BINARY TCP 1.1 OK\n")).2 sizeof_calcProtocol
  rw [← hrc.1] at hsize
  unfold handleTCPBinary
  rw [hG]
  simp only [hsize, ne_eq, not_false_eq_true, if_true]
  split
  · exact ⟨rfl, Or.inl hf.1⟩
  · split
    · exact ⟨rfl, Or.inl hf.1⟩
    · split
      · rename_i hs
        simp only [Bool.not_eq_true', ] at hs
        exact ⟨rfl, Or.inl ((hsf.2.2.2 (by simpa using hs)).trans hf.1)⟩
      · rename_i hs
        refine ⟨rfl, Or.inr ?_⟩
        rw [hrf.1, hsf.2.2.1 (by simpa using hs), hf.1]

/-- What a success of `handleTCPBinary` implies about the greeting, the two receive calls that
follow it and the bytes they return. -/
theorem handleTCPBinary_success (order : ByteOrder) (s : Socket) (n : Int)
    (resp : List Nat) (s1 : Socket)
    (hG : recvGreeting (pending s + 1) s [] = some (n, resp, s1))
    (h : (handleTCPBinary order s).1 = .returned true) :
    0 < n ∧ find resp (bytes "BINARY TCP 1.1\n") ≠ none ∧
    bytes_read (recv s1 sizeof_calcProtocol).1 = (sizeof_calcProtocol : Int) ∧
    (decode_calcProtocol order (received (recv s1 sizeof_calcProtocol).1)).type =
      MSG_TYPE_CALC_PROTOCOL ∧
    (decode_calcProtocol order (received (recv s1 sizeof_calcProtocol).1)).major_version =
      MAJOR_VERSION ∧
    (decode_calcProtocol order (received (recv s1 sizeof_calcProtocol).1)).minor_version =
      MINOR_VERSION ∧
    bytes_read (recv (recv s1 sizeof_calcProtocol).2 sizeof_calcMessage).1 =
      (sizeof_calcMessage : Int) ∧
    verdict (decode_calcMessage order
      (received (recv (recv s1 sizeof_calcProtocol).2 sizeof_calcMessage).1)) = true := by
  have hsf := send_frame s1 (bytes "BINARY TCP 1.1 OK\n")
  have hrc := recv_congr (send s1 (bytes "BINARY TCP 1.1 OK\n")).2 s1 sizeof_calcProtocol hsf.1
  unfold handleTCPBinary at h
  rw [hG] at h
  simp only [ntoh_ofBytes_calcProtocol] at h
  rw [hrc.1] at h
  split at h
  · simp at h
  rename_i hn
  split at h
  · simp at h
  rename_i hcap
  split at h
  · simp at h
  split at h
  · simp at h
  rename_i hsz
  split at h
  · simp at h
  rename_i hchk
  split at h
  · simp at h
  rename_i result hcalc
  have hsf2 := fun msg => send_frame (recv (send s1 (bytes "BINARY TCP 1.1 OK\n")).2
    sizeof_calcProtocol).2 msg
  split at h
  · simp at h
  split at h
  · simp at h
  rename_i hvs
  simp only [Exit.returned.injEq] at h
  have hrc2 := fun msg => recv_congr (send (recv (send s1 (bytes "BINARY TCP 1.1 OK\n")).2
    sizeof_calcProtocol).2 msg).2 (recv s1 sizeof_calcProtocol).2 sizeof_calcMessage
    (((hsf2 msg).1).trans hrc.2)
  simp only [hrc2] at hvs h
  simp only [not_or, not_not, ne_eq] at hchk hsz hvs
  exact ⟨by omega, hcap, hsz, hchk.1, hchk.2.1, hchk.2.2, hvs, h⟩

/-- In `handleUDPBinary`, a first datagram whose length is not the size of the record (or no
datagram at all) makes the routine return failure, with at most the greeting sent. -/
theorem handleUDPBinary_wrong_record_size (order : ByteOrder) (s : Socket)
    (hsize : bytes_read (recvfrom s 1024).1 ≠ (sizeof_calcProtocol : Int)) :
    (handleUDPBinary order s).1 = .returned false ∧
    ((handleUDPBinary order s).2.sent = s.sent ∨
      (handleUDPBinary order s).2.sent = s.sent ++ [(init_msg order).toBytes order]) := by
  have hsf := send_frame s ((init_msg order).toBytes order)
  have hrc := recvfrom_congr (send s ((init_msg order).toBytes order)).2 s 1024 hsf.1
  have hrf := recvfrom_frame (send s ((init_msg order).toBytes order)).2 1024
  rw [← hrc.1] at hsize
  unfold handleUDPBinary
  simp only [hsize, ne_eq, not_false_eq_true, if_true]
  split
  · rename_i hs
    exact ⟨rfl, Or.inl (hsf.2.2.2 (by simpa using hs))⟩
  · rename_i hs
    have hsent := hsf.2.2.1 (by simpa using hs)
    split
    · exact ⟨rfl, Or.inr hsent⟩
    · split
      · exact ⟨rfl, Or.inr (hrf.1.trans hsent)⟩
      · split
        · exact ⟨rfl, Or.inr (hrf.1.trans hsent)⟩
        · exact ⟨rfl, Or.inr (hrf.1.trans hsent)⟩

/-- What a success of `handleUDPBinary` implies about the two datagrams it received. -/
theorem handleUDPBinary_success (order : ByteOrder) (s : Socket)
    (h : (handleUDPBinary order s).1 = .returned true) :
    bytes_read (recvfrom s 1024).1 = (sizeof_calcProtocol : Int) ∧
    (decode_calcProtocol order (received (recvfrom s 1024).1)).type =
      MSG_TYPE_CALC_PROTOCOL ∧
    (decode_calcProtocol order (received (recvfrom s 1024).1)).major_version =
      MAJOR_VERSION ∧
    (decode_calcProtocol order (received (recvfrom s 1024).1)).minor_version =
      MINOR_VERSION ∧
    bytes_read (recvfrom (recvfrom s 1024).2 1024).1 = (sizeof_calcMessage : Int) ∧
    verdict ((calcMessage.ofBytes order
      (received (recvfrom (recvfrom s 1024).2 1024).1)).ntoh_head order) = true := by
  have hsf := send_frame s ((init_msg order).toBytes order)
  have hrc := recvfrom_congr (send s ((init_msg order).toBytes order)).2 s 1024 hsf.1
  unfold handleUDPBinary at h
  simp only [ntoh_ofBytes_calcProtocol] at h
  rw [hrc.1] at h
  split at h
  · simp at h
  split at h
  · simp at h
  split at h
  · simp at h
  split at h
  · simp at h
  split at h
  · simp at h
  rename_i hsz
  split at h
  · simp at h
  rename_i hchk
  split at h
  · simp at h
  rename_i result hcalc
  have hsf2 := fun msg => send_frame (recvfrom (send s ((init_msg order).toBytes order)).2
    1024).2 msg
  split at h
  · simp at h
  split at h
  · simp at h
  split at h
  · simp at h
  rename_i hvs
  simp only [Exit.returned.injEq] at h
  have hrc2 := fun msg => recvfrom_congr (send (recvfrom
    (send s ((init_msg order).toBytes order)).2 1024).2 msg).2 (recvfrom s 1024).2 1024
    (((hsf2 msg).1).trans hrc.2)
  simp only [hrc2] at hvs h
  simp only [not_or, not_not, ne_eq] at hchk hsz hvs
  exact ⟨hsz, hchk.1, hchk.2.1, hchk.2.2, hvs, h⟩

theorem verdict_eq_true_iff (m : calcMessage) :
    verdict m = true ↔ m.type = MSG_TYPE_CALC_MESSAGE ∧ m.message = 1 := by
  unfold verdict
  by_cases h1 : m.type = MSG_TYPE_CALC_MESSAGE <;> by_cases h2 : m.message = 1 <;>
    simp [h1, h2]

theorem bytes_read_recvfrom_datagram (s : Socket) (d : List Nat) (rest : List RecvEvent)
    (k : Nat) (hk : k < 1024) (h : s.incoming = .data d :: rest) (hd : d.length ≠ k) :
    bytes_read (recvfrom s 1024).1 ≠ (k : Int) := by
  unfold recvfrom
  rw [h]
  simp only [bytes_read, List.length_take]
  omega

theorem recvfrom_datagram (s : Socket) (d : List Nat) (rest : List RecvEvent)
    (h : s.incoming = .data d :: rest) : (recvfrom s 1024).2.incoming = rest := by
  unfold recvfrom
  rw [h]

/-- C11: in a binary session a receive call that returns a length other than the fixed size
expected at that state makes the session fail. At the assignment state (the 26 bytes of the
record) the routine returns failure with nothing but its acceptance or greeting sent, so that
no result has been computed or sent; at the verdict state (10 bytes) the session does not end
in success. For a datagram the received length is that of the datagram. -/
theorem wrong_size_fails (order : ByteOrder) (s u : Socket) (n : Int) (resp : List Nat)
    (s1 : Socket) (hG : recvGreeting (pending s + 1) s [] = some (n, resp, s1)) :
    (bytes_read (recv s1 sizeof_calcProtocol).1 ≠ (sizeof_calcProtocol : Int) →
      (handleTCPBinary order s).1 = .returned false ∧
      ((handleTCPBinary order s).2.sent = s.sent ∨
        (handleTCPBinary order s).2.sent = s.sent ++ [bytes "BINARY TCP 1.1 OK\n"])) ∧
    (bytes_read (recv (recv s1 sizeof_calcProtocol).2 sizeof_calcMessage).1 ≠
        (sizeof_calcMessage : Int) →
      (handleTCPBinary order s).1 ≠ .returned true) ∧
    (∀ d rest, u.incoming = .data d :: rest → d.length ≠ sizeof_calcProtocol →
      (handleUDPBinary order u).1 = .returned false ∧
      ((handleUDPBinary order u).2.sent = u.sent ∨
        (handleUDPBinary order u).2.sent = u.sent ++ [(init_msg order).toBytes order])) ∧
    (∀ d v rest, u.incoming = .data d :: .data v :: rest → v.length ≠ sizeof_calcMessage →
      (handleUDPBinary order u).1 ≠ .returned true) := by
  refine ⟨handleTCPBinary_wrong_record_size order s n resp s1 hG, ?_, ?_, ?_⟩
  · intro hsz hsucc
    exact hsz (handleTCPBinary_success order s n resp s1 hG hsucc).2.2.2.2.2.2.1
  · intro d rest hin hd
    exact handleUDPBinary_wrong_record_size order u
      (bytes_read_recvfrom_datagram u d rest _ (by decide) hin hd)
  · intro d v rest hin hv hsucc
    have h2 := (handleUDPBinary_success order u hsucc).2.2.2.2.1
    have hin2 : (recvfrom u 1024).2.incoming = .data v :: rest := recvfrom_datagram u d _ hin
    exact bytes_read_recvfrom_datagram _ v rest _ (by decide) hin2 hv h2

theorem wrong_size_fails_witness :
    ((handleTCPBinary .little
        ⟨[.data (bytes "BINARY TCP 1.1\n\n"), .data [0, 1, 0, 1, 0, 1, 0, 0, 0, 7]], [],
          false, []⟩).1 = .returned false ∧
      ((handleTCPBinary .little
        ⟨[.data (bytes "BINARY TCP 1.1\n\n"), .data [0, 1, 0, 1, 0, 1, 0, 0, 0, 7]], [],
          false, []⟩).2.sent = [] ∨
       (handleTCPBinary .little
        ⟨[.data (bytes "BINARY TCP 1.1\n\n"), .data [0, 1, 0, 1, 0, 1, 0, 0, 0, 7]], [],
          false, []⟩).2.sent = [] ++ [bytes "BINARY TCP 1.1 OK\n"])) ∧
    (handleTCPBinary .little
        ⟨[.data (bytes "BINARY TCP 1.1\n\n"),
          .data (be16 1 ++ be16 1 ++ be16 1 ++ be32 7 ++ be32 1 ++ be32 5 ++ be32 3 ++ be32 0),
          .data [0, 22, 0, 1]], [], false, []⟩).1 ≠ .returned true ∧
    ((handleUDPBinary .little
        ⟨[.data (be16 1 ++ be16 1 ++ be16 1 ++ be32 7 ++ be32 1 ++ be32 5 ++ be32 3 ++ be32 0 ++
            [0])], [], false, []⟩).1 = .returned false ∧
      ((handleUDPBinary .little
        ⟨[.data (be16 1 ++ be16 1 ++ be16 1 ++ be32 7 ++ be32 1 ++ be32 5 ++ be32 3 ++ be32 0 ++
            [0])], [], false, []⟩).2.sent = [] ∨
       (handleUDPBinary .little
        ⟨[.data (be16 1 ++ be16 1 ++ be16 1 ++ be32 7 ++ be32 1 ++ be32 5 ++ be32 3 ++ be32 0 ++
            [0])], [], false, []⟩).2.sent = [] ++ [(init_msg .little).toBytes .little])) ∧
    (handleUDPBinary .little
        ⟨[.data (be16 1 ++ be16 1 ++ be16 1 ++ be32 7 ++ be32 1 ++ be32 5 ++ be32 3 ++ be32 0),
          .data (be16 22 ++ be16 1 ++ be16 17 ++ be16 1 ++ be16 1 ++ [0])], [], false,
          []⟩).1 ≠ .returned true :=
  ⟨(wrong_size_fails .little
      ⟨[.data (bytes "BINARY TCP 1.1\n\n"), .data [0, 1, 0, 1, 0, 1, 0, 0, 0, 7]], [], false,
        []⟩ ⟨[], [], false, []⟩ 16 (bytes "BINARY TCP 1.1\n\n")
      ⟨[.data [0, 1, 0, 1, 0, 1, 0, 0, 0, 7]], [], false, []⟩ (by decide)).1 (by decide),
   (wrong_size_fails .little
      ⟨[.data (bytes "BINARY TCP 1.1\n\n"),
        .data (be16 1 ++ be16 1 ++ be16 1 ++ be32 7 ++ be32 1 ++ be32 5 ++ be32 3 ++ be32 0),
        .data [0, 22, 0, 1]], [], false, []⟩ ⟨[], [], false, []⟩ 16
      (bytes "BINARY TCP 1.1\n\n")
      ⟨[.data (be16 1 ++ be16 1 ++ be16 1 ++ be32 7 ++ be32 1 ++ be32 5 ++ be32 3 ++ be32 0),
        .data [0, 22, 0, 1]], [], false, []⟩ (by decide)).2.1 (by decide),
   (wrong_size_fails .little ⟨[], [], false, []⟩
      ⟨[.data (be16 1 ++ be16 1 ++ be16 1 ++ be32 7 ++ be32 1 ++ be32 5 ++ be32 3 ++ be32 0 ++
          [0])], [], false, []⟩ 0 [] ⟨[], [], false, []⟩ (by decide)).2.2.1 _ _ rfl
      (by decide),
   (wrong_size_fails .little ⟨[], [], false, []⟩
      ⟨[.data (be16 1 ++ be16 1 ++ be16 1 ++ be32 7 ++ be32 1 ++ be32 5 ++ be32 3 ++ be32 0),
        .data (be16 22 ++ be16 1 ++ be16 17 ++ be16 1 ++ be16 1 ++ [0])], [], false, []⟩
      0 [] ⟨[], [], false, []⟩ (by decide)).2.2.2 _ _ _ rfl (by decide)⟩

/-- C12 (counterexample): a verdict control message with type 22 and message code 1 whose
major and minor version decode to 9 is accepted by both binary routines. -/
theorem verdict_version_not_checked :
    decode_calcMessage .little [0, 22, 0, 1, 0, 17, 0, 9, 0, 9] = ⟨22, 1, 17, 9, 9⟩ ∧
    (handleTCPBinary .little
        ⟨[.data (bytes "BINARY TCP 1.1\n\n"),
          .data (be16 1 ++ be16 1 ++ be16 1 ++ be32 7 ++ be32 1 ++ be32 5 ++ be32 3 ++ be32 0),
          .data [0, 22, 0, 1, 0, 17, 0, 9, 0, 9]], [], false, []⟩).1 = .returned true ∧
    (handleUDPBinary .little
        ⟨[.data (be16 1 ++ be16 1 ++ be16 1 ++ be32 7 ++ be32 1 ++ be32 5 ++ be32 3 ++ be32 0),
          .data [0, 22, 0, 1, 0, 17, 0, 9, 0, 9]], [], false, []⟩).1 = .returned true := by
  decide

/-- C12 (amended): a binary session does not end in success when the assignment record it
decodes has a type other than 1, a major version other than 1 or a minor version other than
1, nor when the verdict control message it decodes has a type other than 22. -/
theorem type_version_mismatch_rejected (order : ByteOrder) (s u : Socket) (n : Int)
    (resp : List Nat) (s1 : Socket)
    (hG : recvGreeting (pending s + 1) s [] = some (n, resp, s1)) :
    ((decode_calcProtocol order (received (recv s1 sizeof_calcProtocol).1)).type ≠
          MSG_TYPE_CALC_PROTOCOL ∨
        (decode_calcProtocol order (received (recv s1 sizeof_calcProtocol).1)).major_version ≠
          MAJOR_VERSION ∨
        (decode_calcProtocol order (received (recv s1 sizeof_calcProtocol).1)).minor_version ≠
          MINOR_VERSION →
      (handleTCPBinary order s).1 ≠ .returned true) ∧
    ((decode_calcMessage order
        (received (recv (recv s1 sizeof_calcProtocol).2 sizeof_calcMessage).1)).type ≠
          MSG_TYPE_CALC_MESSAGE →
      (handleTCPBinary order s).1 ≠ .returned true) ∧
    ((decode_calcProtocol order (received (recvfrom u 1024).1)).type ≠
          MSG_TYPE_CALC_PROTOCOL ∨
        (decode_calcProtocol order (received (recvfrom u 1024).1)).major_version ≠
          MAJOR_VERSION ∨
        (decode_calcProtocol order (received (recvfrom u 1024).1)).minor_version ≠
          MINOR_VERSION →
      (handleUDPBinary order u).1 ≠ .returned true) ∧
    (((calcMessage.ofBytes order
        (received (recvfrom (recvfrom u 1024).2 1024).1)).ntoh_head order).type ≠
          MSG_TYPE_CALC_MESSAGE →
      (handleUDPBinary order u).1 ≠ .returned true) := by
  refine ⟨?_, ?_, ?_, ?_⟩
  · intro h hsucc
    obtain ⟨-, -, -, h1, h2, h3, -, -⟩ := handleTCPBinary_success order s n resp s1 hG hsucc
    rcases h with h | h | h
    · exact h h1
    · exact h h2
    · exact h h3
  · intro h hsucc
    have hv := (handleTCPBinary_success order s n resp s1 hG hsucc).2.2.2.2.2.2.2
    exact h ((verdict_eq_true_iff _).mp hv).1
  · intro h hsucc
    obtain ⟨-, h1, h2, h3, -, -⟩ := handleUDPBinary_success order u hsucc
    rcases h with h | h | h
    · exact h h1
    · exact h h2
    · exact h h3
  · intro h hsucc
    have hv := (handleUDPBinary_success order u hsucc).2.2.2.2.2
    exact h ((verdict_eq_true_iff _).mp hv).1

theorem type_version_mismatch_rejected_witness :
    (handleTCPBinary .little
        ⟨[.data (bytes "BINARY TCP 1.1\n\n"),
          .data (be16 2 ++ be16 1 ++ be16 1 ++ be32 7 ++ be32 1 ++ be32 5 ++ be32 3 ++ be32 0),
          .data (be16 22 ++ be16 1 ++ be16 17 ++ be16 1 ++ be16 1)], [], false, []⟩).1 ≠
      .returned true ∧
    (handleTCPBinary .little
        ⟨[.data (bytes "BINARY TCP 1.1\n\n"),
          .data (be16 1 ++ be16 1 ++ be16 1 ++ be32 7 ++ be32 1 ++ be32 5 ++ be32 3 ++ be32 0),
          .data (be16 23 ++ be16 1 ++ be16 17 ++ be16 1 ++ be16 1)], [], false, []⟩).1 ≠
      .returned true ∧
    (handleUDPBinary .big
        ⟨[.data (be16 1 ++ be16 2 ++ be16 1 ++ be32 7 ++ be32 1 ++ be32 5 ++ be32 3 ++ be32 0),
          .data (be16 22 ++ be16 1 ++ be16 17 ++ be16 1 ++ be16 1)], [], false, []⟩).1 ≠
      .returned true ∧
    (handleUDPBinary .big
        ⟨[.data (be16 1 ++ be16 1 ++ be16 1 ++ be32 7 ++ be32 1 ++ be32 5 ++ be32 3 ++ be32 0),
          .data (be16 1 ++ be16 1 ++ be16 17 ++ be16 1 ++ be16 1)], [], false, []⟩).1 ≠
      .returned true :=
  ⟨(type_version_mismatch_rejected .little
      ⟨[.data (bytes "BINARY TCP 1.1\n\n"),
        .data (be16 2 ++ be16 1 ++ be16 1 ++ be32 7 ++ be32 1 ++ be32 5 ++ be32 3 ++ be32 0),
        .data (be16 22 ++ be16 1 ++ be16 17 ++ be16 1 ++ be16 1)], [], false, []⟩
      ⟨[], [], false, []⟩ 16 (bytes "BINARY TCP 1.1\n\n")
      ⟨[.data (be16 2 ++ be16 1 ++ be16 1 ++ be32 7 ++ be32 1 ++ be32 5 ++ be32 3 ++ be32 0),
        .data (be16 22 ++ be16 1 ++ be16 17 ++ be16 1 ++ be16 1)], [], false, []⟩
      (by decide)).1 (by decide),
   (type_version_mismatch_rejected .little
      ⟨[.data (bytes "BINARY TCP 1.1\n\n"),
        .data (be16 1 ++ be16 1 ++ be16 1 ++ be32 7 ++ be32 1 ++ be32 5 ++ be32 3 ++ be32 0),
        .data (be16 23 ++ be16 1 ++ be16 17 ++ be16 1 ++ be16 1)], [], false, []⟩
      ⟨[], [], false, []⟩ 16 (bytes "BINARY TCP 1.1\n\n")
      ⟨[.data (be16 1 ++ be16 1 ++ be16 1 ++ be32 7 ++ be32 1 ++ be32 5 ++ be32 3 ++ be32 0),
        .data (be16 23 ++ be16 1 ++ be16 17 ++ be16 1 ++ be16 1)], [], false, []⟩
      (by decide)).2.1 (by decide),
   (type_version_mismatch_rejected .big ⟨[], [], false, []⟩
      ⟨[.data (be16 1 ++ be16 2 ++ be16 1 ++ be32 7 ++ be32 1 ++ be32 5 ++ be32 3 ++ be32 0),
        .data (be16 22 ++ be16 1 ++ be16 17 ++ be16 1 ++ be16 1)], [], false, []⟩
      0 [] ⟨[], [], false, []⟩ (by decide)).2.2.1 (by decide),
   (type_version_mismatch_rejected .big ⟨[], [], false, []⟩
      ⟨[.data (be16 1 ++ be16 1 ++ be16 1 ++ be32 7 ++ be32 1 ++ be32 5 ++ be32 3 ++ be32 0),
        .data (be16 1 ++ be16 1 ++ be16 17 ++ be16 1 ++ be16 1)], [], false, []⟩
      0 [] ⟨[], [], false, []⟩ (by decide)).2.2.2 (by decide)⟩

/-! ## Theorems: assignment and verdict of the text routines -/

/-- In `handleTCPText`, an assignment from which an operation name and two integers cannot be
extracted makes the routine return failure, with at most the acceptance sent. -/
theorem handleTCPText_format_error (s : Socket) (n : Int) (resp : List Nat) (s1 : Socket)
    (hG : recvGreeting (pending s + 1) s [] = some (n, resp, s1))
    (hparse : extractAssignment (pop_newline (c_str (received (recv s1 1023).1))) = none) :
    (handleTCPText s).1 = .returned false ∧
    ((handleTCPText s).2.sent = s.sent ∨
      (handleTCPText s).2.sent = s.sent ++ [bytes "TEXT TCP 1.1 OK\n"]) := by
  have hf := recvGreeting_frame _ _ _ _ _ _ hG
  have hsf := send_frame s1 (bytes "TEXT TCP 1.1 OK\n")
  have hrc := recv_congr (send s1 (bytes "TEXT TCP 1.1 OK\n")).2 s1 1023 hsf.1
  have hrf := recv_frame (send s1 (bytes "TEXT TCP 1.1 OK\n")).2 1023
  rw [← hrc.1] at hparse
  unfold handleTCPText
  rw [hG]
  simp only [hparse]
  split
  · exact ⟨rfl, Or.inl hf.1⟩
  · split
    · exact ⟨rfl, Or.inl hf.1⟩
    · split
      · rename_i hs
        exact ⟨rfl, Or.inl ((hsf.2.2.2 (by simpa using hs)).trans hf.1)⟩
      · rename_i hs
        have hsent := (hrf.1.trans (hsf.2.2.1 (by simpa using hs))).trans
          (congrArg (· ++ [bytes "TEXT TCP 1.1 OK\n"]) hf.1)
        split
        · exact ⟨rfl, Or.inr hsent⟩
        · exact ⟨rfl, Or.inr hsent⟩

/-- In `handleUDPText`, an assignment from which an operation name and two integers cannot be
extracted makes the routine return failure, with at most the greeting sent. -/
theorem handleUDPText_format_error (s : Socket)
    (hparse : extractAssignment (pop_newline (c_str (received (recvfrom s 1023).1))) = none) :
    (handleUDPText s).1 = .returned false ∧
    ((handleUDPText s).2.sent = s.sent ∨
      (handleUDPText s).2.sent = s.sent ++ [bytes "TEXT UDP 1.1\n"]) := by
  have hsf := send_frame s (bytes "TEXT UDP 1.1\n")
  have hrc := recvfrom_congr (send s (bytes "TEXT UDP 1.1\n")).2 s 1023 hsf.1
  have hrf := recvfrom_frame (send s (bytes "TEXT UDP 1.1\n")).2 1023
  rw [← hrc.1] at hparse
  unfold handleUDPText
  simp only [hparse]
  split
  · rename_i hs
    exact ⟨rfl, Or.inl (hsf.2.2.2 (by simpa using hs))⟩
  · rename_i hs
    have hsent := hsf.2.2.1 (by simpa using hs)
    split
    · exact ⟨rfl, Or.inr hsent⟩
    · split
      · exact ⟨rfl, Or.inr (hrf.1.trans hsent)⟩
      · exact ⟨rfl, Or.inr (hrf.1.trans hsent)⟩

/-- A line with at most one whitespace-separated token is not an assignment. -/
theorem extractAssignment_few_tokens (line : List Nat) (h : (tokens line).length ≤ 1) :
    extractAssignment line = none := by
  unfold tokens tokensAux at h
  by_cases h1 : line.dropWhile isspace = []
  · simp [extractAssignment, extractString, h1]
  · simp only [h1, if_false, List.length_cons] at h
    have hlen : line.length ≠ 0 := by
      intro h0
      have : line = [] := List.eq_nil_of_length_eq_zero h0
      subst this
      simp at h1
    obtain ⟨k, hk⟩ : ∃ k, line.length = k + 1 := ⟨line.length - 1, by omega⟩
    rw [hk] at h
    unfold tokensAux at h
    by_cases h2 : ((line.dropWhile isspace).dropWhile (fun c => !isspace c)).dropWhile
        isspace = []
    · unfold extractAssignment extractString
      simp only
      split
      · rfl
      · rename_i operation rest1 heq
        split at heq
        · simp at heq
        · simp only [Option.some.injEq, Prod.mk.injEq] at heq
          obtain ⟨-, hrest⟩ := heq
          subst hrest
          simp [extractInt, h2]
    · simp [h2] at h

/-- The text `<op> <v1> <v2>` followed by anything that does not start with a digit is
extracted as the operation name and the two operands: what follows the second integer is not
looked at. -/
theorem extractAssignment_text_trailing (op : List Nat) (v1 v2 : Int) (r : List Nat)
    (hne : op ≠ []) (hop : ∀ c ∈ op, isspace c = false) (hv1 : isInt32 v1) (hv2 : isInt32 v2)
    (hr : ∀ c, r.head? = some c → isdigit c = false) :
    extractAssignment (op ++ [32] ++ to_string v1 ++ [32] ++ to_string v2 ++ r) =
      some (op, v1, v2) := by
  have h1 : extractString (op ++ ([32] ++ to_string v1 ++ ([32] ++ to_string v2 ++ r))) =
      some (op, [32] ++ to_string v1 ++ ([32] ++ to_string v2 ++ r)) :=
    extractString_token op _ hne hop (by intro c hc; simp at hc; subst hc; rfl)
  have h2 : extractInt ([32] ++ to_string v1 ++ ([32] ++ to_string v2 ++ r)) =
      some (v1, [32] ++ to_string v2 ++ r) :=
    extractInt_to_string v1 hv1 [32] _ (by intro c hc; simp at hc; subst hc; rfl)
      (by intro c hc; simp at hc; subst hc; rfl)
  have h3 : extractInt ([32] ++ to_string v2 ++ r) = some (v2, r) :=
    extractInt_to_string v2 hv2 [32] r (by intro c hc; simp at hc; subst hc; rfl) hr
  have e : op ++ [32] ++ to_string v1 ++ [32] ++ to_string v2 ++ r =
      op ++ ([32] ++ to_string v1 ++ ([32] ++ to_string v2 ++ r)) := by simp
  rw [e]
  simp only [extractAssignment, h1, h2, h3]

theorem send_fst_of_sendsSucceed (s : Socket) (msg : List Nat) (h : sendsSucceed s) :
    (send s msg).1 = true := by
  rw [send_of_sendsSucceed s msg h]

theorem sendsSucceed_of_sendFails_tail (s t : Socket) (h : sendsSucceed s)
    (ht : t.sendFails = s.sendFails ∨ t.sendFails = s.sendFails.tail) : sendsSucceed t := by
  intro b hb
  rcases ht with ht | ht
  · rw [ht] at hb; exact h b hb
  · rw [ht] at hb; exact h b (List.mem_of_mem_tail hb)

theorem send_sendFails_of_sendsSucceed (s : Socket) (msg : List Nat) (h : sendsSucceed s) :
    (send s msg).2.sendFails = s.sendFails.tail := by
  rw [send_of_sendsSucceed s msg h]

theorem pop_newline_eq_ok_iff (t : List Nat) :
    pop_newline t = bytes "OK" ↔ t = bytes "OK" ∨ t = bytes "OK\n" := by
  unfold pop_newline
  by_cases h : t.getLast? = some 10
  · simp only [h, if_true]
    obtain ⟨hne, hlast⟩ : ∃ hne : t ≠ [], t.getLast hne = 10 := by
      cases t with
      | nil => simp at h
      | cons a l => exact ⟨by simp, by simpa [List.getLast?_eq_getLast] using h⟩
    have hd := List.dropLast_append_getLast hne
    rw [hlast] at hd
    constructor
    · intro ho
      right
      rw [← hd, ho]; rfl
    · rintro (ho | ho)
      · rw [ho] at h; exact absurd h (by decide)
      · rw [ho]; rfl
  · simp only [h, if_false]
    constructor
    · intro ho; exact Or.inl ho
    · rintro (ho | ho)
      · exact ho
      · rw [ho] at h; exact absurd rfl h

/-- The return value of `handleTCPText` once it has reached the verdict: success exactly when
the received text, cut at the first NUL and without one trailing newline, is `OK`. -/
theorem handleTCPText_verdict (s : Socket) (n : Int) (resp : List Nat) (s1 : Socket)
    (operation : List Nat) (value1 value2 result : Int)
    (hG : recvGreeting (pending s + 1) s [] = some (n, resp, s1))
    (hn : 0 < n) (hcap : find resp (bytes "TEXT TCP 1.1\n") ≠ none)
    (hsend : sendsSucceed s)
    (ha : 0 < bytes_read (recv s1 1023).1)
    (hparse : extractAssignment (pop_newline (c_str (received (recv s1 1023).1))) =
      some (operation, value1, value2))
    (hcalc : calculate (string_to_operation operation) value1 value2 = some result)
    (hv : 0 < bytes_read (recv (recv s1 1023).2 1023).1) :
    (handleTCPText s).1 = .returned (decide
      (pop_newline (c_str (received (recv (recv s1 1023).2 1023).1)) = bytes "OK")) := by
  have hf := recvGreeting_frame _ _ _ _ _ _ hG
  have hs1 : sendsSucceed s1 := sendsSucceed_of_sendFails_tail s s1 hsend (Or.inl hf.2.1)
  have hsf := send_frame s1 (bytes "TEXT TCP 1.1 OK\n")
  have hrc := recv_congr (send s1 (bytes "TEXT TCP 1.1 OK\n")).2 s1 1023 hsf.1
  have hrf := recv_frame (send s1 (bytes "TEXT TCP 1.1 OK\n")).2 1023
  have hs2 : sendsSucceed (recv (send s1 (bytes "TEXT TCP 1.1 OK\n")).2 1023).2 :=
    sendsSucceed_of_sendFails_tail s1 _ hs1
      (Or.inr (hrf.2.1.trans (send_sendFails_of_sendsSucceed s1 _ hs1)))
  have hsf2 := send_frame (recv (send s1 (bytes "TEXT TCP 1.1 OK\n")).2 1023).2
    (to_string result ++ bytes "\n")
  have hrc2 := recv_congr (send (recv (send s1 (bytes "TEXT TCP 1.1 OK\n")).2 1023).2
    (to_string result ++ bytes "\n")).2 (recv s1 1023).2 1023 (hsf2.1.trans hrc.2)
  rw [← hrc2.1] at hv ⊢
  rw [← hrc.1] at ha hparse
  unfold handleTCPText
  rw [hG]
  simp only [not_le.mpr hn, if_false, hcap, send_fst_of_sendsSucceed s1 _ hs1, Bool.not_true,
    Bool.false_eq_true, not_le.mpr ha, hparse, hcalc,
    send_fst_of_sendsSucceed _ (to_string result ++ bytes "\n") hs2, not_le.mpr hv]
  by_cases hok : pop_newline (c_str (received (recv (send (recv (send s1
      (bytes "TEXT TCP 1.1 OK\n")).2 1023).2 (to_string result ++ bytes "\n")).2 1023).1)) =
      bytes "OK"
  · simp [hok]
  · simp [hok]

/-- The return value of `handleUDPText` once it has reached the verdict. -/
theorem handleUDPText_verdict (u : Socket) (operation : List Nat)
    (value1 value2 result : Int)
    (hsend : sendsSucceed u) (hopt : u.setsockoptFails = false)
    (ha : 0 ≤ bytes_read (recvfrom u 1023).1)
    (hparse : extractAssignment (pop_newline (c_str (received (recvfrom u 1023).1))) =
      some (operation, value1, value2))
    (hcalc : calculate (string_to_operation operation) value1 value2 = some result)
    (hv : 0 ≤ bytes_read (recvfrom (recvfrom u 1023).2 1023).1) :
    (handleUDPText u).1 = .returned (decide
      (pop_newline (c_str (received (recvfrom (recvfrom u 1023).2 1023).1)) = bytes "OK")) := by
  have hsf := send_frame u (bytes "TEXT UDP 1.1\n")
  have hrc := recvfrom_congr (send u (bytes "TEXT UDP 1.1\n")).2 u 1023 hsf.1
  have hrf := recvfrom_frame (send u (bytes "TEXT UDP 1.1\n")).2 1023
  have hs2 : sendsSucceed (recvfrom (send u (bytes "TEXT UDP 1.1\n")).2 1023).2 :=
    sendsSucceed_of_sendFails_tail u _ hsend
      (Or.inr (hrf.2.1.trans (send_sendFails_of_sendsSucceed u _ hsend)))
  have hsf2 := send_frame (recvfrom (send u (bytes "TEXT UDP 1.1\n")).2 1023).2
    (to_string result ++ bytes "\n")
  have hrc2 := recvfrom_congr (send (recvfrom (send u (bytes "TEXT UDP 1.1\n")).2 1023).2
    (to_string result ++ bytes "\n")).2 (recvfrom u 1023).2 1023 (hsf2.1.trans hrc.2)
  have hopt2 : (send u (bytes "TEXT UDP 1.1\n")).2.setsockoptFails = false :=
    hsf.2.1.trans hopt
  rw [← hrc2.1] at hv ⊢
  rw [← hrc.1] at ha hparse
  unfold handleUDPText
  simp only [send_fst_of_sendsSucceed u _ hsend, Bool.not_true, Bool.false_eq_true, if_false,
    hopt2, not_lt.mpr ha, hparse, hcalc,
    send_fst_of_sendsSucceed _ (to_string result ++ bytes "\n") hs2, not_lt.mpr hv]
  by_cases hok : pop_newline (c_str (received (recvfrom (send (recvfrom (send u
      (bytes "TEXT UDP 1.1\n")).2 1023).2 (to_string result ++ bytes "\n")).2 1023).1)) =
      bytes "OK"
  · simp [hok]
  · simp [hok]

/-- What a success of `handleTCPText` implies about the greeting and the two texts received
after it. -/
theorem handleTCPText_success (s : Socket) (n : Int) (resp : List Nat) (s1 : Socket)
    (hG : recvGreeting (pending s + 1) s [] = some (n, resp, s1))
    (h : (handleTCPText s).1 = .returned true) :
    0 < n ∧ find resp (bytes "TEXT TCP 1.1\n") ≠ none ∧
    extractAssignment (pop_newline (c_str (received (recv s1 1023).1))) ≠ none ∧
    pop_newline (c_str (received (recv (recv s1 1023).2 1023).1)) = bytes "OK" := by
  have hsf := send_frame s1 (bytes "TEXT TCP 1.1 OK\n")
  have hrc := recv_congr (send s1 (bytes "TEXT TCP 1.1 OK\n")).2 s1 1023 hsf.1
  unfold handleTCPText at h
  rw [hG] at h
  simp only at h
  rw [hrc.1] at h
  split at h
  · simp at h
  rename_i hn
  split at h
  · simp at h
  rename_i hcap
  split at h
  · simp at h
  split at h
  · simp at h
  split at h
  · simp at h
  rename_i operation value1 value2 hparse
  split at h
  · simp at h
  rename_i result hcalc
  have hsf2 := fun msg => send_frame (recv (send s1 (bytes "TEXT TCP 1.1 OK\n")).2 1023).2 msg
  have hrc2 := fun msg => recv_congr (send (recv (send s1 (bytes "TEXT TCP 1.1 OK\n")).2
    1023).2 msg).2 (recv s1 1023).2 1023 (((hsf2 msg).1).trans hrc.2)
  split at h
  · simp at h
  split at h
  · simp at h
  split at h
  · rename_i hok
    simp only [hrc2] at hok
    exact ⟨by omega, hcap, by rw [hparse]; simp, hok⟩
  · simp at h

/-- What a success of `handleUDPText` implies about the two datagrams it received. -/
theorem handleUDPText_success (u : Socket) (h : (handleUDPText u).1 = .returned true) :
    extractAssignment (pop_newline (c_str (received (recvfrom u 1023).1))) ≠ none ∧
    pop_newline (c_str (received (recvfrom (recvfrom u 1023).2 1023).1)) = bytes "OK" := by
  have hsf := send_frame u (bytes "TEXT UDP 1.1\n")
  have hrc := recvfrom_congr (send u (bytes "TEXT UDP 1.1\n")).2 u 1023 hsf.1
  unfold handleUDPText at h
  simp only at h
  rw [hrc.1] at h
  split at h
  · simp at h
  split at h
  · simp at h
  split at h
  · simp at h
  split at h
  · simp at h
  rename_i operation value1 value2 hparse
  split at h
  · simp at h
  rename_i result hcalc
  have hsf2 := fun msg => send_frame (recvfrom (send u (bytes "TEXT UDP 1.1\n")).2 1023).2 msg
  have hrc2 := fun msg => recvfrom_congr (send (recvfrom (send u (bytes "TEXT UDP 1.1\n")).2
    1023).2 msg).2 (recvfrom u 1023).2 1023 (((hsf2 msg).1).trans hrc.2)
  split at h
  · simp at h
  split at h
  · simp at h
  split at h
  · rename_i hok
    simp only [hrc2] at hok
    exact ⟨by rw [hparse]; simp, hok⟩
  · simp at h

/-- C15 (counterexample): the line `add 1 2 3` has four tokens and the line `add 1-2` has
two, yet both are accepted: the first is answered as `add 1 2` with `3`, by both text
routines, and the second as `add 1 -2` with `-1`. -/
theorem text_assignment_other_token_counts :
    tokens (bytes "add 1 2 3") = [bytes "add", bytes "1", bytes "2", bytes "3"] ∧
    extractAssignment (bytes "add 1 2 3") = some (bytes "add", 1, 2) ∧
    handleTCPText
        ⟨[.data (bytes "TEXT TCP 1.1\n\n"), .data (bytes "add 1 2 3\n"),
          .data (bytes "OK\n")], [], false, []⟩ =
      (.returned true, ⟨[], [], false, [bytes "TEXT TCP 1.1 OK\n", bytes "3\n"]⟩) ∧
    handleUDPText ⟨[.data (bytes "add 1 2 3\n"), .data (bytes "OK\n")], [], false, []⟩ =
      (.returned true, ⟨[], [], false, [bytes "TEXT UDP 1.1\n", bytes "3\n"]⟩) ∧
    tokens (bytes "add 1-2") = [bytes "add", bytes "1-2"] ∧
    handleUDPText ⟨[.data (bytes "add 1-2\n"), .data (bytes "OK\n")], [], false, []⟩ =
      (.returned true, ⟨[], [], false, [bytes "TEXT UDP 1.1\n", bytes "-1\n"]⟩) := by
  decide

/-- C15 (amended): a text session whose assignment does not yield an operation name and two
integers under `iss >> operation >> value1 >> value2` returns failure without sending a
result; every line with fewer than two tokens is such a line; and in a line that starts with
`<op> <v1> <v2>` what follows the second integer is not looked at, so that lines with more
than three tokens are accepted. -/
theorem text_assignment_parsing (s u : Socket) (n : Int) (resp : List Nat) (s1 : Socket)
    (line op r : List Nat) (v1 v2 : Int)
    (hG : recvGreeting (pending s + 1) s [] = some (n, resp, s1))
    (hne : op ≠ []) (hop : ∀ c ∈ op, isspace c = false) (hv1 : isInt32 v1) (hv2 : isInt32 v2)
    (hr : ∀ c, r.head? = some c → isdigit c = false) :
    (extractAssignment (pop_newline (c_str (received (recv s1 1023).1))) = none →
      (handleTCPText s).1 = .returned false ∧
      ((handleTCPText s).2.sent = s.sent ∨
        (handleTCPText s).2.sent = s.sent ++ [bytes "TEXT TCP 1.1 OK\n"])) ∧
    (extractAssignment (pop_newline (c_str (received (recvfrom u 1023).1))) = none →
      (handleUDPText u).1 = .returned false ∧
      ((handleUDPText u).2.sent = u.sent ∨
        (handleUDPText u).2.sent = u.sent ++ [bytes "TEXT UDP 1.1\n"])) ∧
    ((tokens line).length ≤ 1 → extractAssignment line = none) ∧
    extractAssignment (op ++ [32] ++ to_string v1 ++ [32] ++ to_string v2 ++ r) =
      some (op, v1, v2) :=
  ⟨handleTCPText_format_error s n resp s1 hG, handleUDPText_format_error u,
    extractAssignment_few_tokens line,
    extractAssignment_text_trailing op v1 v2 r hne hop hv1 hv2 hr⟩

theorem text_assignment_parsing_witness :
    ((handleTCPText ⟨[.data (bytes "TEXT TCP 1.1\n\n"), .data (bytes "add 1\n")], [], false,
        []⟩).1 = .returned false ∧
      ((handleTCPText ⟨[.data (bytes "TEXT TCP 1.1\n\n"), .data (bytes "add 1\n")], [],
          false, []⟩).2.sent = [] ∨
        (handleTCPText ⟨[.data (bytes "TEXT TCP 1.1\n\n"), .data (bytes "add 1\n")], [],
          false, []⟩).2.sent = [] ++ [bytes "TEXT TCP 1.1 OK\n"])) ∧
    ((handleUDPText ⟨[.data (bytes "sub x 4\n")], [], false, []⟩).1 = .returned false ∧
      ((handleUDPText ⟨[.data (bytes "sub x 4\n")], [], false, []⟩).2.sent = [] ∨
        (handleUDPText ⟨[.data (bytes "sub x 4\n")], [], false, []⟩).2.sent =
          [] ++ [bytes "TEXT UDP 1.1\n"])) ∧
    extractAssignment (bytes " mul7 ") = none ∧
    extractAssignment (bytes "mul" ++ [32] ++ to_string (-4) ++ [32] ++ to_string 3 ++
      bytes " and more") = some (bytes "mul", -4, 3) :=
  have h := text_assignment_parsing
    ⟨[.data (bytes "TEXT TCP 1.1\n\n"), .data (bytes "add 1\n")], [], false, []⟩
    ⟨[.data (bytes "sub x 4\n")], [], false, []⟩ 14 (bytes "TEXT TCP 1.1\n\n")
    ⟨[.data (bytes "add 1\n")], [], false, []⟩ (bytes " mul7 ") (bytes "mul")
    (bytes " and more") (-4) 3 (by decide) (by decide) (by decide) (by decide) (by decide)
    (by decide)
  ⟨h.1 (by decide), h.2.1 (by decide), h.2.2.1 (by decide), h.2.2.2⟩

/-- C16 (counterexample): the verdicts `OK\r\n` and ` OK \n`, which read `OK` once the
surrounding whitespace is trimmed, make the text routines return failure after a correct
result. -/
theorem text_verdict_not_trimmed :
    handleTCPText
        ⟨[.data (bytes "TEXT TCP 1.1\n\n"), .data (bytes "add 5 3\n"),
          .data (bytes "OK\r\n")], [], false, []⟩ =
      (.returned false, ⟨[], [], false, [bytes "TEXT TCP 1.1 OK\n", bytes "8\n"]⟩) ∧
    handleUDPText ⟨[.data (bytes "add 5 3\n"), .data (bytes " OK \n")], [], false, []⟩ =
      (.returned false, ⟨[], [], false, [bytes "TEXT UDP 1.1\n", bytes "8\n"]⟩) := by
  decide

/-- C16 (amended): a text session that has reached the verdict returns success if and only if
the received text, cut at the first NUL, is `OK` or `OK\n`, that is, equals `OK` once a
single trailing newline is removed; `OK\n` is accepted, while `OK\r\n`, ` OK \n`, `ok\n` and
`OK!\n` are not. -/
theorem text_verdict_decoding (s u : Socket) (n : Int) (resp : List Nat) (s1 : Socket)
    (op op' : List Nat) (v1 v2 result v1' v2' result' : Int)
    (hG : recvGreeting (pending s + 1) s [] = some (n, resp, s1))
    (hn : 0 < n) (hcap : find resp (bytes "TEXT TCP 1.1\n") ≠ none)
    (hsend : sendsSucceed s)
    (ha : 0 < bytes_read (recv s1 1023).1)
    (hparse : extractAssignment (pop_newline (c_str (received (recv s1 1023).1))) =
      some (op, v1, v2))
    (hcalc : calculate (string_to_operation op) v1 v2 = some result)
    (hv : 0 < bytes_read (recv (recv s1 1023).2 1023).1)
    (hsend' : sendsSucceed u) (hopt' : u.setsockoptFails = false)
    (ha' : 0 ≤ bytes_read (recvfrom u 1023).1)
    (hparse' : extractAssignment (pop_newline (c_str (received (recvfrom u 1023).1))) =
      some (op', v1', v2'))
    (hcalc' : calculate (string_to_operation op') v1' v2' = some result')
    (hv' : 0 ≤ bytes_read (recvfrom (recvfrom u 1023).2 1023).1) :
    ((handleTCPText s).1 = .returned true ↔
      c_str (received (recv (recv s1 1023).2 1023).1) = bytes "OK" ∨
      c_str (received (recv (recv s1 1023).2 1023).1) = bytes "OK\n") ∧
    ((handleUDPText u).1 = .returned true ↔
      c_str (received (recvfrom (recvfrom u 1023).2 1023).1) = bytes "OK" ∨
      c_str (received (recvfrom (recvfrom u 1023).2 1023).1) = bytes "OK\n") ∧
    pop_newline (c_str (bytes "OK\n")) = bytes "OK" ∧
    pop_newline (c_str (bytes "OK\r\n")) ≠ bytes "OK" ∧
    pop_newline (c_str (bytes " OK \n")) ≠ bytes "OK" ∧
    pop_newline (c_str (bytes "ok\n")) ≠ bytes "OK" ∧
    pop_newline (c_str (bytes "OK!\n")) ≠ bytes "OK" := by
  refine ⟨?_, ?_, by decide, by decide, by decide, by decide, by decide⟩
  · rw [handleTCPText_verdict s n resp s1 op v1 v2 result hG hn hcap hsend ha hparse hcalc hv,
      ← pop_newline_eq_ok_iff]
    simp
  · rw [handleUDPText_verdict u op' v1' v2' result' hsend' hopt' ha' hparse' hcalc' hv',
      ← pop_newline_eq_ok_iff]
    simp

theorem text_verdict_decoding_witness :
    ((handleTCPText ⟨[.data (bytes "TEXT TCP 1.1\n\n"), .data (bytes "add 5 3\n"),
        .data (bytes "OK")], [], false, []⟩).1 = .returned true ↔
      c_str (bytes "OK") = bytes "OK" ∨ c_str (bytes "OK") = bytes "OK\n") ∧
    ((handleUDPText ⟨[.data (bytes "add 5 3\n"), .data (bytes "OK\r\n")], [], false,
        []⟩).1 = .returned true ↔
      c_str (bytes "OK\r\n") = bytes "OK" ∨ c_str (bytes "OK\r\n") = bytes "OK\n") :=
  have h := text_verdict_decoding
    ⟨[.data (bytes "TEXT TCP 1.1\n\n"), .data (bytes "add 5 3\n"), .data (bytes "OK")], [],
      false, []⟩
    ⟨[.data (bytes "add 5 3\n"), .data (bytes "OK\r\n")], [], false, []⟩
    14 (bytes "TEXT TCP 1.1\n\n")
    ⟨[.data (bytes "add 5 3\n"), .data (bytes "OK")], [], false, []⟩
    (bytes "add") (bytes "add") 5 3 8 5 3 8
    (by decide) (by decide) (by decide) (by decide) (by decide) (by decide) (by decide)
    (by decide) (by decide) (by decide) (by decide) (by decide) (by decide) (by decide)
  ⟨h.1, h.2.1⟩

/-! ## Theorems: the transport selection of `main` -/

/-- The transport selection of `main` in `any` mode, for every run in which the datagram
session returns to `main` (or the datagram socket cannot be created): the first step is
the creation of the datagram socket; `connectTCP` is called exactly when the datagram
session did not return success; a stream session is run exactly when, in addition, the
connection could be opened; after a successful datagram session nothing else is done. -/
theorem main_any_policy (order : ByteOrder) (api : List Nat) (udp tcp : Option Socket)
    (hret : ∀ sockfd, udp = some sockfd → ∃ b, datagramSession order api sockfd = .returned b) :
    (∃ ok rest, (main_any order api udp tcp).steps = .createUDPSocket ok :: rest) ∧
    ((∃ ok, .connectTCP ok ∈ (main_any order api udp tcp).steps) ↔
      .datagramSession (.returned true) ∉ (main_any order api udp tcp).steps) ∧
    ((∃ e, .streamSession e ∈ (main_any order api udp tcp).steps) ↔
      (.datagramSession (.returned true) ∉ (main_any order api udp tcp).steps ∧
        tcp.isSome = true)) ∧
    (.datagramSession (.returned true) ∈ (main_any order api udp tcp).steps →
      (main_any order api udp tcp).steps =
        [.createUDPSocket true, .datagramSession (.returned true)]) := by
  cases udp with
  | none =>
    cases tcp with
    | none => simp [main_any]
    | some t =>
      cases ht : streamSession order api t with
      | returned b => cases b <;> simp [main_any, ht]
      | undefined => simp [main_any, ht]
      | unfinished => simp [main_any, ht]
  | some u =>
    obtain ⟨b, hu⟩ := hret u rfl
    cases b with
    | true => simp [main_any, hu]
    | false =>
      cases tcp with
      | none => simp [main_any, hu]
      | some t =>
        cases ht : streamSession order api t with
        | returned b => cases b <;> simp [main_any, hu, ht]
        | undefined => simp [main_any, hu, ht]
        | unfinished => simp [main_any, hu, ht]

/-- C17 (failing input): in `any` mode with the text interface, a datagram peer that answers
the hello with the assignment `div -2147483648 -1` makes the datagram session evaluate
`calculate(4, INT32_MIN, -1)`, which has no defined result: the session does not return to
`main`, so the datagram attempt did not end in success and yet `connectTCP` is never
called, although the stream peer would have served a session that succeeds. -/
theorem main_any_div_min_by_minus_one (order : ByteOrder) :
    datagramSession order (bytes "text")
        ⟨[.data (bytes "div -2147483648 -1\n")], [], false, []⟩ = .undefined ∧
    streamSession order (bytes "text")
        ⟨[.data (bytes "TEXT TCP 1.1\n\n"), .data (bytes "add 5 3\n"), .data (bytes "OK\n")],
          [], false, []⟩ = .returned true ∧
    (main_any order (bytes "text")
        (some ⟨[.data (bytes "div -2147483648 -1\n")], [], false, []⟩)
        (some ⟨[.data (bytes "TEXT TCP 1.1\n\n"), .data (bytes "add 5 3\n"),
          .data (bytes "OK\n")], [], false, []⟩)).steps =
      [.createUDPSocket true, .datagramSession .undefined] ∧
    (main_any order (bytes "text")
        (some ⟨[.data (bytes "div -2147483648 -1\n")], [], false, []⟩)
        (some ⟨[.data (bytes "TEXT TCP 1.1\n\n"), .data (bytes "add 5 3\n"),
          .data (bytes "OK\n")], [], false, []⟩)).status ≠ .returned true ∧
    (main_any order (bytes "text")
        (some ⟨[.data (bytes "add 5 3\n"), .data (bytes "ERROR\n")], [], false, []⟩)
        (some ⟨[.data (bytes "TEXT TCP 1.1\n\n"), .data (bytes "add 5 3\n"),
          .data (bytes "OK\n")], [], false, []⟩)).steps =
      [.createUDPSocket true, .datagramSession (.returned false), .connectTCP true,
        .streamSession (.returned true)] := by
  cases order <;> decide

/-- C18: the outcome of `main` in `any` mode in terms of the two sessions. The datagram
attempt succeeds when the datagram socket is created and the routine chosen by `api`
returns success on it; it fails when the socket cannot be created or the routine returns
failure; the stream attempt is made exactly when the datagram attempt failed, and is the
routine chosen by `api` run on the connected socket. The process ends in success exactly
when the datagram attempt succeeded or, that attempt having failed, the stream attempt
succeeded; `UDP` is reported exactly in the first case and `TCP` exactly in the second; when
both attempts fail the process ends in failure and no transport is reported. The sessions
listed among the steps of the run are these sessions, with the way they ended. -/
theorem any_mode_outcome (order : ByteOrder) (api : List Nat) (udp tcp : Option Socket) :
    ((main_any order api udp tcp).status = .returned true ↔
      (.datagramSession (.returned true) ∈ (main_any order api udp tcp).steps ∨
        .streamSession (.returned true) ∈ (main_any order api udp tcp).steps)) ∧
    ((main_any order api udp tcp).report = some (bytes "UDP") ↔
      .datagramSession (.returned true) ∈ (main_any order api udp tcp).steps) ∧
    ((main_any order api udp tcp).report = some (bytes "TCP") ↔
      (.datagramSession (.returned true) ∉ (main_any order api udp tcp).steps ∧
        .streamSession (.returned true) ∈ (main_any order api udp tcp).steps)) ∧
    ((.datagramSession (.returned true) ∉ (main_any order api udp tcp).steps ∧
        .streamSession (.returned true) ∉ (main_any order api udp tcp).steps) →
      (main_any order api udp tcp).status ≠ .returned true ∧
      (main_any order api udp tcp).report = none) ∧
    (∀ e, .datagramSession e ∈ (main_any order api udp tcp).steps ↔
      ∃ sockfd, udp = some sockfd ∧ datagramSession order api sockfd = e) ∧
    (∀ e, .streamSession e ∈ (main_any order api udp tcp).steps ↔
      ((udp = none ∨ ∃ sockfd, udp = some sockfd ∧
          datagramSession order api sockfd = .returned false) ∧
        ∃ sockfd, tcp = some sockfd ∧ streamSession order api sockfd = e)) ∧
    ((main_any order api udp tcp).status = .returned true ↔
      ((∃ sockfd, udp = some sockfd ∧ datagramSession order api sockfd = .returned true) ∨
        ((udp = none ∨ ∃ sockfd, udp = some sockfd ∧
            datagramSession order api sockfd = .returned false) ∧
          ∃ sockfd, tcp = some sockfd ∧ streamSession order api sockfd = .returned true))) ∧
    (((main_any order api udp tcp).report = some (bytes "UDP") ↔
        ∃ sockfd, udp = some sockfd ∧ datagramSession order api sockfd = .returned true) ∧
      ((main_any order api udp tcp).successful_protocol = bytes "UDP" ↔
        ∃ sockfd, udp = some sockfd ∧ datagramSession order api sockfd = .returned true)) ∧
    (((main_any order api udp tcp).report = some (bytes "TCP") ↔
        ((udp = none ∨ ∃ sockfd, udp = some sockfd ∧
            datagramSession order api sockfd = .returned false) ∧
          ∃ sockfd, tcp = some sockfd ∧ streamSession order api sockfd = .returned true)) ∧
      ((main_any order api udp tcp).successful_protocol = bytes "TCP" ↔
        ((udp = none ∨ ∃ sockfd, udp = some sockfd ∧
            datagramSession order api sockfd = .returned false) ∧
          ∃ sockfd, tcp = some sockfd ∧ streamSession order api sockfd = .returned true))) ∧
    ((main_any order api udp tcp).report = some (bytes "UDP") ∨
      (main_any order api udp tcp).report = some (bytes "TCP") ∨
      ((main_any order api udp tcp).report = none ∧
        (main_any order api udp tcp).successful_protocol = [])) ∧
    ((udp = none ∨ ∃ sockfd, udp = some sockfd ∧
          datagramSession order api sockfd = .returned false) →
      (tcp = none ∨ ∃ sockfd, tcp = some sockfd ∧
          streamSession order api sockfd = .returned false) →
      (main_any order api udp tcp).status = .returned false ∧
      (main_any order api udp tcp).report = none ∧
      (main_any order api udp tcp).successful_protocol = []) ∧
    (∀ sockfd e, udp = some sockfd → datagramSession order api sockfd = e →
      e ≠ .returned false → (main_any order api udp tcp).status = e) ∧
    (∀ sockfd e, (udp = none ∨ ∃ sockfd, udp = some sockfd ∧
          datagramSession order api sockfd = .returned false) →
      tcp = some sockfd → streamSession order api sockfd = e →
      (main_any order api udp tcp).status = e) := by
  have hne : bytes "UDP" ≠ bytes "TCP" := by decide
  have hne' : bytes "TCP" ≠ bytes "UDP" := by decide
  have hU : bytes "UDP" ≠ [] := by decide
  have hT : bytes "TCP" ≠ [] := by decide
  have hU' : [] ≠ bytes "UDP" := by decide
  have hT' : [] ≠ bytes "TCP" := by decide
  have hc : ∀ x e : Exit, (e = x ↔ x = e) := fun x e => eq_comm
  cases udp with
  | none =>
    cases tcp with
    | none => simp [main_any, hU', hT']
    | some t =>
      cases ht : streamSession order api t with
      | returned b => cases b <;> simp [main_any, ht, hne, hne', hU, hT, hU', hT', hc]
      | undefined => simp [main_any, ht, hU', hT', hc]
      | unfinished => simp [main_any, ht, hU', hT', hc]
  | some u =>
    cases hu : datagramSession order api u with
    | returned b =>
      cases b with
      | true => simp [main_any, hu, hne, hne', hU, hT, hU', hT', hc]
      | false =>
        cases tcp with
        | none => simp [main_any, hu, hU', hT', hc]
        | some t =>
          cases ht : streamSession order api t with
          | returned b => cases b <;> simp [main_any, hu, ht, hne, hne', hU, hT, hU', hT', hc]
          | undefined => simp [main_any, hu, ht, hU', hT', hc]
          | unfinished => simp [main_any, hu, ht, hU', hT', hc]
    | undefined => simp [main_any, hu, hU', hT', hc]
    | unfinished => simp [main_any, hu, hU', hT', hc]

theorem any_mode_outcome_witness :
    (main_any .little (bytes "TEXT")
        (some ⟨[.data (bytes "add 5 3\n"), .data (bytes "ERROR\n")], [], false, []⟩)
        (some ⟨[.data (bytes "TEXT TCP 1.1\n\n"), .data (bytes "add 5 3\n"),
          .data (bytes "OK\n")], [], false, []⟩)).status = .returned true ∧
    ((main_any .little (bytes "TEXT")
        (some ⟨[.data (bytes "add 5 3\n"), .data (bytes "ERROR\n")], [], false, []⟩)
        none).status = .returned false ∧
      (main_any .little (bytes "TEXT")
        (some ⟨[.data (bytes "add 5 3\n"), .data (bytes "ERROR\n")], [], false, []⟩)
        none).report = none ∧
      (main_any .little (bytes "TEXT")
        (some ⟨[.data (bytes "add 5 3\n"), .data (bytes "ERROR\n")], [], false, []⟩)
        none).successful_protocol = []) :=
  ⟨(any_mode_outcome .little (bytes "TEXT")
      (some ⟨[.data (bytes "add 5 3\n"), .data (bytes "ERROR\n")], [], false, []⟩)
      (some ⟨[.data (bytes "TEXT TCP 1.1\n\n"), .data (bytes "add 5 3\n"),
        .data (bytes "OK\n")], [], false, []⟩)).2.2.2.2.2.2.2.2.2.2.2.2
      ⟨[.data (bytes "TEXT TCP 1.1\n\n"), .data (bytes "add 5 3\n"), .data (bytes "OK\n")],
        [], false, []⟩ (.returned true)
      (Or.inr ⟨_, rfl, by decide⟩) rfl (by decide),
    (any_mode_outcome .little (bytes "TEXT")
      (some ⟨[.data (bytes "add 5 3\n"), .data (bytes "ERROR\n")], [], false, []⟩)
      none).2.2.2.2.2.2.2.2.2.2.1 (Or.inr ⟨_, rfl, by decide⟩) (Or.inl rfl)⟩

/-! ## Theorems: what the handshake routines transmit -/

/-- A send call consumes one entry of the script of send failures. -/
theorem send_sendFails (s : Socket) (msg : List Nat) :
    (send s msg).2.sendFails = s.sendFails.tail := by
  unfold send
  split <;> simp_all

/-- A send call fails exactly when the script of send failures starts with a failure. -/
theorem send_fst_eq_false_iff (s : Socket) (msg : List Nat) :
    (send s msg).1 = false ↔ s.sendFails.head? = some true := by
  unfold send
  split <;> simp_all

/-- A send call that fails shows that the script of the socket holds a failure. -/
theorem not_sendsSucceed_of_send (s t : Socket) (msg : List Nat)
    (ht : t.sendFails = s.sendFails ∨ t.sendFails = s.sendFails.tail)
    (h : (send t msg).1 = false) : ¬ sendsSucceed s := by
  intro hs
  have := send_fst_of_sendsSucceed t msg (sendsSucceed_of_sendFails_tail s t hs ht)
  rw [this] at h
  exact Bool.noConfusion h

/-- Every run of `handleTCPBinary`, by the number of messages it has transmitted: nothing
(the greeting failed, or the acceptance could not be sent), the acceptance alone with a
failure, the acceptance alone because the division had no defined result, or the acceptance
and the result record, after which the verdict decides. -/
theorem handleTCPBinary_trace (order : ByteOrder) (s : Socket) (n : Int) (resp : List Nat)
    (s1 : Socket) (hG : recvGreeting (pending s + 1) s [] = some (n, resp, s1)) :
    ((n ≤ 0 ∨ find resp (bytes "BINARY TCP 1.1\n") = none ∨ ¬ sendsSucceed s) ∧
      (handleTCPBinary order s).1 = .returned false ∧
      (handleTCPBinary order s).2.sent = s.sent) ∨
    (0 < n ∧ find resp (bytes "BINARY TCP 1.1\n") ≠ none ∧
      (bytes_read (recv s1 sizeof_calcProtocol).1 ≠ (sizeof_calcProtocol : Int) ∨
        (decode_calcProtocol order (received (recv s1 sizeof_calcProtocol).1)).type ≠
          MSG_TYPE_CALC_PROTOCOL ∨
        (decode_calcProtocol order (received (recv s1 sizeof_calcProtocol).1)).major_version ≠
          MAJOR_VERSION ∨
        (decode_calcProtocol order (received (recv s1 sizeof_calcProtocol).1)).minor_version ≠
          MINOR_VERSION ∨
        ¬ sendsSucceed s) ∧
      (handleTCPBinary order s).1 = .returned false ∧
      (handleTCPBinary order s).2.sent = s.sent ++ [bytes "BINARY TCP 1.1 OK\n"]) ∨
    (0 < n ∧ find resp (bytes "BINARY TCP 1.1\n") ≠ none ∧
      bytes_read (recv s1 sizeof_calcProtocol).1 = (sizeof_calcProtocol : Int) ∧
      (decode_calcProtocol order (received (recv s1 sizeof_calcProtocol).1)).type =
        MSG_TYPE_CALC_PROTOCOL ∧
      (decode_calcProtocol order (received (recv s1 sizeof_calcProtocol).1)).major_version =
        MAJOR_VERSION ∧
      (decode_calcProtocol order (received (recv s1 sizeof_calcProtocol).1)).minor_version =
        MINOR_VERSION ∧
      calculate (decode_calcProtocol order (received (recv s1 sizeof_calcProtocol).1)).arith
        (decode_calcProtocol order (received (recv s1 sizeof_calcProtocol).1)).inValue1
        (decode_calcProtocol order (received (recv s1 sizeof_calcProtocol).1)).inValue2 =
          none ∧
      (handleTCPBinary order s).1 = .undefined ∧
      (handleTCPBinary order s).2.sent = s.sent ++ [bytes "BINARY TCP 1.1 OK\n"]) ∨
    (0 < n ∧ find resp (bytes "BINARY TCP 1.1\n") ≠ none ∧
      bytes_read (recv s1 sizeof_calcProtocol).1 = (sizeof_calcProtocol : Int) ∧
      (decode_calcProtocol order (received (recv s1 sizeof_calcProtocol).1)).type =
        MSG_TYPE_CALC_PROTOCOL ∧
      (decode_calcProtocol order (received (recv s1 sizeof_calcProtocol).1)).major_version =
        MAJOR_VERSION ∧
      (decode_calcProtocol order (received (recv s1 sizeof_calcProtocol).1)).minor_version =
        MINOR_VERSION ∧
      ∃ result,
        calculate (decode_calcProtocol order (received (recv s1 sizeof_calcProtocol).1)).arith
          (decode_calcProtocol order (received (recv s1 sizeof_calcProtocol).1)).inValue1
          (decode_calcProtocol order (received (recv s1 sizeof_calcProtocol).1)).inValue2 =
            some result ∧
        (handleTCPBinary order s).2.sent = s.sent ++ [bytes "BINARY TCP 1.1 OK\n",
          ((decode_calcProtocol order (received (recv s1 sizeof_calcProtocol).1)).hton order
            result).toBytes order] ∧
        (handleTCPBinary order s).1 = .returned
          (decide (bytes_read (recv (recv s1 sizeof_calcProtocol).2 sizeof_calcMessage).1 =
              (sizeof_calcMessage : Int)) &&
            verdict (decode_calcMessage order
              (received (recv (recv s1 sizeof_calcProtocol).2 sizeof_calcMessage).1)))) := by
  have hf := recvGreeting_frame _ _ _ _ _ _ hG
  have hsf := send_frame s1 (bytes "BINARY TCP 1.1 OK\n")
  have hrc := recv_congr (send s1 (bytes "BINARY TCP 1.1 OK\n")).2 s1 sizeof_calcProtocol hsf.1
  have hrf := recv_frame (send s1 (bytes "BINARY TCP 1.1 OK\n")).2 sizeof_calcProtocol
  have hsf2 := fun msg => send_frame (recv (send s1 (bytes "BINARY TCP 1.1 OK\n")).2
    sizeof_calcProtocol).2 msg
  have hrc2 := fun msg => recv_congr (send (recv (send s1 (bytes "BINARY TCP 1.1 OK\n")).2
    sizeof_calcProtocol).2 msg).2 (recv s1 sizeof_calcProtocol).2 sizeof_calcMessage
    (((hsf2 msg).1).trans hrc.2)
  have hrf2 := fun msg => recv_frame (send (recv (send s1 (bytes "BINARY TCP 1.1 OK\n")).2
    sizeof_calcProtocol).2 msg).2 sizeof_calcMessage
  generalize hH : handleTCPBinary order s = H
  unfold handleTCPBinary at hH
  rw [hG] at hH
  simp only [ntoh_ofBytes_calcProtocol] at hH
  rw [hrc.1] at hH
  simp only [hrc2] at hH
  split at hH
  · rename_i hn
    subst hH
    exact Or.inl ⟨Or.inl hn, rfl, hf.1⟩
  rename_i hn
  split at hH
  · rename_i hcap
    subst hH
    exact Or.inl ⟨Or.inr (Or.inl hcap), rfl, hf.1⟩
  rename_i hcap
  split at hH
  · rename_i hs
    subst hH
    have hs' : (send s1 (bytes "BINARY TCP 1.1 OK\n")).1 = false := by simpa using hs
    exact Or.inl ⟨Or.inr (Or.inr (not_sendsSucceed_of_send s s1 _ (Or.inl hf.2.1) hs')), rfl,
      (hsf.2.2.2 hs').trans hf.1⟩
  rename_i hs
  have hs' : (send s1 (bytes "BINARY TCP 1.1 OK\n")).1 = true := by simpa using hs
  have hsent1 : (recv (send s1 (bytes "BINARY TCP 1.1 OK\n")).2 sizeof_calcProtocol).2.sent =
      s.sent ++ [bytes "BINARY TCP 1.1 OK\n"] := by
    rw [hrf.1, hsf.2.2.1 hs', hf.1]
  split at hH
  · rename_i hsz
    subst hH
    exact Or.inr (Or.inl ⟨by omega, hcap, Or.inl hsz, rfl, hsent1⟩)
  rename_i hsz
  split at hH
  · rename_i hchk
    subst hH
    refine Or.inr (Or.inl ⟨by omega, hcap, Or.inr ?_, rfl, hsent1⟩)
    rcases hchk with h | h | h
    · exact Or.inl h
    · exact Or.inr (Or.inl h)
    · exact Or.inr (Or.inr (Or.inl h))
  rename_i hchk
  simp only [not_or, not_not, ne_eq] at hchk hsz
  split at hH
  · rename_i hcalc
    subst hH
    exact Or.inr (Or.inr (Or.inl ⟨by omega, hcap, hsz, hchk.1, hchk.2.1, hchk.2.2, hcalc, rfl,
      hsent1⟩))
  rename_i result hcalc
  split at hH
  · rename_i hs3
    subst hH
    have hs3' : (send (recv (send s1 (bytes "BINARY TCP 1.1 OK\n")).2
        sizeof_calcProtocol).2 (((decode_calcProtocol order
          (received (recv s1 sizeof_calcProtocol).1)).hton order result).toBytes order)).1 =
        false := by simpa using hs3
    refine Or.inr (Or.inl ⟨by omega, hcap, Or.inr (Or.inr (Or.inr (Or.inr ?_))), rfl, ?_⟩)
    · refine not_sendsSucceed_of_send s _ _ (Or.inr ?_) hs3'
      rw [hrf.2.1, send_sendFails, hf.2.1]
    · exact ((hsf2 _).2.2.2 hs3').trans hsent1
  rename_i hs3
  have hs3' : (send (recv (send s1 (bytes "BINARY TCP 1.1 OK\n")).2
      sizeof_calcProtocol).2 (((decode_calcProtocol order
        (received (recv s1 sizeof_calcProtocol).1)).hton order result).toBytes order)).1 =
      true := by simpa using hs3
  have hsent2 := ((hrf2 _).1.trans ((hsf2 _).2.2.1 hs3')).trans (congrArg (· ++ _) hsent1)
  simp only [List.append_assoc, List.singleton_append] at hsent2
  refine Or.inr (Or.inr (Or.inr ⟨by omega, hcap, hsz, hchk.1, hchk.2.1, hchk.2.2, result, hcalc,
    ?_, ?_⟩))
  · subst hH
    split <;> exact hsent2
  · subst hH
    split
    · rename_i hv
      simp [hv]
    · rename_i hv
      simp only [not_not, ne_eq] at hv
      simp [hv, decode_calcMessage]

/-- Every run of `handleUDPBinary`, by the number of messages it has transmitted: nothing
(the greeting could not be sent), the greeting alone with a failure, the greeting alone
because the division had no defined result, or the greeting and the result record, after
which the verdict decides. -/
theorem handleUDPBinary_trace (order : ByteOrder) (u : Socket) :
    (u.sendFails.head? = some true ∧
      (handleUDPBinary order u).1 = .returned false ∧
      (handleUDPBinary order u).2.sent = u.sent) ∨
    ((u.setsockoptFails = true ∨
        bytes_read (recvfrom u 1024).1 ≠ (sizeof_calcProtocol : Int) ∨
        (decode_calcProtocol order (received (recvfrom u 1024).1)).type ≠
          MSG_TYPE_CALC_PROTOCOL ∨
        (decode_calcProtocol order (received (recvfrom u 1024).1)).major_version ≠
          MAJOR_VERSION ∨
        (decode_calcProtocol order (received (recvfrom u 1024).1)).minor_version ≠
          MINOR_VERSION ∨
        ¬ sendsSucceed u) ∧
      (handleUDPBinary order u).1 = .returned false ∧
      (handleUDPBinary order u).2.sent = u.sent ++ [(init_msg order).toBytes order]) ∨
    (u.setsockoptFails = false ∧
      bytes_read (recvfrom u 1024).1 = (sizeof_calcProtocol : Int) ∧
      (decode_calcProtocol order (received (recvfrom u 1024).1)).type =
        MSG_TYPE_CALC_PROTOCOL ∧
      (decode_calcProtocol order (received (recvfrom u 1024).1)).major_version =
        MAJOR_VERSION ∧
      (decode_calcProtocol order (received (recvfrom u 1024).1)).minor_version =
        MINOR_VERSION ∧
      calculate (decode_calcProtocol order (received (recvfrom u 1024).1)).arith
        (decode_calcProtocol order (received (recvfrom u 1024).1)).inValue1
        (decode_calcProtocol order (received (recvfrom u 1024).1)).inValue2 = none ∧
      (handleUDPBinary order u).1 = .undefined ∧
      (handleUDPBinary order u).2.sent = u.sent ++ [(init_msg order).toBytes order]) ∨
    (u.setsockoptFails = false ∧
      bytes_read (recvfrom u 1024).1 = (sizeof_calcProtocol : Int) ∧
      (decode_calcProtocol order (received (recvfrom u 1024).1)).type =
        MSG_TYPE_CALC_PROTOCOL ∧
      (decode_calcProtocol order (received (recvfrom u 1024).1)).major_version =
        MAJOR_VERSION ∧
      (decode_calcProtocol order (received (recvfrom u 1024).1)).minor_version =
        MINOR_VERSION ∧
      ∃ result,
        calculate (decode_calcProtocol order (received (recvfrom u 1024).1)).arith
          (decode_calcProtocol order (received (recvfrom u 1024).1)).inValue1
          (decode_calcProtocol order (received (recvfrom u 1024).1)).inValue2 =
            some result ∧
        (handleUDPBinary order u).2.sent = u.sent ++ [(init_msg order).toBytes order,
          ((decode_calcProtocol order (received (recvfrom u 1024).1)).hton order
            result).toBytes order] ∧
        (handleUDPBinary order u).1 = .returned
          (decide (bytes_read (recvfrom (recvfrom u 1024).2 1024).1 =
              (sizeof_calcMessage : Int)) &&
            verdict ((calcMessage.ofBytes order
              (received (recvfrom (recvfrom u 1024).2 1024).1)).ntoh_head order))) := by
  have hsf := send_frame u ((init_msg order).toBytes order)
  have hrc := recvfrom_congr (send u ((init_msg order).toBytes order)).2 u 1024 hsf.1
  have hrf := recvfrom_frame (send u ((init_msg order).toBytes order)).2 1024
  have hsf2 := fun msg => send_frame (recvfrom (send u ((init_msg order).toBytes order)).2
    1024).2 msg
  have hrc2 := fun msg => recvfrom_congr (send (recvfrom (send u
    ((init_msg order).toBytes order)).2 1024).2 msg).2 (recvfrom u 1024).2 1024
    (((hsf2 msg).1).trans hrc.2)
  have hrf2 := fun msg => recvfrom_frame (send (recvfrom (send u
    ((init_msg order).toBytes order)).2 1024).2 msg).2 1024
  generalize hH : handleUDPBinary order u = H
  unfold handleUDPBinary at hH
  simp only [ntoh_ofBytes_calcProtocol] at hH
  rw [hrc.1] at hH
  simp only [hrc2] at hH
  split at hH
  · rename_i hs
    subst hH
    have hs' : (send u ((init_msg order).toBytes order)).1 = false := by simpa using hs
    exact Or.inl ⟨(send_fst_eq_false_iff u _).mp hs', rfl, hsf.2.2.2 hs'⟩
  rename_i hs
  have hs' : (send u ((init_msg order).toBytes order)).1 = true := by simpa using hs
  have hsent0 := hsf.2.2.1 hs'
  have hsent1 : (recvfrom (send u ((init_msg order).toBytes order)).2 1024).2.sent =
      u.sent ++ [(init_msg order).toBytes order] := by
    rw [hrf.1, hsent0]
  split at hH
  · rename_i hopt
    subst hH
    rw [hsf.2.1] at hopt
    exact Or.inr (Or.inl ⟨Or.inl hopt, rfl, hsent0⟩)
  rename_i hopt
  rw [hsf.2.1] at hopt
  have hopt' : u.setsockoptFails = false := by simpa using hopt
  split at hH
  · rename_i hneg
    subst hH
    refine Or.inr (Or.inl ⟨Or.inr (Or.inl ?_), rfl, hsent1⟩)
    simp only [sizeof_calcProtocol_eq]
    omega
  split at hH
  · rename_i hnok
    subst hH
    refine Or.inr (Or.inl ⟨Or.inr (Or.inl ?_), rfl, hsent1⟩)
    rw [hnok.1]
    simp only [sizeof_calcProtocol_eq, sizeof_calcMessage_eq]
    decide
  split at hH
  · rename_i hsz
    subst hH
    exact Or.inr (Or.inl ⟨Or.inr (Or.inl hsz), rfl, hsent1⟩)
  rename_i hsz
  split at hH
  · rename_i hchk
    subst hH
    refine Or.inr (Or.inl ⟨Or.inr (Or.inr ?_), rfl, hsent1⟩)
    rcases hchk with h | h | h
    · exact Or.inl h
    · exact Or.inr (Or.inl h)
    · exact Or.inr (Or.inr (Or.inl h))
  rename_i hchk
  simp only [not_or, not_not, ne_eq] at hchk hsz
  split at hH
  · rename_i hcalc
    subst hH
    exact Or.inr (Or.inr (Or.inl ⟨hopt', hsz, hchk.1, hchk.2.1, hchk.2.2, hcalc, rfl,
      hsent1⟩))
  rename_i result hcalc
  split at hH
  · rename_i hs3
    subst hH
    have hs3' : (send (recvfrom (send u ((init_msg order).toBytes order)).2 1024).2
        (((decode_calcProtocol order (received (recvfrom u 1024).1)).hton order
          result).toBytes order)).1 = false := by simpa using hs3
    refine Or.inr (Or.inl ⟨Or.inr (Or.inr (Or.inr (Or.inr (Or.inr ?_)))), rfl, ?_⟩)
    · refine not_sendsSucceed_of_send u _ _ (Or.inr ?_) hs3'
      rw [hrf.2.1, send_sendFails]
    · exact ((hsf2 _).2.2.2 hs3').trans hsent1
  rename_i hs3
  have hs3' : (send (recvfrom (send u ((init_msg order).toBytes order)).2 1024).2
      (((decode_calcProtocol order (received (recvfrom u 1024).1)).hton order
        result).toBytes order)).1 = true := by simpa using hs3
  have hsent2 := ((hrf2 _).1.trans ((hsf2 _).2.2.1 hs3')).trans (congrArg (· ++ _) hsent1)
  simp only [List.append_assoc, List.singleton_append] at hsent2
  refine Or.inr (Or.inr (Or.inr ⟨hopt', hsz, hchk.1, hchk.2.1, hchk.2.2, result, hcalc,
    ?_, ?_⟩))
  · subst hH
    split
    · exact hsent2
    · split <;> exact hsent2
  · subst hH
    split
    · rename_i hv
      have : bytes_read (recvfrom (recvfrom u 1024).2 1024).1 ≠ (sizeof_calcMessage : Int) := by
        simp only [sizeof_calcMessage_eq]
        omega
      simp [this]
    · split
      · rename_i hv
        simp [hv]
      · rename_i hv
        simp only [not_not, ne_eq] at hv
        simp [hv]

/-- Every run of `handleTCPText`, by the number of messages it has transmitted: nothing (the
greeting failed, or the acceptance could not be sent), the acceptance alone with a failure,
the acceptance alone because the division had no defined result, or the acceptance and the
result line, after which the verdict decides. -/
theorem handleTCPText_trace (s : Socket) (n : Int) (resp : List Nat)
    (s1 : Socket) (hG : recvGreeting (pending s + 1) s [] = some (n, resp, s1)) :
    ((n ≤ 0 ∨ find resp (bytes "TEXT TCP 1.1\n") = none ∨ ¬ sendsSucceed s) ∧
      (handleTCPText s).1 = .returned false ∧
      (handleTCPText s).2.sent = s.sent) ∨
    (0 < n ∧ find resp (bytes "TEXT TCP 1.1\n") ≠ none ∧
      (bytes_read (recv s1 1023).1 ≤ 0 ∨
        extractAssignment (pop_newline (c_str (received (recv s1 1023).1))) = none ∨
        ¬ sendsSucceed s) ∧
      (handleTCPText s).1 = .returned false ∧
      (handleTCPText s).2.sent = s.sent ++ [bytes "TEXT TCP 1.1 OK\n"]) ∨
    (0 < n ∧ find resp (bytes "TEXT TCP 1.1\n") ≠ none ∧
      0 < bytes_read (recv s1 1023).1 ∧
      ∃ operation value1 value2,
        extractAssignment (pop_newline (c_str (received (recv s1 1023).1))) =
          some (operation, value1, value2) ∧
        calculate (string_to_operation operation) value1 value2 = none ∧
        (handleTCPText s).1 = .undefined ∧
        (handleTCPText s).2.sent = s.sent ++ [bytes "TEXT TCP 1.1 OK\n"]) ∨
    (0 < n ∧ find resp (bytes "TEXT TCP 1.1\n") ≠ none ∧
      0 < bytes_read (recv s1 1023).1 ∧
      ∃ operation value1 value2 result,
        extractAssignment (pop_newline (c_str (received (recv s1 1023).1))) =
          some (operation, value1, value2) ∧
        calculate (string_to_operation operation) value1 value2 = some result ∧
        (handleTCPText s).2.sent =
          s.sent ++ [bytes "TEXT TCP 1.1 OK\n", to_string result ++ bytes "\n"] ∧
        (handleTCPText s).1 = .returned
          (decide (0 < bytes_read (recv (recv s1 1023).2 1023).1) &&
            decide (pop_newline (c_str (received (recv (recv s1 1023).2 1023).1)) =
              bytes "OK"))) := by
  have hf := recvGreeting_frame _ _ _ _ _ _ hG
  have hsf := send_frame s1 (bytes "TEXT TCP 1.1 OK\n")
  have hrc := recv_congr (send s1 (bytes "TEXT TCP 1.1 OK\n")).2 s1 1023 hsf.1
  have hrf := recv_frame (send s1 (bytes "TEXT TCP 1.1 OK\n")).2 1023
  have hsf2 := fun msg => send_frame (recv (send s1 (bytes "TEXT TCP 1.1 OK\n")).2 1023).2 msg
  have hrc2 := fun msg => recv_congr (send (recv (send s1 (bytes "TEXT TCP 1.1 OK\n")).2
    1023).2 msg).2 (recv s1 1023).2 1023 (((hsf2 msg).1).trans hrc.2)
  have hrf2 := fun msg => recv_frame (send (recv (send s1 (bytes "TEXT TCP 1.1 OK\n")).2
    1023).2 msg).2 1023
  generalize hH : handleTCPText s = H
  unfold handleTCPText at hH
  rw [hG] at hH
  simp only [] at hH
  rw [hrc.1] at hH
  simp only [hrc2] at hH
  split at hH
  · rename_i hn
    subst hH
    exact Or.inl ⟨Or.inl hn, rfl, hf.1⟩
  rename_i hn
  split at hH
  · rename_i hcap
    subst hH
    exact Or.inl ⟨Or.inr (Or.inl hcap), rfl, hf.1⟩
  rename_i hcap
  split at hH
  · rename_i hs
    subst hH
    have hs' : (send s1 (bytes "TEXT TCP 1.1 OK\n")).1 = false := by simpa using hs
    exact Or.inl ⟨Or.inr (Or.inr (not_sendsSucceed_of_send s s1 _ (Or.inl hf.2.1) hs')), rfl,
      (hsf.2.2.2 hs').trans hf.1⟩
  rename_i hs
  have hs' : (send s1 (bytes "TEXT TCP 1.1 OK\n")).1 = true := by simpa using hs
  have hsent1 : (recv (send s1 (bytes "TEXT TCP 1.1 OK\n")).2 1023).2.sent =
      s.sent ++ [bytes "TEXT TCP 1.1 OK\n"] := by
    rw [hrf.1, hsf.2.2.1 hs', hf.1]
  split at hH
  · rename_i hsz
    subst hH
    exact Or.inr (Or.inl ⟨by omega, hcap, Or.inl hsz, rfl, hsent1⟩)
  rename_i hsz
  split at hH
  · rename_i hparse
    subst hH
    exact Or.inr (Or.inl ⟨by omega, hcap, Or.inr (Or.inl hparse), rfl, hsent1⟩)
  rename_i operation value1 value2 hparse
  split at hH
  · rename_i hcalc
    subst hH
    exact Or.inr (Or.inr (Or.inl ⟨by omega, hcap, by omega, operation, value1, value2, hparse,
      hcalc, rfl, hsent1⟩))
  rename_i result hcalc
  split at hH
  · rename_i hs3
    subst hH
    have hs3' : (send (recv (send s1 (bytes "TEXT TCP 1.1 OK\n")).2 1023).2
        (to_string result ++ bytes "\n")).1 = false := by simpa using hs3
    refine Or.inr (Or.inl ⟨by omega, hcap, Or.inr (Or.inr ?_), rfl, ?_⟩)
    · refine not_sendsSucceed_of_send s _ _ (Or.inr ?_) hs3'
      rw [hrf.2.1, send_sendFails, hf.2.1]
    · exact ((hsf2 _).2.2.2 hs3').trans hsent1
  rename_i hs3
  have hs3' : (send (recv (send s1 (bytes "TEXT TCP 1.1 OK\n")).2 1023).2
      (to_string result ++ bytes "\n")).1 = true := by simpa using hs3
  have hsent2 := ((hrf2 _).1.trans ((hsf2 _).2.2.1 hs3')).trans (congrArg (· ++ _) hsent1)
  simp only [List.append_assoc, List.singleton_append] at hsent2
  refine Or.inr (Or.inr (Or.inr ⟨by omega, hcap, by omega, operation, value1, value2, result,
    hparse, hcalc, ?_, ?_⟩))
  · subst hH
    split
    · exact hsent2
    · split <;> exact hsent2
  · subst hH
    split
    · rename_i hv
      simp [hv]
    · rename_i hv
      split
      · rename_i hok
        simp [hok]
        omega
      · rename_i hok
        simp [hok]

/-- Every run of `handleUDPText`, by the number of messages it has transmitted: nothing (the
greeting could not be sent), the greeting alone with a failure, the greeting alone because
the division had no defined result, or the greeting and the result line, after which the
verdict decides. -/
theorem handleUDPText_trace (u : Socket) :
    (¬ sendsSucceed u ∧
      (handleUDPText u).1 = .returned false ∧
      (handleUDPText u).2.sent = u.sent) ∨
    ((u.setsockoptFails = true ∨ bytes_read (recvfrom u 1023).1 < 0 ∨
        extractAssignment (pop_newline (c_str (received (recvfrom u 1023).1))) = none ∨
        ¬ sendsSucceed u) ∧
      (handleUDPText u).1 = .returned false ∧
      (handleUDPText u).2.sent = u.sent ++ [bytes "TEXT UDP 1.1\n"]) ∨
    (u.setsockoptFails = false ∧ 0 ≤ bytes_read (recvfrom u 1023).1 ∧
      ∃ operation value1 value2,
        extractAssignment (pop_newline (c_str (received (recvfrom u 1023).1))) =
          some (operation, value1, value2) ∧
        calculate (string_to_operation operation) value1 value2 = none ∧
        (handleUDPText u).1 = .undefined ∧
        (handleUDPText u).2.sent = u.sent ++ [bytes "TEXT UDP 1.1\n"]) ∨
    (u.setsockoptFails = false ∧ 0 ≤ bytes_read (recvfrom u 1023).1 ∧
      ∃ operation value1 value2 result,
        extractAssignment (pop_newline (c_str (received (recvfrom u 1023).1))) =
          some (operation, value1, value2) ∧
        calculate (string_to_operation operation) value1 value2 = some result ∧
        (handleUDPText u).2.sent =
          u.sent ++ [bytes "TEXT UDP 1.1\n", to_string result ++ bytes "\n"] ∧
        (handleUDPText u).1 = .returned
          (decide (0 ≤ bytes_read (recvfrom (recvfrom u 1023).2 1023).1) &&
            decide (pop_newline (c_str (received (recvfrom (recvfrom u 1023).2 1023).1)) =
              bytes "OK"))) := by
  have hsf := send_frame u (bytes "TEXT UDP 1.1\n")
  have hrc := recvfrom_congr (send u (bytes "TEXT UDP 1.1\n")).2 u 1023 hsf.1
  have hrf := recvfrom_frame (send u (bytes "TEXT UDP 1.1\n")).2 1023
  have hsf2 := fun msg => send_frame (recvfrom (send u (bytes "TEXT UDP 1.1\n")).2 1023).2 msg
  have hrc2 := fun msg => recvfrom_congr (send (recvfrom (send u (bytes "TEXT UDP 1.1\n")).2
    1023).2 msg).2 (recvfrom u 1023).2 1023 (((hsf2 msg).1).trans hrc.2)
  have hrf2 := fun msg => recvfrom_frame (send (recvfrom (send u (bytes "TEXT UDP 1.1\n")).2
    1023).2 msg).2 1023
  generalize hH : handleUDPText u = H
  unfold handleUDPText at hH
  simp only [] at hH
  rw [hrc.1] at hH
  simp only [hrc2] at hH
  split at hH
  · rename_i hs
    subst hH
    have hs' : (send u (bytes "TEXT UDP 1.1\n")).1 = false := by simpa using hs
    exact Or.inl ⟨not_sendsSucceed_of_send u u _ (Or.inl rfl) hs', rfl, hsf.2.2.2 hs'⟩
  rename_i hs
  have hs' : (send u (bytes "TEXT UDP 1.1\n")).1 = true := by simpa using hs
  have hsent0 := hsf.2.2.1 hs'
  have hsent1 : (recvfrom (send u (bytes "TEXT UDP 1.1\n")).2 1023).2.sent =
      u.sent ++ [bytes "TEXT UDP 1.1\n"] := by
    rw [hrf.1, hsent0]
  split at hH
  · rename_i hopt
    subst hH
    rw [hsf.2.1] at hopt
    exact Or.inr (Or.inl ⟨Or.inl hopt, rfl, hsent0⟩)
  rename_i hopt
  rw [hsf.2.1] at hopt
  have hopt' : u.setsockoptFails = false := by simpa using hopt
  split at hH
  · rename_i hneg
    subst hH
    exact Or.inr (Or.inl ⟨Or.inr (Or.inl hneg), rfl, hsent1⟩)
  rename_i hneg
  split at hH
  · rename_i hparse
    subst hH
    exact Or.inr (Or.inl ⟨Or.inr (Or.inr (Or.inl hparse)), rfl, hsent1⟩)
  rename_i operation value1 value2 hparse
  split at hH
  · rename_i hcalc
    subst hH
    exact Or.inr (Or.inr (Or.inl ⟨hopt', by omega, operation, value1, value2, hparse,
      hcalc, rfl, hsent1⟩))
  rename_i result hcalc
  split at hH
  · rename_i hs3
    subst hH
    have hs3' : (send (recvfrom (send u (bytes "TEXT UDP 1.1\n")).2 1023).2
        (to_string result ++ bytes "\n")).1 = false := by simpa using hs3
    refine Or.inr (Or.inl ⟨Or.inr (Or.inr (Or.inr ?_)), rfl, ?_⟩)
    · refine not_sendsSucceed_of_send u _ _ (Or.inr ?_) hs3'
      rw [hrf.2.1, send_sendFails]
    · exact ((hsf2 _).2.2.2 hs3').trans hsent1
  rename_i hs3
  have hs3' : (send (recvfrom (send u (bytes "TEXT UDP 1.1\n")).2 1023).2
      (to_string result ++ bytes "\n")).1 = true := by simpa using hs3
  have hsent2 := ((hrf2 _).1.trans ((hsf2 _).2.2.1 hs3')).trans (congrArg (· ++ _) hsent1)
  simp only [List.append_assoc, List.singleton_append] at hsent2
  refine Or.inr (Or.inr (Or.inr ⟨hopt', by omega, operation, value1, value2, result,
    hparse, hcalc, ?_, ?_⟩))
  · subst hH
    split
    · exact hsent2
    · split <;> exact hsent2
  · subst hH
    split
    · rename_i hv
      have : ¬ (0 ≤ bytes_read (recvfrom (recvfrom u 1023).2 1023).1) := by omega
      simp [this]
    · rename_i hv
      split
      · rename_i hok
        simp [hok]
        omega
      · rename_i hok
        simp [hok]

/-- The record the binary routines send back, in terms of the 26 bytes they received: the
first 22 bytes (type, version, id, operation and operands) are the received ones, the last
four are the big-endian encoding of the result. -/
theorem hton_decode_toBytes (order : ByteOrder) (b : List Nat) (hlen : b.length = 26)
    (hb : allBytes b) (result : Int) :
    ((decode_calcProtocol order b).hton order result).toBytes order =
      b.take 22 ++ be32 (toUInt32 result) := by
  rw [hton_toBytes_wire, decode_calcProtocol_wire order b hb]
  rcases b with _ | ⟨b0, b⟩
  · simp at hlen
  rcases b with _ | ⟨b1, b⟩
  · simp at hlen
  rcases b with _ | ⟨b2, b⟩
  · simp at hlen
  rcases b with _ | ⟨b3, b⟩
  · simp at hlen
  rcases b with _ | ⟨b4, b⟩
  · simp at hlen
  rcases b with _ | ⟨b5, b⟩
  · simp at hlen
  rcases b with _ | ⟨b6, b⟩
  · simp at hlen
  rcases b with _ | ⟨b7, b⟩
  · simp at hlen
  rcases b with _ | ⟨b8, b⟩
  · simp at hlen
  rcases b with _ | ⟨b9, b⟩
  · simp at hlen
  rcases b with _ | ⟨b10, b⟩
  · simp at hlen
  rcases b with _ | ⟨b11, b⟩
  · simp at hlen
  rcases b with _ | ⟨b12, b⟩
  · simp at hlen
  rcases b with _ | ⟨b13, b⟩
  · simp at hlen
  rcases b with _ | ⟨b14, b⟩
  · simp at hlen
  rcases b with _ | ⟨b15, b⟩
  · simp at hlen
  rcases b with _ | ⟨b16, b⟩
  · simp at hlen
  rcases b with _ | ⟨b17, b⟩
  · simp at hlen
  rcases b with _ | ⟨b18, b⟩
  · simp at hlen
  rcases b with _ | ⟨b19, b⟩
  · simp at hlen
  rcases b with _ | ⟨b20, b⟩
  · simp at hlen
  rcases b with _ | ⟨b21, b⟩
  · simp at hlen
  rcases b with _ | ⟨b22, b⟩
  · simp at hlen
  rcases b with _ | ⟨b23, b⟩
  · simp at hlen
  rcases b with _ | ⟨b24, b⟩
  · simp at hlen
  rcases b with _ | ⟨b25, b⟩
  · simp at hlen
  rcases b with _ | ⟨x, b⟩
  swap
  · simp at hlen
  simp only [allBytes, List.mem_cons, List.mem_singleton, List.not_mem_nil, or_false,
    forall_eq_or_imp, forall_eq] at hb
  obtain ⟨h0, h1, h2, h3, h4, h5, h6, h7, h8, h9, h10, h11, h12, h13, h14, h15, h16, h17, h18,
    h19, h20, h21, -⟩ := hb
  have e1 : toUInt32 (toInt32 (16777216 * b14 + 65536 * b15 + 256 * b16 + b17)) =
      16777216 * b14 + 65536 * b15 + 256 * b16 + b17 := toUInt32_toInt32 (by omega)
  have e2 : toUInt32 (toInt32 (16777216 * b18 + 65536 * b19 + 256 * b20 + b21)) =
      16777216 * b18 + 65536 * b19 + 256 * b20 + b21 := toUInt32_toInt32 (by omega)
  simp only [List.getD_cons_zero, List.getD_cons_succ, e1, e2, be16, be32, List.take_succ_cons,
    List.take_zero, List.cons_append, List.nil_append, List.cons.injEq, and_true]
  omega

/-- The count a receive call returns is the number of bytes it stored. -/
theorem length_received (x : Option (List Nat)) (k : Nat) (h : bytes_read x = (k : Int)) :
    (received x).length = k := by
  cases x with
  | none => simp [bytes_read] at h
  | some d => simpa [bytes_read, received] using h

/-- The operation and the operands the binary routines decode do not depend on the last four
bytes of the record, which hold the result field. -/
theorem decode_calcProtocol_take (order : ByteOrder) (b r : List Nat) (hlen : b.length = 26) :
    (decode_calcProtocol order (b.take 22 ++ r)).arith = (decode_calcProtocol order b).arith ∧
    (decode_calcProtocol order (b.take 22 ++ r)).inValue1 =
      (decode_calcProtocol order b).inValue1 ∧
    (decode_calcProtocol order (b.take 22 ++ r)).inValue2 =
      (decode_calcProtocol order b).inValue2 := by
  rcases b with _ | ⟨b0, b⟩
  · simp at hlen
  rcases b with _ | ⟨b1, b⟩
  · simp at hlen
  rcases b with _ | ⟨b2, b⟩
  · simp at hlen
  rcases b with _ | ⟨b3, b⟩
  · simp at hlen
  rcases b with _ | ⟨b4, b⟩
  · simp at hlen
  rcases b with _ | ⟨b5, b⟩
  · simp at hlen
  rcases b with _ | ⟨b6, b⟩
  · simp at hlen
  rcases b with _ | ⟨b7, b⟩
  · simp at hlen
  rcases b with _ | ⟨b8, b⟩
  · simp at hlen
  rcases b with _ | ⟨b9, b⟩
  · simp at hlen
  rcases b with _ | ⟨b10, b⟩
  · simp at hlen
  rcases b with _ | ⟨b11, b⟩
  · simp at hlen
  rcases b with _ | ⟨b12, b⟩
  · simp at hlen
  rcases b with _ | ⟨b13, b⟩
  · simp at hlen
  rcases b with _ | ⟨b14, b⟩
  · simp at hlen
  rcases b with _ | ⟨b15, b⟩
  · simp at hlen
  rcases b with _ | ⟨b16, b⟩
  · simp at hlen
  rcases b with _ | ⟨b17, b⟩
  · simp at hlen
  rcases b with _ | ⟨b18, b⟩
  · simp at hlen
  rcases b with _ | ⟨b19, b⟩
  · simp at hlen
  rcases b with _ | ⟨b20, b⟩
  · simp at hlen
  rcases b with _ | ⟨b21, b⟩
  · simp at hlen
  rcases b with _ | ⟨b22, b⟩
  · simp at hlen
  rcases b with _ | ⟨b23, b⟩
  · simp at hlen
  rcases b with _ | ⟨b24, b⟩
  · simp at hlen
  rcases b with _ | ⟨b25, b⟩
  · simp at hlen
  simp [decode_calcProtocol, calcProtocol.ofBytes, calcProtocol.ntoh]

/-! ## Theorems: the result record and the verdict of the binary routines -/

/-- C21: whenever a binary routine sends a record back, that record is the received
assignment record with only the result field changed: its first 22 bytes (type, major,
minor, id, operation and both operands) are the received bytes, and its last four bytes are
the big-endian encoding of `calculate` applied to the decoded operation and operands, which
do not depend on the received result field. -/
theorem result_record_frame (order : ByteOrder) (s u : Socket) (n : Int) (resp : List Nat)
    (s1 : Socket) (hG : recvGreeting (pending s + 1) s [] = some (n, resp, s1))
    (hs : allBytes (received (recv s1 sizeof_calcProtocol).1))
    (hu : allBytes (received (recvfrom u 1024).1)) :
    (∀ record,
      (handleTCPBinary order s).2.sent = s.sent ++ [bytes "BINARY TCP 1.1 OK\n", record] →
      (received (recv s1 sizeof_calcProtocol).1).length = 26 ∧
      ∃ result,
        calculate (decode_calcProtocol order (received (recv s1 sizeof_calcProtocol).1)).arith
          (decode_calcProtocol order (received (recv s1 sizeof_calcProtocol).1)).inValue1
          (decode_calcProtocol order (received (recv s1 sizeof_calcProtocol).1)).inValue2 =
            some result ∧
        record = (received (recv s1 sizeof_calcProtocol).1).take 22 ++
          be32 (toUInt32 result) ∧
        ∀ r, calculate
          (decode_calcProtocol order
            ((received (recv s1 sizeof_calcProtocol).1).take 22 ++ r)).arith
          (decode_calcProtocol order
            ((received (recv s1 sizeof_calcProtocol).1).take 22 ++ r)).inValue1
          (decode_calcProtocol order
            ((received (recv s1 sizeof_calcProtocol).1).take 22 ++ r)).inValue2 =
            some result) ∧
    (∀ record,
      (handleUDPBinary order u).2.sent = u.sent ++ [(init_msg order).toBytes order, record] →
      (received (recvfrom u 1024).1).length = 26 ∧
      ∃ result,
        calculate (decode_calcProtocol order (received (recvfrom u 1024).1)).arith
          (decode_calcProtocol order (received (recvfrom u 1024).1)).inValue1
          (decode_calcProtocol order (received (recvfrom u 1024).1)).inValue2 =
            some result ∧
        record = (received (recvfrom u 1024).1).take 22 ++ be32 (toUInt32 result) ∧
        ∀ r, calculate
          (decode_calcProtocol order ((received (recvfrom u 1024).1).take 22 ++ r)).arith
          (decode_calcProtocol order ((received (recvfrom u 1024).1).take 22 ++ r)).inValue1
          (decode_calcProtocol order ((received (recvfrom u 1024).1).take 22 ++ r)).inValue2 =
            some result) := by
  constructor
  · intro record hsent
    rcases handleTCPBinary_trace order s n resp s1 hG with h | h | h | h
    · rw [h.2.2] at hsent
      simp at hsent
    · rw [h.2.2.2.2] at hsent
      simp at hsent
    · rw [h.2.2.2.2.2.2.2.2] at hsent
      simp at hsent
    · obtain ⟨-, -, hsz, -, -, -, result, hcalc, hsnt, -⟩ := h
      rw [hsnt] at hsent
      simp only [List.append_cancel_left_eq, List.cons.injEq, true_and, and_true] at hsent
      have hlen : (received (recv s1 sizeof_calcProtocol).1).length = 26 :=
        length_received _ 26 (by rw [hsz, sizeof_calcProtocol_eq])
      refine ⟨hlen, result, hcalc, ?_, ?_⟩
      · rw [← hsent, hton_decode_toBytes order _ hlen hs]
      · intro r
        obtain ⟨e1, e2, e3⟩ := decode_calcProtocol_take order _ r hlen
        rw [e1, e2, e3]
        exact hcalc
  · intro record hsent
    rcases handleUDPBinary_trace order u with h | h | h | h
    · rw [h.2.2] at hsent
      simp at hsent
    · rw [h.2.2] at hsent
      simp at hsent
    · rw [h.2.2.2.2.2.2.2] at hsent
      simp at hsent
    · obtain ⟨-, hsz, -, -, -, result, hcalc, hsnt, -⟩ := h
      rw [hsnt] at hsent
      simp only [List.append_cancel_left_eq, List.cons.injEq, true_and, and_true] at hsent
      have hlen : (received (recvfrom u 1024).1).length = 26 :=
        length_received _ 26 (by rw [hsz, sizeof_calcProtocol_eq])
      refine ⟨hlen, result, hcalc, ?_, ?_⟩
      · rw [← hsent, hton_decode_toBytes order _ hlen hu]
      · intro r
        obtain ⟨e1, e2, e3⟩ := decode_calcProtocol_take order _ r hlen
        rw [e1, e2, e3]
        exact hcalc

theorem result_record_frame_witness :
    (∃ result, calculate 3 (-6) 7 = some result ∧
      [0, 1, 0, 1, 0, 1, 0, 0, 0, 7, 0, 0, 0, 3, 255, 255, 255, 250, 0, 0, 0, 7,
        255, 255, 255, 214] =
      [0, 1, 0, 1, 0, 1, 0, 0, 0, 7, 0, 0, 0, 3, 255, 255, 255, 250, 0, 0, 0, 7] ++
        be32 (toUInt32 result)) ∧
    (∃ result, calculate 4 7 2 = some result ∧
      [0, 1, 0, 1, 0, 1, 1, 2, 3, 4, 0, 0, 0, 4, 0, 0, 0, 7, 0, 0, 0, 2, 0, 0, 0, 3] =
      [0, 1, 0, 1, 0, 1, 1, 2, 3, 4, 0, 0, 0, 4, 0, 0, 0, 7, 0, 0, 0, 2] ++
        be32 (toUInt32 result)) :=
  have h := result_record_frame .little
    ⟨[.data (bytes "BINARY TCP 1.1\n\n"),
      .data [0, 1, 0, 1, 0, 1, 0, 0, 0, 7, 0, 0, 0, 3, 255, 255, 255, 250, 0, 0, 0, 7,
        9, 9, 9, 9],
      .data [0, 22, 0, 1, 0, 17, 0, 1, 0, 1]], [], false, []⟩
    ⟨[.data [0, 1, 0, 1, 0, 1, 1, 2, 3, 4, 0, 0, 0, 4, 0, 0, 0, 7, 0, 0, 0, 2,
        200, 100, 50, 25],
      .data [0, 22, 0, 2, 0, 17, 0, 1, 0, 1]], [], false, []⟩
    16 (bytes "BINARY TCP 1.1\n\n")
    ⟨[.data [0, 1, 0, 1, 0, 1, 0, 0, 0, 7, 0, 0, 0, 3, 255, 255, 255, 250, 0, 0, 0, 7,
        9, 9, 9, 9],
      .data [0, 22, 0, 1, 0, 17, 0, 1, 0, 1]], [], false, []⟩
    (by decide) (by decide) (by decide)
  have h1 := (h.1 [0, 1, 0, 1, 0, 1, 0, 0, 0, 7, 0, 0, 0, 3, 255, 255, 255, 250, 0, 0, 0, 7,
    255, 255, 255, 214] (by decide)).2
  have h2 := (h.2 [0, 1, 0, 1, 0, 1, 1, 2, 3, 4, 0, 0, 0, 4, 0, 0, 0, 7, 0, 0, 0, 2,
    0, 0, 0, 3] (by decide)).2
  ⟨h1.elim fun result hr => ⟨result, hr.1, hr.2.1⟩,
    h2.elim fun result hr => ⟨result, hr.1, hr.2.1⟩⟩

/-- C22: the greeting of `handleUDPBinary` is the 10-byte control message with type 22,
message code 0, protocol id 17, major 1 and minor 1, each field an unsigned 16-bit
big-endian value whatever the host byte order: the bytes 00 16 00 00 00 11 00 01 00 01. It
is the first message the routine transmits, if it transmits any, and it is transmitted
whenever the first send call does not fail. -/
theorem udp_binary_greeting (order : ByteOrder) (u : Socket) :
    (init_msg order).toBytes order = [0, 22, 0, 0, 0, 17, 0, 1, 0, 1] ∧
    (init_msg order).toBytes order =
      be16 MSG_TYPE_CALC_MESSAGE ++ be16 0 ++ be16 PROTOCOL_UDP ++ be16 MAJOR_VERSION ++
        be16 MINOR_VERSION ∧
    ((init_msg order).toBytes order).length = sizeof_calcMessage ∧
    decode_calcMessage order ((init_msg order).toBytes order) =
      { type := 22, message := 0, protocol := 17, major_version := 1, minor_version := 1 } ∧
    ((handleUDPBinary order u).2.sent = u.sent ∨
      ∃ rest, (handleUDPBinary order u).2.sent =
        u.sent ++ [0, 22, 0, 0, 0, 17, 0, 1, 0, 1] :: rest) ∧
    (u.sendFails.head? ≠ some true →
      ∃ rest, (handleUDPBinary order u).2.sent =
        u.sent ++ [0, 22, 0, 0, 0, 17, 0, 1, 0, 1] :: rest) := by
  have hb : (init_msg order).toBytes order = [0, 22, 0, 0, 0, 17, 0, 1, 0, 1] := by
    rw [init_msg_toBytes]
    decide
  have hcases : (u.sendFails.head? = some true ∧ (handleUDPBinary order u).2.sent = u.sent) ∨
      ∃ rest, (handleUDPBinary order u).2.sent =
        u.sent ++ [0, 22, 0, 0, 0, 17, 0, 1, 0, 1] :: rest := by
    rcases handleUDPBinary_trace order u with h | h | h | h
    · exact Or.inl ⟨h.1, h.2.2⟩
    · exact Or.inr ⟨[], by rw [h.2.2, hb]⟩
    · exact Or.inr ⟨[], by rw [h.2.2.2.2.2.2.2, hb]⟩
    · obtain ⟨-, -, -, -, -, result, -, hsnt, -⟩ := h
      exact Or.inr ⟨_, by rw [hsnt, hb]⟩
  refine ⟨hb, init_msg_toBytes order, ?_, ?_, ?_, ?_⟩
  · rw [hb]
    decide
  · rw [hb]
    cases order <;> decide
  · rcases hcases with h | h
    · exact Or.inl h.2
    · exact Or.inr h
  · intro hne
    rcases hcases with h | h
    · exact absurd h.1 hne
    · exact h

theorem udp_binary_greeting_witness :
    ∃ rest, (handleUDPBinary .big ⟨[], [false, true], false, [bytes "earlier"]⟩).2.sent =
      [bytes "earlier"] ++ [0, 22, 0, 0, 0, 17, 0, 1, 0, 1] :: rest :=
  (udp_binary_greeting .big ⟨[], [false, true], false, [bytes "earlier"]⟩).2.2.2.2.2
    (by decide)

/-- C23: a binary routine sends a result record only if the assignment record it received
decodes to message type 1, major version 1 and minor version 1; when one of the three fields
differs the routine returns failure having sent nothing beyond its acceptance or greeting,
and it returns so without evaluating `calculate`, also for operands on which the division is
not defined. -/
theorem result_only_if_type_version (order : ByteOrder) (s u : Socket) (n : Int)
    (resp : List Nat) (s1 : Socket)
    (hG : recvGreeting (pending s + 1) s [] = some (n, resp, s1)) :
    (∀ record,
      (handleTCPBinary order s).2.sent = s.sent ++ [bytes "BINARY TCP 1.1 OK\n", record] →
      (decode_calcProtocol order (received (recv s1 sizeof_calcProtocol).1)).type =
        MSG_TYPE_CALC_PROTOCOL ∧
      (decode_calcProtocol order (received (recv s1 sizeof_calcProtocol).1)).major_version =
        MAJOR_VERSION ∧
      (decode_calcProtocol order (received (recv s1 sizeof_calcProtocol).1)).minor_version =
        MINOR_VERSION) ∧
    (bytes_read (recv s1 sizeof_calcProtocol).1 = (sizeof_calcProtocol : Int) →
      ((decode_calcProtocol order (received (recv s1 sizeof_calcProtocol).1)).type ≠
          MSG_TYPE_CALC_PROTOCOL ∨
        (decode_calcProtocol order (received (recv s1 sizeof_calcProtocol).1)).major_version ≠
          MAJOR_VERSION ∨
        (decode_calcProtocol order (received (recv s1 sizeof_calcProtocol).1)).minor_version ≠
          MINOR_VERSION) →
      (handleTCPBinary order s).1 = .returned false ∧
      ((handleTCPBinary order s).2.sent = s.sent ∨
        (handleTCPBinary order s).2.sent = s.sent ++ [bytes "BINARY TCP 1.1 OK\n"])) ∧
    (∀ record,
      (handleUDPBinary order u).2.sent = u.sent ++ [(init_msg order).toBytes order, record] →
      (decode_calcProtocol order (received (recvfrom u 1024).1)).type =
        MSG_TYPE_CALC_PROTOCOL ∧
      (decode_calcProtocol order (received (recvfrom u 1024).1)).major_version =
        MAJOR_VERSION ∧
      (decode_calcProtocol order (received (recvfrom u 1024).1)).minor_version =
        MINOR_VERSION) ∧
    (bytes_read (recvfrom u 1024).1 = (sizeof_calcProtocol : Int) →
      ((decode_calcProtocol order (received (recvfrom u 1024).1)).type ≠
          MSG_TYPE_CALC_PROTOCOL ∨
        (decode_calcProtocol order (received (recvfrom u 1024).1)).major_version ≠
          MAJOR_VERSION ∨
        (decode_calcProtocol order (received (recvfrom u 1024).1)).minor_version ≠
          MINOR_VERSION) →
      (handleUDPBinary order u).1 = .returned false ∧
      ((handleUDPBinary order u).2.sent = u.sent ∨
        (handleUDPBinary order u).2.sent = u.sent ++ [(init_msg order).toBytes order])) := by
  refine ⟨?_, ?_, ?_, ?_⟩
  · intro record hsent
    rcases handleTCPBinary_trace order s n resp s1 hG with h | h | h | h
    · rw [h.2.2] at hsent
      simp at hsent
    · rw [h.2.2.2.2] at hsent
      simp at hsent
    · rw [h.2.2.2.2.2.2.2.2] at hsent
      simp at hsent
    · exact ⟨h.2.2.2.1, h.2.2.2.2.1, h.2.2.2.2.2.1⟩
  · intro _ hne
    rcases handleTCPBinary_trace order s n resp s1 hG with h | h | h | h
    · exact ⟨h.2.1, Or.inl h.2.2⟩
    · exact ⟨h.2.2.2.1, Or.inr h.2.2.2.2⟩
    · obtain ⟨-, -, -, h1, h2, h3, -⟩ := h
      rcases hne with e | e | e
      · exact absurd h1 e
      · exact absurd h2 e
      · exact absurd h3 e
    · obtain ⟨-, -, -, h1, h2, h3, -⟩ := h
      rcases hne with e | e | e
      · exact absurd h1 e
      · exact absurd h2 e
      · exact absurd h3 e
  · intro record hsent
    rcases handleUDPBinary_trace order u with h | h | h | h
    · rw [h.2.2] at hsent
      simp at hsent
    · rw [h.2.2] at hsent
      simp at hsent
    · rw [h.2.2.2.2.2.2.2] at hsent
      simp at hsent
    · exact ⟨h.2.2.1, h.2.2.2.1, h.2.2.2.2.1⟩
  · intro _ hne
    rcases handleUDPBinary_trace order u with h | h | h | h
    · exact ⟨h.2.1, Or.inl h.2.2⟩
    · exact ⟨h.2.1, Or.inr h.2.2⟩
    · obtain ⟨-, -, h1, h2, h3, -⟩ := h
      rcases hne with e | e | e
      · exact absurd h1 e
      · exact absurd h2 e
      · exact absurd h3 e
    · obtain ⟨-, -, h1, h2, h3, -⟩ := h
      rcases hne with e | e | e
      · exact absurd h1 e
      · exact absurd h2 e
      · exact absurd h3 e

theorem result_only_if_type_version_witness :
    ((handleTCPBinary .little
        ⟨[.data (bytes "BINARY TCP 1.1\n\n"),
          .data (be16 1 ++ be16 1 ++ be16 2 ++ be32 7 ++ be32 ARITH_DIV ++
            be32 (toUInt32 INT32_MIN) ++ be32 (toUInt32 (-1)) ++ be32 0),
          .data (be16 22 ++ be16 1 ++ be16 17 ++ be16 1 ++ be16 1)], [], false, []⟩).1 =
        .returned false ∧
      ((handleTCPBinary .little
          ⟨[.data (bytes "BINARY TCP 1.1\n\n"),
            .data (be16 1 ++ be16 1 ++ be16 2 ++ be32 7 ++ be32 ARITH_DIV ++
              be32 (toUInt32 INT32_MIN) ++ be32 (toUInt32 (-1)) ++ be32 0),
            .data (be16 22 ++ be16 1 ++ be16 17 ++ be16 1 ++ be16 1)], [], false, []⟩).2.sent =
          [] ∨
        (handleTCPBinary .little
          ⟨[.data (bytes "BINARY TCP 1.1\n\n"),
            .data (be16 1 ++ be16 1 ++ be16 2 ++ be32 7 ++ be32 ARITH_DIV ++
              be32 (toUInt32 INT32_MIN) ++ be32 (toUInt32 (-1)) ++ be32 0),
            .data (be16 22 ++ be16 1 ++ be16 17 ++ be16 1 ++ be16 1)], [], false, []⟩).2.sent =
          [] ++ [bytes "BINARY TCP 1.1 OK\n"])) ∧
    (decode_calcProtocol .little (received (recvfrom
        ⟨[.data (be16 1 ++ be16 1 ++ be16 1 ++ be32 7 ++ be32 ARITH_ADD ++ be32 5 ++ be32 3 ++
            be32 0),
          .data (be16 22 ++ be16 1 ++ be16 17 ++ be16 1 ++ be16 1)], [], false, []⟩
        1024).1)).type = MSG_TYPE_CALC_PROTOCOL ∧
    ((handleUDPBinary .little
        ⟨[.data (be16 2 ++ be16 1 ++ be16 1 ++ be32 7 ++ be32 ARITH_ADD ++ be32 5 ++ be32 3 ++
          be32 0)], [], false, []⟩).1 = .returned false) :=
  have h := result_only_if_type_version .little
    ⟨[.data (bytes "BINARY TCP 1.1\n\n"),
      .data (be16 1 ++ be16 1 ++ be16 2 ++ be32 7 ++ be32 ARITH_DIV ++
        be32 (toUInt32 INT32_MIN) ++ be32 (toUInt32 (-1)) ++ be32 0),
      .data (be16 22 ++ be16 1 ++ be16 17 ++ be16 1 ++ be16 1)], [], false, []⟩
    ⟨[.data (be16 1 ++ be16 1 ++ be16 1 ++ be32 7 ++ be32 ARITH_ADD ++ be32 5 ++ be32 3 ++
        be32 0),
      .data (be16 22 ++ be16 1 ++ be16 17 ++ be16 1 ++ be16 1)], [], false, []⟩
    16 (bytes "BINARY TCP 1.1\n\n")
    ⟨[.data (be16 1 ++ be16 1 ++ be16 2 ++ be32 7 ++ be32 ARITH_DIV ++
        be32 (toUInt32 INT32_MIN) ++ be32 (toUInt32 (-1)) ++ be32 0),
      .data (be16 22 ++ be16 1 ++ be16 17 ++ be16 1 ++ be16 1)], [], false, []⟩
    (by decide)
  have h' := result_only_if_type_version .little
    ⟨[.data (bytes "BINARY TCP 1.1\n\n")], [], false, []⟩
    ⟨[.data (be16 2 ++ be16 1 ++ be16 1 ++ be32 7 ++ be32 ARITH_ADD ++ be32 5 ++ be32 3 ++
      be32 0)], [], false, []⟩
    16 (bytes "BINARY TCP 1.1\n\n") ⟨[], [], false, []⟩ (by decide)
  ⟨h.2.1 (by decide) (by decide),
    (h.2.2.1 (be16 1 ++ be16 1 ++ be16 1 ++ be32 7 ++ be32 ARITH_ADD ++ be32 5 ++ be32 3 ++
      be32 8) (by decide)).1,
    (h'.2.2.2 (by decide) (by decide)).1⟩

/-- C24: a binary routine returns success only if the receive call for the verdict returned
exactly 10 bytes and these decode to type 22 with message code 1; for a datagram, only if
the verdict datagram is 10 bytes long. Once the result record has been sent, a verdict of
another length, of another type, or with message code 2 or any other code than 1 makes the
routine return failure. -/
theorem success_only_if_verdict_ok (order : ByteOrder) (s u : Socket) (n : Int)
    (resp : List Nat) (s1 : Socket)
    (hG : recvGreeting (pending s + 1) s [] = some (n, resp, s1)) :
    ((handleTCPBinary order s).1 = .returned true →
      bytes_read (recv (recv s1 sizeof_calcProtocol).2 sizeof_calcMessage).1 = 10 ∧
      (decode_calcMessage order
        (received (recv (recv s1 sizeof_calcProtocol).2 sizeof_calcMessage).1)).type =
          MSG_TYPE_CALC_MESSAGE ∧
      (decode_calcMessage order
        (received (recv (recv s1 sizeof_calcProtocol).2 sizeof_calcMessage).1)).message =
          1) ∧
    (∀ record,
      (handleTCPBinary order s).2.sent = s.sent ++ [bytes "BINARY TCP 1.1 OK\n", record] →
      (bytes_read (recv (recv s1 sizeof_calcProtocol).2 sizeof_calcMessage).1 ≠ 10 ∨
        (decode_calcMessage order
          (received (recv (recv s1 sizeof_calcProtocol).2 sizeof_calcMessage).1)).type ≠
            MSG_TYPE_CALC_MESSAGE ∨
        (decode_calcMessage order
          (received (recv (recv s1 sizeof_calcProtocol).2 sizeof_calcMessage).1)).message ≠
            1) →
      (handleTCPBinary order s).1 = .returned false) ∧
    ((handleUDPBinary order u).1 = .returned true →
      bytes_read (recvfrom (recvfrom u 1024).2 1024).1 = 10 ∧
      ((calcMessage.ofBytes order
        (received (recvfrom (recvfrom u 1024).2 1024).1)).ntoh_head order).type =
          MSG_TYPE_CALC_MESSAGE ∧
      ((calcMessage.ofBytes order
        (received (recvfrom (recvfrom u 1024).2 1024).1)).ntoh_head order).message = 1 ∧
      ∀ d v rest, u.incoming = .data d :: .data v :: rest → v.length = 10) ∧
    (∀ record,
      (handleUDPBinary order u).2.sent = u.sent ++ [(init_msg order).toBytes order, record] →
      (bytes_read (recvfrom (recvfrom u 1024).2 1024).1 ≠ 10 ∨
        ((calcMessage.ofBytes order
          (received (recvfrom (recvfrom u 1024).2 1024).1)).ntoh_head order).type ≠
            MSG_TYPE_CALC_MESSAGE ∨
        ((calcMessage.ofBytes order
          (received (recvfrom (recvfrom u 1024).2 1024).1)).ntoh_head order).message ≠ 1) →
      (handleUDPBinary order u).1 = .returned false) := by
  refine ⟨?_, ?_, ?_, ?_⟩
  · intro h
    obtain ⟨-, -, -, -, -, -, hv, hok⟩ := handleTCPBinary_success order s n resp s1 hG h
    rw [sizeof_calcMessage_eq] at hv
    exact ⟨hv, (verdict_eq_true_iff _).mp hok⟩
  · intro record hsent hbad
    rcases handleTCPBinary_trace order s n resp s1 hG with h | h | h | h
    · exact h.2.1
    · exact h.2.2.2.1
    · rw [h.2.2.2.2.2.2.2.2] at hsent
      simp at hsent
    · obtain ⟨-, -, -, -, -, -, result, -, -, hex⟩ := h
      rw [hex]
      congr 1
      rw [Bool.and_eq_false_iff]
      rcases hbad with e | e
      · left
        rw [sizeof_calcMessage_eq]
        simpa using e
      · right
        rw [← Bool.not_eq_true, verdict_eq_true_iff]
        rcases e with e | e
        · exact fun hc => e hc.1
        · exact fun hc => e hc.2
  · intro h
    obtain ⟨-, -, -, -, hv, hok⟩ := handleUDPBinary_success order u h
    rw [sizeof_calcMessage_eq] at hv
    refine ⟨hv, ((verdict_eq_true_iff _).mp hok).1, ((verdict_eq_true_iff _).mp hok).2, ?_⟩
    intro d v rest hin
    by_contra hlen
    have hin2 : (recvfrom u 1024).2.incoming = .data v :: rest := recvfrom_datagram u d _ hin
    exact bytes_read_recvfrom_datagram (recvfrom u 1024).2 v rest 10 (by decide) hin2 hlen hv
  · intro record hsent hbad
    rcases handleUDPBinary_trace order u with h | h | h | h
    · exact h.2.1
    · exact h.2.1
    · rw [h.2.2.2.2.2.2.2] at hsent
      simp at hsent
    · obtain ⟨-, -, -, -, -, result, -, -, hex⟩ := h
      rw [hex]
      congr 1
      rw [Bool.and_eq_false_iff]
      rcases hbad with e | e
      · left
        rw [sizeof_calcMessage_eq]
        simpa using e
      · right
        rw [← Bool.not_eq_true, verdict_eq_true_iff]
        rcases e with e | e
        · exact fun hc => e hc.1
        · exact fun hc => e hc.2

theorem success_only_if_verdict_ok_witness :
    (decode_calcMessage .little (received (recv (recv
        ⟨[.data (be16 1 ++ be16 1 ++ be16 1 ++ be32 7 ++ be32 ARITH_ADD ++ be32 5 ++ be32 3 ++
            be32 0),
          .data (be16 22 ++ be16 1 ++ be16 17 ++ be16 1 ++ be16 1)], [], false, []⟩
        sizeof_calcProtocol).2 sizeof_calcMessage).1)).message = 1 ∧
    (handleUDPBinary .little
      ⟨[.data (be16 1 ++ be16 1 ++ be16 1 ++ be32 7 ++ be32 ARITH_ADD ++ be32 5 ++ be32 3 ++
          be32 0),
        .data (be16 22 ++ be16 2 ++ be16 17 ++ be16 1 ++ be16 1)], [], false, []⟩).1 =
      .returned false ∧
    (handleTCPBinary .big
      ⟨[.data (bytes "BINARY TCP 1.1\n\n"),
        .data (be16 1 ++ be16 1 ++ be16 1 ++ be32 7 ++ be32 ARITH_ADD ++ be32 5 ++ be32 3 ++
          be32 0),
        .data (be16 21 ++ be16 1 ++ be16 17 ++ be16 1 ++ be16 1)], [], false, []⟩).1 =
      .returned false ∧
    (∀ d v rest,
      (⟨[.data (be16 1 ++ be16 1 ++ be16 1 ++ be32 7 ++ be32 ARITH_ADD ++ be32 5 ++ be32 3 ++
          be32 0),
        .data (be16 22 ++ be16 1 ++ be16 17 ++ be16 1 ++ be16 1)], [], false, []⟩ :
          Socket).incoming = .data d :: .data v :: rest → v.length = 10) :=
  have h := success_only_if_verdict_ok .little
    ⟨[.data (bytes "BINARY TCP 1.1\n\n"),
      .data (be16 1 ++ be16 1 ++ be16 1 ++ be32 7 ++ be32 ARITH_ADD ++ be32 5 ++ be32 3 ++
        be32 0),
      .data (be16 22 ++ be16 1 ++ be16 17 ++ be16 1 ++ be16 1)], [], false, []⟩
    ⟨[.data (be16 1 ++ be16 1 ++ be16 1 ++ be32 7 ++ be32 ARITH_ADD ++ be32 5 ++ be32 3 ++
        be32 0),
      .data (be16 22 ++ be16 2 ++ be16 17 ++ be16 1 ++ be16 1)], [], false, []⟩
    16 (bytes "BINARY TCP 1.1\n\n")
    ⟨[.data (be16 1 ++ be16 1 ++ be16 1 ++ be32 7 ++ be32 ARITH_ADD ++ be32 5 ++ be32 3 ++
        be32 0),
      .data (be16 22 ++ be16 1 ++ be16 17 ++ be16 1 ++ be16 1)], [], false, []⟩
    (by decide)
  have h' := success_only_if_verdict_ok .big
    ⟨[.data (bytes "BINARY TCP 1.1\n\n"),
      .data (be16 1 ++ be16 1 ++ be16 1 ++ be32 7 ++ be32 ARITH_ADD ++ be32 5 ++ be32 3 ++
        be32 0),
      .data (be16 21 ++ be16 1 ++ be16 17 ++ be16 1 ++ be16 1)], [], false, []⟩
    ⟨[.data (be16 1 ++ be16 1 ++ be16 1 ++ be32 7 ++ be32 ARITH_ADD ++ be32 5 ++ be32 3 ++
        be32 0),
      .data (be16 22 ++ be16 1 ++ be16 17 ++ be16 1 ++ be16 1)], [], false, []⟩
    16 (bytes "BINARY TCP 1.1\n\n")
    ⟨[.data (be16 1 ++ be16 1 ++ be16 1 ++ be32 7 ++ be32 ARITH_ADD ++ be32 5 ++ be32 3 ++
        be32 0),
      .data (be16 21 ++ be16 1 ++ be16 17 ++ be16 1 ++ be16 1)], [], false, []⟩
    (by decide)
  ⟨(h.1 (by decide)).2.2,
    h.2.2.2 (be16 1 ++ be16 1 ++ be16 1 ++ be32 7 ++ be32 ARITH_ADD ++ be32 5 ++ be32 3 ++
      be32 8) (by decide) (by decide),
    h'.2.1 (be16 1 ++ be16 1 ++ be16 1 ++ be32 7 ++ be32 ARITH_ADD ++ be32 5 ++ be32 3 ++
      be32 8) (by decide) (by decide),
    (h'.2.2.1 (by decide)).2.2.2⟩

/-! ## Theorems: no state of a session is retried -/

/-- The decimal text of an integer starts with a minus sign or a digit. -/
theorem to_string_head (v : Int) :
    ∃ c t, to_string v = c :: t ∧ (c = 45 ∨ isdigit c = true) := by
  obtain ⟨ds, h, hne, hd, -, -⟩ := to_string_spec v
  by_cases hv : v < 0
  · exact ⟨45, ds, by simpa [hv] using h, Or.inl rfl⟩
  · cases ds with
    | nil => exact absurd rfl hne
    | cons d t => exact ⟨d, t, by simpa [hv] using h, Or.inr (hd d (List.mem_cons_self d t))⟩

/-- A result line differs from every text that starts with the letter `T`. -/
theorem result_line_ne (v : Int) (t : List Nat) : 84 :: t ≠ to_string v ++ bytes "\n" := by
  obtain ⟨c, r, h, hc⟩ := to_string_head v
  rw [h]
  intro he
  simp only [List.cons_append, List.cons.injEq] at he
  rcases hc with hc | hc
  · omega
  · rw [← he.1] at hc
    exact absurd hc (by decide)

/-- A result record has 26 bytes. -/
theorem length_hton_toBytes (order : ByteOrder) (m : calcProtocol) (result : Int) :
    ((m.hton order result).toBytes order).length = 26 := by
  rw [hton_toBytes_wire]
  simp [be16, be32]

/-- The messages `handleTCPText` transmits: at most two, and not the same one twice. -/
theorem handleTCPText_shape (s : Socket) :
    ∃ extra, (handleTCPText s).2.sent = s.sent ++ extra ∧ extra.length ≤ 2 ∧ extra.Nodup := by
  obtain ⟨n, resp, s1, hG⟩ := recvGreeting_total s
  rcases handleTCPText_trace s n resp s1 hG with h | h | h | h
  · exact ⟨[], by simpa using h.2.2, by simp, by simp⟩
  · exact ⟨_, h.2.2.2.2, by simp, by simp⟩
  · obtain ⟨-, -, -, _, _, _, -, -, -, hs⟩ := h
    exact ⟨_, hs, by simp, by simp⟩
  · obtain ⟨-, -, -, _, _, _, result, -, -, hs, -⟩ := h
    exact ⟨_, hs, by simp, by simpa using result_line_ne result _⟩

/-- The messages `handleUDPText` transmits: at most two, and not the same one twice. -/
theorem handleUDPText_shape (u : Socket) :
    ∃ extra, (handleUDPText u).2.sent = u.sent ++ extra ∧ extra.length ≤ 2 ∧ extra.Nodup := by
  rcases handleUDPText_trace u with h | h | h | h
  · exact ⟨[], by simpa using h.2.2, by simp, by simp⟩
  · exact ⟨_, h.2.2, by simp, by simp⟩
  · obtain ⟨-, -, _, _, _, -, -, -, hs⟩ := h
    exact ⟨_, hs, by simp, by simp⟩
  · obtain ⟨-, -, _, _, _, result, -, -, hs, -⟩ := h
    exact ⟨_, hs, by simp, by simpa using result_line_ne result _⟩

/-- The messages `handleTCPBinary` transmits: at most two, and not the same one twice. -/
theorem handleTCPBinary_shape (order : ByteOrder) (s : Socket) :
    ∃ extra, (handleTCPBinary order s).2.sent = s.sent ++ extra ∧ extra.length ≤ 2 ∧
      extra.Nodup := by
  obtain ⟨n, resp, s1, hG⟩ := recvGreeting_total s
  rcases handleTCPBinary_trace order s n resp s1 hG with h | h | h | h
  · exact ⟨[], by simpa using h.2.2, by simp, by simp⟩
  · exact ⟨_, h.2.2.2.2, by simp, by simp⟩
  · exact ⟨_, h.2.2.2.2.2.2.2.2, by simp, by simp⟩
  · obtain ⟨-, -, -, -, -, -, result, -, hs, -⟩ := h
    refine ⟨_, hs, by simp, ?_⟩
    simp only [List.nodup_cons, List.mem_singleton, List.not_mem_nil, not_false_eq_true,
      List.nodup_nil, and_true]
    intro he
    have := congrArg List.length he
    rw [length_hton_toBytes] at this
    exact absurd this (by decide)

/-- The messages `handleUDPBinary` transmits: at most two, and not the same one twice. -/
theorem handleUDPBinary_shape (order : ByteOrder) (u : Socket) :
    ∃ extra, (handleUDPBinary order u).2.sent = u.sent ++ extra ∧ extra.length ≤ 2 ∧
      extra.Nodup := by
  rcases handleUDPBinary_trace order u with h | h | h | h
  · exact ⟨[], by simpa using h.2.2, by simp, by simp⟩
  · exact ⟨_, h.2.2, by simp, by simp⟩
  · exact ⟨_, h.2.2.2.2.2.2.2, by simp, by simp⟩
  · obtain ⟨-, -, -, -, -, result, -, hs, -⟩ := h
    refine ⟨_, hs, by simp, ?_⟩
    simp only [List.nodup_cons, List.mem_singleton, List.not_mem_nil, not_false_eq_true,
      List.nodup_nil, and_true]
    intro he
    have := congrArg List.length he
    rw [length_hton_toBytes, init_msg_toBytes] at this
    exact absurd this (by decide)

/-- The datagram routines always return or stop at an undefined division. -/
theorem handleUDP_finishes (order : ByteOrder) (u : Socket) :
    (handleUDPText u).1 ≠ .unfinished ∧ (handleUDPBinary order u).1 ≠ .unfinished := by
  constructor
  · rcases handleUDPText_trace u with h | h | h | h
    · rw [h.2.1]; simp
    · rw [h.2.1]; simp
    · obtain ⟨-, -, _, _, _, -, -, he, -⟩ := h
      rw [he]; simp
    · obtain ⟨-, -, _, _, _, _, -, -, -, he⟩ := h
      rw [he]; simp
  · rcases handleUDPBinary_trace order u with h | h | h | h
    · rw [h.2.1]; simp
    · rw [h.2.1]; simp
    · rw [h.2.2.2.2.2.2.1]; simp
    · obtain ⟨-, -, -, -, -, _, -, -, he⟩ := h
      rw [he]; simp

/-- C25: whatever the peer delivers, each of the four handshake routines ends, having
transmitted at most two messages and no message twice. A failure before anything is sent
(no greeting, no capability line) returns failure with nothing transmitted; a failure at the
assignment (receive, size, decoding, type or version check) returns failure with at most the
acceptance or greeting transmitted; a failure at the verdict returns failure with nothing
transmitted after the result. -/
theorem no_retry (order : ByteOrder) (s u : Socket) (n : Int) (resp : List Nat)
    (s1 : Socket) (hG : recvGreeting (pending s + 1) s [] = some (n, resp, s1)) :
    ((∃ extra, (handleTCPText s).2.sent = s.sent ++ extra ∧ extra.length ≤ 2 ∧
        extra.Nodup) ∧
      (∃ extra, (handleTCPBinary order s).2.sent = s.sent ++ extra ∧ extra.length ≤ 2 ∧
        extra.Nodup) ∧
      (∃ extra, (handleUDPText u).2.sent = u.sent ++ extra ∧ extra.length ≤ 2 ∧
        extra.Nodup) ∧
      (∃ extra, (handleUDPBinary order u).2.sent = u.sent ++ extra ∧ extra.length ≤ 2 ∧
        extra.Nodup)) ∧
    ((handleTCPText s).1 ≠ .unfinished ∧ (handleTCPBinary order s).1 ≠ .unfinished ∧
      (handleUDPText u).1 ≠ .unfinished ∧ (handleUDPBinary order u).1 ≠ .unfinished) ∧
    ((n ≤ 0 ∨ find resp (bytes "TEXT TCP 1.1\n") = none →
        (handleTCPText s).1 = .returned false ∧ (handleTCPText s).2.sent = s.sent) ∧
      (bytes_read (recv s1 1023).1 ≤ 0 ∨
          extractAssignment (pop_newline (c_str (received (recv s1 1023).1))) = none →
        (handleTCPText s).1 = .returned false ∧
        ((handleTCPText s).2.sent = s.sent ∨
          (handleTCPText s).2.sent = s.sent ++ [bytes "TEXT TCP 1.1 OK\n"])) ∧
      (∀ m, (handleTCPText s).2.sent = s.sent ++ [bytes "TEXT TCP 1.1 OK\n", m] →
        (bytes_read (recv (recv s1 1023).2 1023).1 ≤ 0 ∨
          pop_newline (c_str (received (recv (recv s1 1023).2 1023).1)) ≠ bytes "OK") →
        (handleTCPText s).1 = .returned false)) ∧
    ((n ≤ 0 ∨ find resp (bytes "BINARY TCP 1.1\n") = none →
        (handleTCPBinary order s).1 = .returned false ∧
        (handleTCPBinary order s).2.sent = s.sent) ∧
      (bytes_read (recv s1 sizeof_calcProtocol).1 ≠ (sizeof_calcProtocol : Int) ∨
          (decode_calcProtocol order (received (recv s1 sizeof_calcProtocol).1)).type ≠
            MSG_TYPE_CALC_PROTOCOL ∨
          (decode_calcProtocol order
            (received (recv s1 sizeof_calcProtocol).1)).major_version ≠ MAJOR_VERSION ∨
          (decode_calcProtocol order
            (received (recv s1 sizeof_calcProtocol).1)).minor_version ≠ MINOR_VERSION →
        (handleTCPBinary order s).1 = .returned false ∧
        ((handleTCPBinary order s).2.sent = s.sent ∨
          (handleTCPBinary order s).2.sent = s.sent ++ [bytes "BINARY TCP 1.1 OK\n"])) ∧
      (∀ m, (handleTCPBinary order s).2.sent = s.sent ++ [bytes "BINARY TCP 1.1 OK\n", m] →
        (bytes_read (recv (recv s1 sizeof_calcProtocol).2 sizeof_calcMessage).1 ≠
            (sizeof_calcMessage : Int) ∨
          verdict (decode_calcMessage order
            (received (recv (recv s1 sizeof_calcProtocol).2 sizeof_calcMessage).1)) =
              false) →
        (handleTCPBinary order s).1 = .returned false)) ∧
    ((bytes_read (recvfrom u 1023).1 < 0 ∨
          extractAssignment (pop_newline (c_str (received (recvfrom u 1023).1))) = none →
        (handleUDPText u).1 = .returned false ∧
        ((handleUDPText u).2.sent = u.sent ∨
          (handleUDPText u).2.sent = u.sent ++ [bytes "TEXT UDP 1.1\n"])) ∧
      (∀ m, (handleUDPText u).2.sent = u.sent ++ [bytes "TEXT UDP 1.1\n", m] →
        (bytes_read (recvfrom (recvfrom u 1023).2 1023).1 < 0 ∨
          pop_newline (c_str (received (recvfrom (recvfrom u 1023).2 1023).1)) ≠
            bytes "OK") →
        (handleUDPText u).1 = .returned false)) ∧
    ((bytes_read (recvfrom u 1024).1 ≠ (sizeof_calcProtocol : Int) ∨
          (decode_calcProtocol order (received (recvfrom u 1024).1)).type ≠
            MSG_TYPE_CALC_PROTOCOL ∨
          (decode_calcProtocol order (received (recvfrom u 1024).1)).major_version ≠
            MAJOR_VERSION ∨
          (decode_calcProtocol order (received (recvfrom u 1024).1)).minor_version ≠
            MINOR_VERSION →
        (handleUDPBinary order u).1 = .returned false ∧
        ((handleUDPBinary order u).2.sent = u.sent ∨
          (handleUDPBinary order u).2.sent = u.sent ++ [(init_msg order).toBytes order])) ∧
      (∀ m, (handleUDPBinary order u).2.sent =
          u.sent ++ [(init_msg order).toBytes order, m] →
        (bytes_read (recvfrom (recvfrom u 1024).2 1024).1 ≠ (sizeof_calcMessage : Int) ∨
          verdict ((calcMessage.ofBytes order
            (received (recvfrom (recvfrom u 1024).2 1024).1)).ntoh_head order) = false) →
        (handleUDPBinary order u).1 = .returned false)) := by
  refine ⟨⟨handleTCPText_shape s, handleTCPBinary_shape order s, handleUDPText_shape u,
    handleUDPBinary_shape order u⟩,
    ⟨handleTCPText_finishes s, handleTCPBinary_finishes order s,
      (handleUDP_finishes order u).1, (handleUDP_finishes order u).2⟩,
    ⟨?_, ?_, ?_⟩, ⟨?_, ?_, ?_⟩, ⟨?_, ?_⟩, ⟨?_, ?_⟩⟩
  · intro hbad
    rcases handleTCPText_trace s n resp s1 hG with h | h | h | h
    · exact ⟨h.2.1, h.2.2⟩
    all_goals
      obtain ⟨hn, hcap, -⟩ := h
      rcases hbad with e | e
      · omega
      · exact absurd e hcap
  · intro hbad
    rcases handleTCPText_trace s n resp s1 hG with h | h | h | h
    · exact ⟨h.2.1, Or.inl h.2.2⟩
    · exact ⟨h.2.2.2.1, Or.inr h.2.2.2.2⟩
    · obtain ⟨-, -, hpos, _, _, _, hp, -⟩ := h
      rcases hbad with e | e
      · omega
      · rw [hp] at e
        exact Option.noConfusion e
    · obtain ⟨-, -, hpos, _, _, _, _, hp, -⟩ := h
      rcases hbad with e | e
      · omega
      · rw [hp] at e
        exact Option.noConfusion e
  · intro m hsent hbad
    rcases handleTCPText_trace s n resp s1 hG with h | h | h | h
    · exact h.2.1
    · exact h.2.2.2.1
    · obtain ⟨-, -, -, _, _, _, -, -, -, hs⟩ := h
      rw [hs] at hsent
      simp at hsent
    · obtain ⟨-, -, -, _, _, _, _, -, -, -, hex⟩ := h
      rw [hex]
      congr 1
      rw [Bool.and_eq_false_iff]
      rcases hbad with e | e
      · left
        simp only [decide_eq_false_iff_not]
        omega
      · right
        simpa using e
  · intro hbad
    rcases handleTCPBinary_trace order s n resp s1 hG with h | h | h | h
    · exact ⟨h.2.1, h.2.2⟩
    all_goals
      obtain ⟨hn, hcap, -⟩ := h
      rcases hbad with e | e
      · omega
      · exact absurd e hcap
  · intro hbad
    rcases handleTCPBinary_trace order s n resp s1 hG with h | h | h | h
    · exact ⟨h.2.1, Or.inl h.2.2⟩
    · exact ⟨h.2.2.2.1, Or.inr h.2.2.2.2⟩
    all_goals
      obtain ⟨-, -, h0, h1, h2, h3, -⟩ := h
      rcases hbad with e | e | e | e
      · exact absurd h0 e
      · exact absurd h1 e
      · exact absurd h2 e
      · exact absurd h3 e
  · intro m hsent hbad
    rcases handleTCPBinary_trace order s n resp s1 hG with h | h | h | h
    · exact h.2.1
    · exact h.2.2.2.1
    · rw [h.2.2.2.2.2.2.2.2] at hsent
      simp at hsent
    · obtain ⟨-, -, -, -, -, -, _, -, -, hex⟩ := h
      rw [hex]
      congr 1
      rw [Bool.and_eq_false_iff]
      rcases hbad with e | e
      · left
        simpa using e
      · right
        exact e
  · intro hbad
    rcases handleUDPText_trace u with h | h | h | h
    · exact ⟨h.2.1, Or.inl h.2.2⟩
    · exact ⟨h.2.1, Or.inr h.2.2⟩
    · obtain ⟨-, hpos, _, _, _, hp, -⟩ := h
      rcases hbad with e | e
      · omega
      · rw [hp] at e
        exact Option.noConfusion e
    · obtain ⟨-, hpos, _, _, _, _, hp, -⟩ := h
      rcases hbad with e | e
      · omega
      · rw [hp] at e
        exact Option.noConfusion e
  · intro m hsent hbad
    rcases handleUDPText_trace u with h | h | h | h
    · exact h.2.1
    · exact h.2.1
    · obtain ⟨-, -, _, _, _, -, -, -, hs⟩ := h
      rw [hs] at hsent
      simp at hsent
    · obtain ⟨-, -, _, _, _, _, -, -, -, hex⟩ := h
      rw [hex]
      congr 1
      rw [Bool.and_eq_false_iff]
      rcases hbad with e | e
      · left
        simp only [decide_eq_false_iff_not]
        omega
      · right
        simpa using e
  · intro hbad
    rcases handleUDPBinary_trace order u with h | h | h | h
    · exact ⟨h.2.1, Or.inl h.2.2⟩
    · exact ⟨h.2.1, Or.inr h.2.2⟩
    all_goals
      obtain ⟨-, h0, h1, h2, h3, -⟩ := h
      rcases hbad with e | e | e | e
      · exact absurd h0 e
      · exact absurd h1 e
      · exact absurd h2 e
      · exact absurd h3 e
  · intro m hsent hbad
    rcases handleUDPBinary_trace order u with h | h | h | h
    · exact h.2.1
    · exact h.2.1
    · rw [h.2.2.2.2.2.2.2] at hsent
      simp at hsent
    · obtain ⟨-, -, -, -, -, _, -, -, hex⟩ := h
      rw [hex]
      congr 1
      rw [Bool.and_eq_false_iff]
      rcases hbad with e | e
      · left
        simpa using e
      · right
        exact e

theorem no_retry_witness :
    (handleTCPText ⟨[.data (bytes "TEXT TCP 1.1\n\n"), .data (bytes "add 5 3\n"), .error],
      [], false, []⟩).1 = .returned false ∧
    ((handleTCPBinary .little
        ⟨[.data (bytes "TEXT TCP 1.1\n\n"), .data (bytes "add 5 3\n"), .error],
          [], false, []⟩).1 = .returned false ∧
      (handleTCPBinary .little
        ⟨[.data (bytes "TEXT TCP 1.1\n\n"), .data (bytes "add 5 3\n"), .error],
          [], false, []⟩).2.sent = []) ∧
    ((handleUDPText ⟨[.data (bytes "hello\n"), .data (bytes "OK\n")], [], false, []⟩).1 =
        .returned false ∧
      ((handleUDPText ⟨[.data (bytes "hello\n"), .data (bytes "OK\n")], [], false, []⟩).2.sent =
          [] ∨
        (handleUDPText ⟨[.data (bytes "hello\n"), .data (bytes "OK\n")], [], false, []⟩).2.sent =
          [] ++ [bytes "TEXT UDP 1.1\n"])) ∧
    ((handleUDPBinary .little
        ⟨[.data (bytes "hello\n"), .data (bytes "OK\n")], [], false, []⟩).1 = .returned false ∧
      ((handleUDPBinary .little
          ⟨[.data (bytes "hello\n"), .data (bytes "OK\n")], [], false, []⟩).2.sent = [] ∨
        (handleUDPBinary .little
          ⟨[.data (bytes "hello\n"), .data (bytes "OK\n")], [], false, []⟩).2.sent =
          [] ++ [(init_msg .little).toBytes .little])) :=
  have h := no_retry .little
    ⟨[.data (bytes "TEXT TCP 1.1\n\n"), .data (bytes "add 5 3\n"), .error], [], false, []⟩
    ⟨[.data (bytes "hello\n"), .data (bytes "OK\n")], [], false, []⟩
    14 (bytes "TEXT TCP 1.1\n\n") ⟨[.data (bytes "add 5 3\n"), .error], [], false, []⟩
    (by decide)
  ⟨h.2.2.1.2.2 (bytes "8\n") (by decide) (by decide),
    h.2.2.2.1.1 (by decide),
    h.2.2.2.2.1.1 (by decide),
    h.2.2.2.2.2.1 (by decide)⟩

/-! ## Theorems: operation names the engine does not know -/

/-- A receive call that stored at least one byte returned a positive count. -/
theorem bytes_read_pos_of_received (x : Option (List Nat)) (h : received x ≠ []) :
    0 < bytes_read x := by
  cases x with
  | none => exact absurd rfl h
  | some d =>
    cases d with
    | nil => exact absurd rfl h
    | cons a t => simp [bytes_read]

/-- A well-formed assignment line is parsed into its three tokens, whatever the operation
name is. -/
theorem extractAssignment_line (op : List Nat) (v1 v2 : Int) (hne : op ≠ [])
    (hop : ∀ c ∈ op, isspace c = false ∧ c ≠ 0) (hv1 : isInt32 v1) (hv2 : isInt32 v2) :
    extractAssignment (pop_newline (c_str
      (op ++ bytes " " ++ to_string v1 ++ bytes " " ++ to_string v2 ++ bytes "\n"))) =
        some (op, v1, v2) := by
  obtain ⟨hz1, -⟩ := to_string_chars v1 hv1
  obtain ⟨hz2, -⟩ := to_string_chars v2 hv2
  have hsp : bytes " " = [32] := rfl
  have hnl : bytes "\n" = [10] := rfl
  have hcstr : c_str (op ++ [32] ++ to_string v1 ++ [32] ++ to_string v2 ++ [10]) =
      op ++ [32] ++ to_string v1 ++ [32] ++ to_string v2 ++ [10] := by
    apply c_str_of_no_nul
    intro c hcm
    simp only [List.mem_append, List.mem_singleton] at hcm
    rcases hcm with ((((h | h) | h) | h) | h) | h
    · exact (hop c h).2
    · omega
    · exact hz1 c h
    · omega
    · exact hz2 c h
    · omega
  rw [hsp, hnl, hcstr, pop_newline_append]
  exact extractAssignment_text op v1 v2 hne (fun c h => (hop c h).1) hv1 hv2

/-- C26: in a text session an assignment line of three well-formed tokens whose operation
name is none of add, sub, mul, div (in any case) is not a format error: it is parsed, the
name is mapped to the code 0, `calculate` returns 0, and the routine sends the result line
with the text 0 and goes on to the verdict, which alone decides the return value. -/
theorem unknown_operation_answered_zero (s u : Socket) (n : Int) (resp : List Nat)
    (s1 : Socket) (op : List Nat) (v1 v2 : Int)
    (hG : recvGreeting (pending s + 1) s [] = some (n, resp, s1))
    (hn : 0 < n) (hcap : find resp (bytes "TEXT TCP 1.1\n") ≠ none)
    (hsend : sendsSucceed s)
    (hline : received (recv s1 1023).1 =
      op ++ bytes " " ++ to_string v1 ++ bytes " " ++ to_string v2 ++ bytes "\n")
    (hsend' : sendsSucceed u) (hopt' : u.setsockoptFails = false)
    (hline' : received (recvfrom u 1023).1 =
      op ++ bytes " " ++ to_string v1 ++ bytes " " ++ to_string v2 ++ bytes "\n")
    (hne : op ≠ []) (hop : ∀ c ∈ op, isspace c = false ∧ c ≠ 0)
    (hv1 : isInt32 v1) (hv2 : isInt32 v2)
    (hname : op.map tolower ∉ [bytes "add", bytes "sub", bytes "mul", bytes "div"]) :
    extractAssignment (pop_newline (c_str
      (op ++ bytes " " ++ to_string v1 ++ bytes " " ++ to_string v2 ++ bytes "\n"))) =
        some (op, v1, v2) ∧
    string_to_operation op = 0 ∧
    calculate (string_to_operation op) v1 v2 = some 0 ∧
    (handleTCPText s).2.sent = s.sent ++ [bytes "TEXT TCP 1.1 OK\n", bytes "0\n"] ∧
    (handleTCPText s).1 = .returned
      (decide (0 < bytes_read (recv (recv s1 1023).2 1023).1) &&
        decide (pop_newline (c_str (received (recv (recv s1 1023).2 1023).1)) =
          bytes "OK")) ∧
    (handleUDPText u).2.sent = u.sent ++ [bytes "TEXT UDP 1.1\n", bytes "0\n"] ∧
    (handleUDPText u).1 = .returned
      (decide (0 ≤ bytes_read (recvfrom (recvfrom u 1023).2 1023).1) &&
        decide (pop_newline (c_str (received (recvfrom (recvfrom u 1023).2 1023).1)) =
          bytes "OK")) := by
  have hparse := extractAssignment_line op v1 v2 hne hop hv1 hv2
  have hcs : c_str op = op := c_str_of_no_nul op (fun c h => (hop c h).2)
  have hzero : string_to_operation op = 0 := by
    rw [(string_to_operation_iff op).2.2.2.2, hcs]
    exact hname
  have hcalc : calculate (string_to_operation op) v1 v2 = some 0 := by
    rw [hzero]
    simp [calculate, ARITH_ADD, ARITH_SUB, ARITH_MUL, ARITH_DIV]
  have hz : to_string 0 ++ bytes "\n" = bytes "0\n" := by decide
  have hlne : op ++ bytes " " ++ to_string v1 ++ bytes " " ++ to_string v2 ++ bytes "\n" ≠
      [] := by
    cases op with
    | nil => exact absurd rfl hne
    | cons a t => simp
  have hpos : 0 < bytes_read (recv s1 1023).1 :=
    bytes_read_pos_of_received _ (by rw [hline]; exact hlne)
  have hpos' : 0 < bytes_read (recvfrom u 1023).1 :=
    bytes_read_pos_of_received _ (by rw [hline']; exact hlne)
  refine ⟨hparse, hzero, hcalc, ?_⟩
  rw [← hline] at hparse
  have hT : (handleTCPText s).2.sent = s.sent ++ [bytes "TEXT TCP 1.1 OK\n", bytes "0\n"] ∧
      (handleTCPText s).1 = .returned
        (decide (0 < bytes_read (recv (recv s1 1023).2 1023).1) &&
          decide (pop_newline (c_str (received (recv (recv s1 1023).2 1023).1)) =
            bytes "OK")) := by
    rcases handleTCPText_trace s n resp s1 hG with h | h | h | h
    · rcases h.1 with e | e | e
      · omega
      · exact absurd e hcap
      · exact absurd hsend e
    · rcases h.2.2.1 with e | e | e
      · omega
      · rw [hparse] at e
        exact Option.noConfusion e
      · exact absurd hsend e
    · obtain ⟨-, -, -, o, a, b, hp, hc, -⟩ := h
      rw [hparse] at hp
      simp only [Option.some.injEq, Prod.mk.injEq] at hp
      obtain ⟨rfl, rfl, rfl⟩ := hp
      rw [hcalc] at hc
      exact Option.noConfusion hc
    · obtain ⟨-, -, -, o, a, b, result, hp, hc, hs, hex⟩ := h
      rw [hparse] at hp
      simp only [Option.some.injEq, Prod.mk.injEq] at hp
      obtain ⟨rfl, rfl, rfl⟩ := hp
      rw [hcalc] at hc
      simp only [Option.some.injEq] at hc
      subst hc
      rw [hz] at hs
      exact ⟨hs, hex⟩
  refine ⟨hT.1, hT.2, ?_⟩
  rw [hline, ← hline'] at hparse
  rcases handleUDPText_trace u with h | h | h | h
  · exact absurd hsend' h.1
  · rcases h.1 with e | e | e | e
    · rw [hopt'] at e
      exact Bool.noConfusion e
    · omega
    · rw [hparse] at e
      exact Option.noConfusion e
    · exact absurd hsend' e
  · obtain ⟨-, -, o, a, b, hp, hc, -⟩ := h
    rw [hparse] at hp
    simp only [Option.some.injEq, Prod.mk.injEq] at hp
    obtain ⟨rfl, rfl, rfl⟩ := hp
    rw [hcalc] at hc
    exact Option.noConfusion hc
  · obtain ⟨-, -, o, a, b, result, hp, hc, hs, hex⟩ := h
    rw [hparse] at hp
    simp only [Option.some.injEq, Prod.mk.injEq] at hp
    obtain ⟨rfl, rfl, rfl⟩ := hp
    rw [hcalc] at hc
    simp only [Option.some.injEq] at hc
    subst hc
    rw [hz] at hs
    exact ⟨hs, hex⟩

theorem unknown_operation_answered_zero_witness :
    (handleTCPText ⟨[.data (bytes "TEXT TCP 1.1\n\n"), .data (bytes "Pow 2 -10\n"),
        .data (bytes "OK\n")], [], false, []⟩).2.sent =
      [] ++ [bytes "TEXT TCP 1.1 OK\n", bytes "0\n"] ∧
    (handleUDPText ⟨[.data (bytes "Pow 2 -10\n"), .data (bytes "ERROR\n")], [], false,
        []⟩).2.sent = [] ++ [bytes "TEXT UDP 1.1\n", bytes "0\n"] :=
  have h := unknown_operation_answered_zero
    ⟨[.data (bytes "TEXT TCP 1.1\n\n"), .data (bytes "Pow 2 -10\n"), .data (bytes "OK\n")],
      [], false, []⟩
    ⟨[.data (bytes "Pow 2 -10\n"), .data (bytes "ERROR\n")], [], false, []⟩
    14 (bytes "TEXT TCP 1.1\n\n")
    ⟨[.data (bytes "Pow 2 -10\n"), .data (bytes "OK\n")], [], false, []⟩
    (bytes "Pow") 2 (-10)
    (by decide) (by decide) (by decide) (by decide) (by decide) (by decide) (by decide)
    (by decide) (by decide) (by decide) (by decide) (by decide) (by decide)
  ⟨h.2.2.2.1, h.2.2.2.2.2.1⟩

end CalcClient
